import Mathlib

/-!
# VIP Cotisation: client onboarding flow (`src/src/App.jsx`)

A shallow embedding of the `ClientOnboardingPage` component: its React state
(`step`, `register`, `otp`, `pay`, `errors`, `localToast`, `loading`), the
validators, the OTP operations and the handlers wired to the buttons.

JavaScript strings are modelled by Lean strings (sequences of code points);
`length` counts UTF-16 code units as JavaScript does, and `trim` removes the
ECMAScript white space and line terminator characters.
-/

namespace Cotisation

/-! ## JavaScript string primitives -/

/-- ECMAScript `WhiteSpace` and `LineTerminator` code points, the characters
removed by `String.prototype.trim`. -/
def isJsWhiteSpace (c : Char) : Bool :=
  let n := c.toNat
  n == 0x09 || n == 0x0A || n == 0x0B || n == 0x0C || n == 0x0D || n == 0x20 ||
  n == 0xA0 || n == 0x1680 || (0x2000 ≤ n && n ≤ 0x200A) || n == 0x2028 ||
  n == 0x2029 || n == 0x202F || n == 0x205F || n == 0x3000 || n == 0xFEFF

/-- `String.prototype.trim` on a list of characters. -/
def trimChars (cs : List Char) : List Char :=
  ((cs.dropWhile isJsWhiteSpace).reverse.dropWhile isJsWhiteSpace).reverse

/-- `s.trim()`. -/
def jsTrim (s : String) : String := ⟨trimChars s.data⟩

/-- `s.length`: the number of UTF-16 code units of `s`. -/
def jsLength (s : String) : Nat :=
  (s.data.map fun c => if c.toNat < 0x10000 then 1 else 2).sum

/-- JavaScript truthiness of a string: `s` is truthy unless it is empty. -/
def truthy (s : String) : Bool := !s.data.isEmpty

/-- `xs` is a prefix of `ys`. -/
def startsWithChars : List Char → List Char → Bool
  | [], _ => true
  | _ :: _, [] => false
  | x :: xs, y :: ys => x == y && startsWithChars xs ys

/-- `sub` occurs in `cs` as a contiguous block. -/
def includesChars (sub : List Char) : List Char → Bool
  | [] => sub.isEmpty
  | c :: cs => startsWithChars sub (c :: cs) || includesChars sub cs

/-- `s.includes(sub)`. -/
def jsIncludes (s sub : String) : Bool := includesChars sub.data s.data

/-- `arr.join("")` on an array of strings. -/
def joinDigits (digits : List String) : String :=
  digits.foldl (fun acc d => acc ++ d) ""

/-! ## JavaScript numbers -/

/-- A JavaScript Number (IEEE-754 binary64). `fin neg m e` is the value
`(-1)^neg * m * 2^e`; the canonical form of a double has `e = -1074` and
`m < 2^52` (zero and subnormals) or `2^52 ≤ m < 2^53` and `-1074 ≤ e ≤ 971`. -/
inductive JsNumber where
  | nan
  | inf (neg : Bool)
  | fin (neg : Bool) (m : Nat) (e : Int)
  deriving DecidableEq, Repr

/-- Floor of the binary logarithm, by halving (`fuel` bounds the recursion). -/
def log2Aux : Nat → Nat → Nat
  | 0, _ => 0
  | fuel + 1, n => if n < 2 then 0 else log2Aux fuel (n / 2) + 1

/-- Floor of the binary logarithm of `n` (0 for `n ≤ 1`). -/
def ilog2 (n : Nat) : Nat := log2Aux n n

/-- The integer `e` with `2^e ≤ n/d < 2^(e+1)`, for `n, d > 0`. -/
def binExp (n d : Nat) : Int :=
  let e0 : Int := (ilog2 n : Int) - (ilog2 d : Int)
  let ge : Bool := if 0 ≤ e0 then d * 2 ^ e0.toNat ≤ n else d ≤ n * 2 ^ (-e0).toNat
  if ge then e0 else e0 - 1

/-- The integer nearest to `a/b`, ties to the even one. -/
def roundHalfEven (a b : Nat) : Nat :=
  let k := a / b
  let r := a % b
  if 2 * r < b then k
  else if b < 2 * r then k + 1
  else if k % 2 = 0 then k else k + 1

/-- The integer nearest to `(n/d) / 2^q`, ties to the even one. -/
def roundScaled (n d : Nat) (q : Int) : Nat :=
  if 0 ≤ q then roundHalfEven n (d * 2 ^ q.toNat) else roundHalfEven (n * 2 ^ (-q).toNat) d

/-- The double nearest to `(-1)^neg * n/d` (round to nearest, ties to even),
`d > 0`: the quotient is rounded to a multiple of `2^q`, `q` being the exponent
of the last mantissa bit in the binade of `n/d` (`-1074` for subnormals). -/
def roundFrac (neg : Bool) (n d : Nat) : JsNumber :=
  if n = 0 then .fin neg 0 (-1074)
  else
    let e := binExp n d
    let q : Int := max e (-1022) - 52
    let k := roundScaled n d q
    let (m, q) := if k = 2 ^ 53 then (2 ^ 52, q + 1) else (k, q)
    if 971 < q then .inf neg else .fin neg m q

/-- The double nearest to `(-1)^neg * m * 2^e`. -/
def roundDyadic (neg : Bool) (m : Nat) (e : Int) : JsNumber :=
  if 0 ≤ e then roundFrac neg (m * 2 ^ e.toNat) 1 else roundFrac neg m (2 ^ (-e).toNat)

/-- The double nearest to `(-1)^neg * m * 10^e`. -/
def roundDecimal (neg : Bool) (m : Nat) (e : Int) : JsNumber :=
  if 0 ≤ e then roundFrac neg (m * 10 ^ e.toNat) 1 else roundFrac neg m (10 ^ (-e).toNat)

/-- The Number for a natural number literal. -/
def JsNumber.ofNat (n : Nat) : JsNumber := roundFrac false n 1

/-- `Number.isNaN(x)`. -/
def JsNumber.isNaN : JsNumber → Bool
  | .nan => true
  | _ => false

/-- `Number.isFinite(x)`. -/
def JsNumber.isFinite : JsNumber → Bool
  | .fin _ _ _ => true
  | _ => false

/-- The integer `(-1)^neg * m * 2^(e - e0)`, for `e0 ≤ e`. -/
def scaledInt (neg : Bool) (m : Nat) (e e0 : Int) : Int :=
  (if neg then -1 else 1) * ((m * 2 ^ (e - e0).toNat : Nat) : Int)

/-- `x <= y`. -/
def JsNumber.le : JsNumber → JsNumber → Bool
  | .nan, _ => false
  | _, .nan => false
  | .inf n1, .inf n2 => n1 || !n2
  | .inf n1, .fin _ _ _ => n1
  | .fin _ _ _, .inf n2 => !n2
  | .fin n1 m1 e1, .fin n2 m2 e2 =>
    decide (scaledInt n1 m1 e1 (min e1 e2) ≤ scaledInt n2 m2 e2 (min e1 e2))

/-- `x * y`. -/
def JsNumber.mul : JsNumber → JsNumber → JsNumber
  | .nan, _ => .nan
  | _, .nan => .nan
  | .inf n1, .inf n2 => .inf (xor n1 n2)
  | .inf n1, .fin n2 m _ => if m = 0 then .nan else .inf (xor n1 n2)
  | .fin n1 m _, .inf n2 => if m = 0 then .nan else .inf (xor n1 n2)
  | .fin n1 m1 e1, .fin n2 m2 e2 => roundDyadic (xor n1 n2) (m1 * m2) (e1 + e2)

/-- `x + y`. -/
def JsNumber.add : JsNumber → JsNumber → JsNumber
  | .nan, _ => .nan
  | _, .nan => .nan
  | .inf n1, .inf n2 => if n1 = n2 then .inf n1 else .nan
  | .inf n1, .fin _ _ _ => .inf n1
  | .fin _ _ _, .inf n2 => .inf n2
  | .fin n1 m1 e1, .fin n2 m2 e2 =>
    let e := min e1 e2
    let s := scaledInt n1 m1 e1 e + scaledInt n2 m2 e2 e
    if s = 0 then .fin (n1 && n2) 0 (-1074)
    else roundDyadic (decide (s < 0)) s.natAbs e

/-- `Math.floor(x)`. -/
def JsNumber.floor : JsNumber → JsNumber
  | .nan => .nan
  | .inf neg => .inf neg
  | .fin neg m e =>
    if 0 ≤ e then .fin neg m e
    else
      let d := 2 ^ (-e).toNat
      if neg then roundFrac true ((m + d - 1) / d) 1 else roundFrac false (m / d) 1

/-! ### `Number(string)`: the `StringToNumber` conversion -/

/-- A decimal digit `0`..`9`. -/
def isDecimalDigit (c : Char) : Bool := 48 ≤ c.toNat && c.toNat ≤ 57

/-- The value of a digit in base 16 (also used for bases 2, 8 and 10). -/
def hexValue (c : Char) : Option Nat :=
  let n := c.toNat
  if 48 ≤ n && n ≤ 57 then some (n - 48)
  else if 97 ≤ n && n ≤ 102 then some (n - 87)
  else if 65 ≤ n && n ≤ 70 then some (n - 55)
  else none

/-- Whether `c` is a digit of the given base. -/
def isDigitOfBase (base : Nat) (c : Char) : Bool :=
  match hexValue c with
  | some v => v < base
  | none => false

/-- The natural number written by a digit string in the given base. -/
def digitsToNat (base : Nat) (cs : List Char) : Nat :=
  cs.foldl (fun acc c => base * acc + (hexValue c).getD 0) 0

/-- The optional `ExponentPart` that ends a decimal literal: its value, or
`none` when the text is not an exponent part. -/
def parseExponent : List Char → Option Int
  | [] => some 0
  | c :: rest =>
    if c = 'e' || c = 'E' then
      let (neg, ds) := match rest with
        | '+' :: ds => (false, ds)
        | '-' :: ds => (true, ds)
        | ds => (false, ds)
      if !ds.isEmpty && ds.all isDecimalDigit then
        some (if neg then -(digitsToNat 10 ds : Int) else (digitsToNat 10 ds : Int))
      else none
    else none

/-- `StrUnsignedDecimalLiteral` with the sign already read: `Infinity`, or
digits with an optional fraction and exponent; anything else is `NaN`. -/
def parseUnsignedDecimal (neg : Bool) (cs : List Char) : JsNumber :=
  if cs = ['I', 'n', 'f', 'i', 'n', 'i', 't', 'y'] then .inf neg
  else
    let ip := cs.takeWhile isDecimalDigit
    let rest := cs.dropWhile isDecimalDigit
    let (fp, rest) := match rest with
      | '.' :: r => (r.takeWhile isDecimalDigit, r.dropWhile isDecimalDigit)
      | r => ([], r)
    if ip.isEmpty && fp.isEmpty then .nan
    else
      match parseExponent rest with
      | none => .nan
      | some ex => roundDecimal neg (digitsToNat 10 (ip ++ fp)) (ex - (fp.length : Int))

/-- A `NonDecimalIntegerLiteral` after its `0x`, `0o` or `0b` marker. -/
def parseRadix (base : Nat) (cs : List Char) : JsNumber :=
  if !cs.isEmpty && cs.all (isDigitOfBase base) then .ofNat (digitsToNat base cs) else .nan

/-- `Number(s)` for a string `s`. -/
def Number (s : String) : JsNumber :=
  match trimChars s.data with
  | [] => .fin false 0 (-1074)
  | '+' :: r => parseUnsignedDecimal false r
  | '-' :: r => parseUnsignedDecimal true r
  | '0' :: 'x' :: r => parseRadix 16 r
  | '0' :: 'X' :: r => parseRadix 16 r
  | '0' :: 'o' :: r => parseRadix 8 r
  | '0' :: 'O' :: r => parseRadix 8 r
  | '0' :: 'b' :: r => parseRadix 2 r
  | '0' :: 'B' :: r => parseRadix 2 r
  | cs => parseUnsignedDecimal false cs

/-! ### `String(number)`: the `Number::toString` conversion -/

/-- The decimal digits of `n`, most significant first. -/
def decimalChars (n : Nat) : List Char := Nat.toDigits 10 n

/-- Number of decimal digits of `n` (1 for `n = 0`). -/
def decimalLength (n : Nat) : Nat := (decimalChars n).length

/-- The integer `p` with `10^(p-1) ≤ n/d < 10^p`, for `n, d > 0`. -/
def decExp (n d : Nat) : Int :=
  let p0 : Int := (decimalLength n : Int) - (decimalLength d : Int)
  -- 10^(p0-1) < n/d < 10^(p0+1)
  let ge : Bool := if 0 ≤ p0 then d * 10 ^ p0.toNat ≤ n else d ≤ n * 10 ^ (-p0).toNat
  if ge then p0 + 1 else p0

/-- The candidates with `k` significant digits next to `n/d`, as pairs
`(s, p)` standing for `s * 10^(p - k)` with `10^(k-1) ≤ s < 10^k`, nearest
first (the even `s` first on a tie). -/
def shortestCandidates (n d : Nat) (k : Nat) : List (Nat × Int) :=
  let p := decExp n d
  let sh : Int := p - (k : Int)
  let a := if 0 ≤ sh then n else n * 10 ^ (-sh).toNat
  let b := if 0 ≤ sh then d * 10 ^ sh.toNat else d
  let lo := a / b
  let r := a % b
  let hi : Nat × Int := if lo + 1 = 10 ^ k then (10 ^ (k - 1), p + 1) else (lo + 1, p)
  if r = 0 then [(lo, p)]
  else if 2 * r < b then [(lo, p), hi]
  else if b < 2 * r then [hi, (lo, p)]
  else if lo % 2 = 0 then [(lo, p), hi] else [hi, (lo, p)]

/-- The shortest digit string that reads back as the double `m * 2^e`: the
least `k` (searched upward from `k`, `fuel` steps) with a `k`-digit candidate
`s * 10^(p - k)` that rounds to the double. -/
def shortestDigits (m : Nat) (e : Int) : Nat → Nat → Nat × Int × Nat
  | 0, k => (m, 0, k)
  | fuel + 1, k =>
    let n := if 0 ≤ e then m * 2 ^ e.toNat else m
    let d := if 0 ≤ e then 1 else 2 ^ (-e).toNat
    match (shortestCandidates n d k).find?
        (fun c => roundDecimal false c.1 (c.2 - (k : Int)) == JsNumber.fin false m e) with
    | some c => (c.1, c.2, k)
    | none => shortestDigits m e fuel (k + 1)

/-- The text of a positive number from its digits `s` (of length `k`) and the
position `p` of the decimal point. -/
def formatDigits (s : Nat) (p : Int) (k : Nat) : List Char :=
  let ds := decimalChars s
  if (k : Int) ≤ p && p ≤ 21 then ds ++ List.replicate (p.toNat - k) '0'
  else if 0 < p && p ≤ 21 then ds.take p.toNat ++ '.' :: ds.drop p.toNat
  else if -6 < p && p ≤ 0 then '0' :: '.' :: List.replicate (-p).toNat '0' ++ ds
  else
    let ex := p - 1
    let exChars := (if ex < 0 then '-' else '+') :: decimalChars ex.natAbs
    if k = 1 then ds ++ 'e' :: exChars
    else ds.take 1 ++ '.' :: ds.drop 1 ++ 'e' :: exChars

/-- `String(x)` for the positive double `m * 2^e`. Integers below `2^53` are
all doubles, so the shortest digits of such a value are its own decimal
expansion; other values go through the search. -/
def positiveToString (m : Nat) (e : Int) : List Char :=
  if e < 0 ∧ m % 2 ^ (-e).toNat = 0 then decimalChars (m / 2 ^ (-e).toNat)
  else if 0 ≤ e ∧ m * 2 ^ e.toNat < 2 ^ 53 then decimalChars (m * 2 ^ e.toNat)
  else
    let (s, p, k) := shortestDigits m e 17 1
    formatDigits s p k

/-- `String(x)` for a Number `x`. -/
def JsNumber.toJsString : JsNumber → String
  | .nan => "NaN"
  | .inf neg => if neg then "-Infinity" else "Infinity"
  | .fin neg m e =>
    if m = 0 then "0"
    else ⟨(if neg then ['-'] else []) ++ positiveToString m e⟩

/-! ## The error mapping

`errors` is a plain JavaScript object: an insertion-ordered mapping from field
name to message, where a key may be present with the value `undefined`. -/

/-- The `errors` object: keys in insertion order, `none` for `undefined`. -/
abbrev Errors := List (String × Option String)

/-- Assignment `e[k] = v` (and the object-spread override `{...e, k: v}`). -/
def Errors.assign : Errors → String → Option String → Errors
  | [], k, v => [(k, v)]
  | (k', v') :: rest, k, v =>
    if k' = k then (k', v) :: rest else (k', v') :: Errors.assign rest k v

/-- Property read `e[k]`: `none` when the key is absent or holds `undefined`. -/
def Errors.get : Errors → String → Option String
  | [], _ => none
  | (k', v') :: rest, k => if k' = k then v' else Errors.get rest k

/-- `Object.keys(e).length === 0`. -/
def Errors.noKeys (e : Errors) : Bool := e.length == 0

/-- Conditional assignment `if (c) e[k] = msg`. -/
def Errors.assignIf (e : Errors) (c : Bool) (k msg : String) : Errors :=
  if c then e.assign k (some msg) else e

/-! ## Component state -/

/-- The `register` state (profile form). -/
structure Register where
  fullName : String
  phone : String
  email : String
  address : String
  deriving DecidableEq, Repr

/-- The `otp` state. `cooldown` is an integer number of seconds. -/
structure Otp where
  sent : Bool
  digits : List String
  serverCode : String
  sending : Bool
  verifying : Bool
  verified : Bool
  cooldown : Int
  deriving DecidableEq, Repr

/-- The `pay` state (contribution draft); the numeric fields hold the text of
their inputs. -/
structure Pay where
  bankId : String
  accountNumber : String
  amount : String
  months : String
  accepted : Bool
  deriving DecidableEq, Repr

/-- An entry of the `banks` prop. -/
structure Bank where
  id : String
  name : String
  accounts : List String
  deriving DecidableEq, Repr

/-- The `localToast` state. -/
structure Toast where
  message : String
  type : String
  deriving DecidableEq, Repr

/-- The React state of `ClientOnboardingPage`. -/
structure State where
  step : Nat
  register : Register
  otp : Otp
  pay : Pay
  errors : Errors
  localToast : Option Toast
  loading : Bool
  deriving DecidableEq, Repr

/-- The `BANKS` constant. -/
def BANKS : List Bank :=
  [ { id := "exim", name := "EXIM Bank", accounts := ["100200300", "100200301", "100200302"] },
    { id := "salaam", name := "Salaam Bank", accounts := ["200300400", "200300401"] },
    { id := "mtn", name := "MTN Money", accounts := ["77001122", "77001133"] } ]

/-- The initial `otp` state. -/
def initialOtp : Otp :=
  { sent := false, digits := ["", "", "", "", "", ""], serverCode := "",
    sending := false, verifying := false, verified := false, cooldown := 0 }

/-- The initial `pay` state. -/
def initialPay : Pay :=
  { bankId := "", accountNumber := "", amount := "", months := "", accepted := false }

/-- The state on mount; `register` is pre-filled from `initialUser` (all four
fields empty when there is none). -/
def initialState (prefill : Register) : State :=
  { step := 1, register := prefill, otp := initialOtp, pay := initialPay,
    errors := [], localToast := none, loading := false }

/-- `showToast(message, type)`. -/
def showToast (s : State) (message : String) (type : String) : State :=
  { s with localToast := some { message := message, type := type } }

/-! ## Validators of steps 1 and 2 -/

/-- The object `e` built by `validateStep1`. -/
def step1Errors (r : Register) : Errors :=
  let e : Errors := []
  let e := e.assignIf (!truthy (jsTrim r.fullName)) "fullName" "Nom requis."
  let e := e.assignIf (!truthy (jsTrim r.phone)) "phone" "Téléphone requis."
  let e := e.assignIf (truthy (jsTrim r.email) && !jsIncludes r.email "@") "email" "Email invalide."
  let e := e.assignIf (!truthy (jsTrim r.address)) "address" "Adresse requise."
  e

/-- `validateStep1()`: stores the errors and returns whether there are none. -/
def validateStep1 (s : State) : Bool × State :=
  let e := step1Errors s.register
  (e.noKeys, { s with errors := e })

/-- `getOtpCode()`. -/
def getOtpCode (o : Otp) : String := joinDigits o.digits

/-- The object `e` built by `validateOtpStep`. -/
def otpStepErrors (o : Otp) : Errors :=
  let e : Errors := []
  let code := getOtpCode o
  let e := e.assignIf (!o.sent) "otp" "Clique sur “Envoyer OTP”."
  let e := e.assignIf (!truthy code || jsLength code != 6) "otp" "OTP invalide (6 chiffres)."
  e

/-- `validateOtpStep()`. -/
def validateOtpStep (s : State) : Bool × State :=
  let e := otpStepErrors s.otp
  (e.noKeys, { s with errors := e })

/-- `onSubmitRegister(e)`. -/
def onSubmitRegister (s : State) : State :=
  let (ok, s1) := validateStep1 s
  if !ok then s1
  else { showToast s1 "Profil validé ✅" "success" with step := 2 }

/-! ## Step 3: contribution draft -/

/-- The object `e` built by `validateStep3`. -/
def step3Errors (p : Pay) : Errors :=
  let e : Errors := []
  let e := e.assignIf (!truthy p.bankId) "bankId" "Choisis une banque."
  let e := e.assignIf (!truthy (jsTrim p.accountNumber)) "accountNumber" "Numéro de compte requis."
  let e := e.assignIf (decide (jsLength (jsTrim p.accountNumber) < 6))
    "accountNumber" "Numéro de compte trop court."
  let amountNum := Number p.amount
  let monthsNum := Number p.months
  let e := e.assignIf (!truthy p.amount || amountNum.isNaN || amountNum.le (.ofNat 0))
    "amount" "Montant invalide."
  let e := e.assignIf (!truthy p.months || monthsNum.isNaN || monthsNum.le (.ofNat 0))
    "months" "Mois invalide."
  let e := e.assignIf (!p.accepted) "accepted" "Tu dois accepter les conditions."
  e

/-- `validateStep3()`. -/
def validateStep3 (s : State) : Bool × State :=
  let e := step3Errors s.pay
  (e.noKeys, { s with errors := e })

/-- `selectedBank`: `banks.find((b) => b.id === pay.bankId)`. -/
def selectedBank (banks : List Bank) (p : Pay) : Option Bank :=
  banks.find? (fun b => b.id == p.bankId)

/-- The memoised `total`: `Number(pay.amount || 0) * Number(pay.months || 0)`
when that product is finite, else `0`. -/
def total (p : Pay) : JsNumber :=
  let a := if truthy p.amount then Number p.amount else .ofNat 0
  let m := if truthy p.months then Number p.months else .ofNat 0
  if (a.mul m).isFinite then a.mul m else .ofNat 0

/-- The `cotisation` object handed to `onDone`. -/
structure CotisationData where
  bankId : String
  accountNumber : String
  amount : JsNumber
  months : JsNumber
  total : JsNumber
  deriving DecidableEq, Repr

/-- The argument of `onDone`. -/
structure DoneData where
  profile : Register
  cotisation : CotisationData
  otpVerified : Bool
  deriving DecidableEq, Repr

/-- `onConfirm(e)`: the value passed to `onDone` (if it is called) and the
state after the handler has run. -/
def onConfirm (s : State) : Option DoneData × State :=
  let (ok, s1) := validateStep3 s
  if !ok then (none, s1)
  else
    let s2 := { s1 with loading := true }
    let data : DoneData :=
      { profile := s.register,
        cotisation :=
          { bankId := s.pay.bankId,
            accountNumber := jsTrim s.pay.accountNumber,
            amount := Number s.pay.amount,
            months := Number s.pay.months,
            total := total s.pay },
        otpVerified := s.otp.verified }
    (some data, { showToast s2 "Cotisation confirmée ✅" "success" with loading := false })

/-! ## OTP operations -/

/-- How a call of `sendOtp` ended. -/
inductive SendOutcome where
  | phoneRequired
  | sent
  deriving DecidableEq, Repr

/-- The code drawn by `sendOtp`:
`String(Math.floor(100000 + Math.random() * 900000))`, `r` being the value of
`Math.random()`. -/
def generateCode (r : JsNumber) : String :=
  ((JsNumber.ofNat 100000).add (r.mul (.ofNat 900000))).floor.toJsString

/-- `sendOtp()` up to its `await`: the phone check and `sending: true`. -/
def sendOtpBegin (s : State) : SendOutcome × State :=
  if !truthy (jsTrim s.register.phone) then
    (.phoneRequired, { s with errors := [("phone", some "Téléphone requis pour envoyer OTP.")] })
  else
    (.sent, { s with otp := { s.otp with sending := true } })

/-- `sendOtp()` after its `await`; `phone` is the `register.phone` the call
started with and `r` the value of `Math.random()`. -/
def sendOtpResume (r : JsNumber) (phone : String) (s : State) : State :=
  let generated := generateCode r
  let s1 := { s with otp := { s.otp with
    sent := true, serverCode := generated, sending := false, cooldown := 30,
    verified := false, digits := ["", "", "", "", "", ""] } }
  let s2 := showToast s1 ("OTP envoyé au " ++ phone ++ " ✅") "success"
  { s2 with errors := s2.errors.assign "otp" none }

/-- `sendOtp()` run to completion with no other event in between. -/
def sendOtp (r : JsNumber) (s : State) : SendOutcome × State :=
  match sendOtpBegin s with
  | (.phoneRequired, s1) => (.phoneRequired, s1)
  | (.sent, s1) => (.sent, sendOtpResume r s.register.phone s1)

/-- The outcome of `verifyOtp`. -/
inductive VerifyOutcome where
  | invalid
  | incorrect
  | verified
  deriving DecidableEq, Repr

/-- `verifyOtp(e)` up to its `await`: validation and `verifying: true`. -/
def verifyOtpBegin (s : State) : Bool × State :=
  let (ok, s1) := validateOtpStep s
  if !ok then (false, s1)
  else (true, { s1 with otp := { s1.otp with verifying := true } })

/-- `verifyOtp(e)` after its `await`; `captured` is the `otp` value of the
render in which the handler was called. -/
def verifyOtpResume (captured : Otp) (s : State) : VerifyOutcome × State :=
  let code := getOtpCode captured
  if code != captured.serverCode then
    (.incorrect, showToast { s with otp := { s.otp with verifying := false } }
      "OTP incorrect ❌" "error")
  else
    (.verified,
      { showToast { s with otp := { s.otp with verifying := false, verified := true } }
          "OTP vérifié ✅" "success" with step := 3 })

/-- `verifyOtp(e)` run to completion with no other event in between. -/
def verifyOtp (s : State) : VerifyOutcome × State :=
  match verifyOtpBegin s with
  | (false, s1) => (.invalid, s1)
  | (true, s1) => verifyOtpResume s.otp s1

/-- The state update of the cooldown timer:
`(p) => ({ ...p, cooldown: Math.max(0, p.cooldown - 1) })`. -/
def tick (p : Otp) : Otp := { p with cooldown := max 0 (p.cooldown - 1) }

/-- `n` timer ticks. -/
def ticks : Nat → Otp → Otp
  | 0, p => p
  | n + 1, p => ticks n (tick p)

/-! ## The digit inputs -/

/-- `setDigit(index, value)` as an update of `otp`; `index` is the index of a
rendered input, below `digits.length`. -/
def setDigit (index : Nat) (value : String) (p : Otp) : Otp :=
  { p with digits := p.digits.set index value }

/-- `value.replace(/\D/g, "")`. -/
def stripNonDigits (cs : List Char) : List Char := cs.filter isDecimalDigit

/-- `onChange(i, e)` with `value` the input's `e.target.value`. -/
def onChange (i : Nat) (value : String) (p : Otp) : Otp :=
  let v := stripNonDigits value.data
  match v.getLast? with
  | none => setDigit i "" p
  | some c => setDigit i ⟨[c]⟩ p

/-- `onKeyDown(i, e)` with `key` the value of `e.key`. -/
def onKeyDown (i : Nat) (key : String) (p : Otp) : Otp :=
  if key = "Backspace" then
    if truthy (p.digits.getD i "") then setDigit i "" p
    else if 0 < i then setDigit (i - 1) "" p
    else p
  else p

/-- `onPaste(e)` with `clip` the clipboard text. -/
def onPaste (clip : String) (p : Otp) : Otp :=
  let text := (stripNonDigits clip.data).take 6
  if text.isEmpty then p
  else
    let arr : List String := text.map fun c => ⟨[c]⟩
    { p with digits := (List.range 6).map fun i => arr.getD i "" }

/-! ## The component as a transition system

`sendOtp`, `verifyOtp` and `onConfirm` are `async`: a call runs up to its
`await` when its control is used and finishes when its timer fires, with the
values of the render it was called in. Other events can happen in between, so
a call and its completion are two events, and the page carries the calls that
have not finished yet. An event of a control is enabled when the control is
rendered and not disabled. -/

/-- `onConfirm(e)` up to its `await`: validation, `loading: true`, and the
value the call will pass to `onDone`, taken from the render of the click. -/
def onConfirmBegin (s : State) : Option DoneData × State :=
  let (ok, s1) := validateStep3 s
  if !ok then (none, s1)
  else
    let data : DoneData :=
      { profile := s.register,
        cotisation :=
          { bankId := s.pay.bankId,
            accountNumber := jsTrim s.pay.accountNumber,
            amount := Number s.pay.amount,
            months := Number s.pay.months,
            total := total s.pay },
        otpVerified := s.otp.verified }
    (some data, { s1 with loading := true })

/-- `onConfirm(e)` after its `await` and the call of `onDone`: the toast and
`loading: false`. -/
def onConfirmResume (s : State) : State :=
  { showToast s "Cotisation confirmée ✅" "success" with loading := false }

/-- The events of the page. `sendClick`, `verifySubmit` and `confirmClick` are
the calls of the three `async` handlers; `sendDone`, `verifyDone` and
`confirmDone` are their completions, with the values the call captured. -/
inductive Event where
  | editFullName (v : String)
  | editPhone (v : String)
  | editEmail (v : String)
  | editAddress (v : String)
  | submitRegister
  | sendClick
  | sendDone (r : JsNumber) (phone : String)
  | changeNumber
  | otpChange (i : Nat) (v : String)
  | otpKeyDown (i : Nat) (key : String)
  | otpPaste (clip : String)
  | verifySubmit
  | verifyDone (captured : Otp)
  | timerTick
  | editBankId (v : String)
  | editAccountNumber (v : String)
  | editAmount (v : String)
  | editMonths (v : String)
  | editAccepted (b : Bool)
  | confirmClick
  | confirmDone
  | backToOtp
  | toastTimeout
  deriving DecidableEq, Repr

/-- A value of `Math.random()`: a double `r` with `0 ≤ r < 1`. -/
def isRandomDraw : JsNumber → Bool
  | .fin neg m e =>
    !neg && ((e == -1074 && decide (m < 2 ^ 52)) ||
      (decide (2 ^ 52 ≤ m) && decide (m < 2 ^ 53) && decide (-1074 ≤ e) && decide (e ≤ -53)))
  | _ => false

/-- The `value`s of the options of the bank select. -/
def bankOptions (banks : List Bank) : List String := "" :: banks.map (·.id)

/-- Whether the control behind an event is rendered and enabled. A completion
has no control; which completions are due is recorded in the page. -/
def enabled (banks : List Bank) : Event → State → Bool
  | .editFullName _, s | .editPhone _, s | .editEmail _, s | .editAddress _, s => s.step == 1
  | .submitRegister, s => s.step == 1
  | .sendClick, s => s.step == 2 && !(s.otp.sending || decide (0 < s.otp.cooldown))
  | .sendDone r _, _ => isRandomDraw r
  | .changeNumber, s => s.step == 2
  | .otpChange i _, s | .otpKeyDown i _, s => s.step == 2 && decide (i < s.otp.digits.length)
  | .otpPaste _, s => s.step == 2
  | .verifySubmit, s => s.step == 2 && !s.otp.verifying
  | .verifyDone _, _ => true
  | .timerTick, s => decide (0 < s.otp.cooldown)
  | .editBankId v, s => s.step == 3 && decide (v ∈ bankOptions banks)
  | .editAccountNumber _, s | .editAmount _, s | .editMonths _, s | .editAccepted _, s =>
    s.step == 3
  | .confirmClick, s => s.step == 3 && !s.loading
  | .confirmDone, _ => true
  | .backToOtp, s => s.step == 3
  | .toastTimeout, s => s.localToast.isSome

/-- The state after an event. -/
def applyEvent : Event → State → State
  | .editFullName v, s => { s with register := { s.register with fullName := v } }
  | .editPhone v, s => { s with register := { s.register with phone := v } }
  | .editEmail v, s => { s with register := { s.register with email := v } }
  | .editAddress v, s => { s with register := { s.register with address := v } }
  | .submitRegister, s => onSubmitRegister s
  | .sendClick, s => (sendOtpBegin s).2
  | .sendDone r phone, s => sendOtpResume r phone s
  | .changeNumber, s => { s with step := 1 }
  | .otpChange i v, s => { s with otp := onChange i v s.otp }
  | .otpKeyDown i key, s => { s with otp := onKeyDown i key s.otp }
  | .otpPaste clip, s => { s with otp := onPaste clip s.otp }
  | .verifySubmit, s => (verifyOtpBegin s).2
  | .verifyDone captured, s => (verifyOtpResume captured s).2
  | .timerTick, s => { s with otp := tick s.otp }
  | .editBankId v, s => { s with pay := { s.pay with bankId := v } }
  | .editAccountNumber v, s => { s with pay := { s.pay with accountNumber := v } }
  | .editAmount v, s => { s with pay := { s.pay with amount := v } }
  | .editMonths v, s => { s with pay := { s.pay with months := v } }
  | .editAccepted b, s => { s with pay := { s.pay with accepted := b } }
  | .confirmClick, s => (onConfirmBegin s).2
  | .confirmDone, s => onConfirmResume s
  | .backToOtp, s => { s with step := 2 }
  | .toastTimeout, s => { s with localToast := none }

/-- A click on the send button with no other event before the call completes:
nothing happens while the button is disabled (`loading={otp.sending}`,
`disabled={otp.cooldown > 0}`), otherwise `sendOtp` runs. -/
def clickSend (r : JsNumber) (s : State) : State :=
  if s.otp.sending || decide (0 < s.otp.cooldown) then s else (sendOtp r s).2

/-- The page: its React state and the calls of the `async` handlers that are
past their `await` and have not completed, oldest first. A pending `sendOtp`
holds the `register.phone` it captured, a pending `verifyOtp` the `otp` it
captured, a pending `onConfirm` the value it will pass to `onDone`. -/
structure Page where
  state : State
  sends : List String
  verifies : List Otp
  confirms : List DoneData
  deriving DecidableEq, Repr

/-- The page on mount. -/
def initialPage (prefill : Register) : Page :=
  { state := initialState prefill, sends := [], verifies := [], confirms := [] }

/-- Whether an event can happen in a page: an event of a control when the
control is enabled, a completion when it is that of the oldest pending call of
its handler. -/
def canHappen (banks : List Bank) : Event → Page → Bool
  | .sendDone r phone, pg => isRandomDraw r && pg.sends.head? == some phone
  | .verifyDone captured, pg => pg.verifies.head? == some captured
  | .confirmDone, pg => !pg.confirms.isEmpty
  | ev, pg => enabled banks ev pg.state

/-- The page after an event: the state changes as `applyEvent` says, a call
that reaches its `await` becomes pending, a completion removes its call. -/
def pageStep : Event → Page → Page
  | .sendClick, pg =>
    { pg with
      state := applyEvent .sendClick pg.state
      sends := if (sendOtpBegin pg.state).1 = .sent then pg.sends ++ [pg.state.register.phone]
               else pg.sends }
  | .sendDone r phone, pg =>
    { pg with state := applyEvent (.sendDone r phone) pg.state, sends := pg.sends.tail }
  | .verifySubmit, pg =>
    { pg with
      state := applyEvent .verifySubmit pg.state
      verifies := if (verifyOtpBegin pg.state).1 then pg.verifies ++ [pg.state.otp]
                  else pg.verifies }
  | .verifyDone captured, pg =>
    { pg with state := applyEvent (.verifyDone captured) pg.state, verifies := pg.verifies.tail }
  | .confirmClick, pg =>
    { pg with
      state := applyEvent .confirmClick pg.state
      confirms := pg.confirms ++ (onConfirmBegin pg.state).1.toList }
  | .confirmDone, pg =>
    { pg with state := applyEvent .confirmDone pg.state, confirms := pg.confirms.tail }
  | ev, pg => { pg with state := applyEvent ev pg.state }

/-- The pages the component can be in: the page on mount and what the events
that can happen lead to. -/
inductive PageReachable (banks : List Bank) (prefill : Register) : Page → Prop where
  | init : PageReachable banks prefill (initialPage prefill)
  | step {pg : Page} (ev : Event) :
      PageReachable banks prefill pg → canHappen banks ev pg = true →
      PageReachable banks prefill (pageStep ev pg)

/-- The states the page can be in: the state of some reachable page. -/
def Reachable (banks : List Bank) (prefill : Register) (s : State) : Prop :=
  ∃ pg : Page, PageReachable banks prefill pg ∧ pg.state = s

/-! ## Reachable-state facts and sample states -/

/-- The rational `2^e`. -/
def pow2 (e : Int) : ℚ := (2 : ℚ) ^ e

/-- The pair `(m, e)` is the canonical form of a finite double `m * 2^e`. -/
def IsDouble (m : Nat) (e : Int) : Prop :=
  (e = -1074 ∧ m < 2 ^ 52) ∨ (2 ^ 52 ≤ m ∧ m < 2 ^ 53 ∧ -1074 ≤ e ∧ e ≤ 971)

/-- Facts that hold in every reachable state. -/
def Inv (banks : List Bank) (s : State) : Prop :=
  (s.otp.sent = false → s.otp.serverCode = "") ∧
  0 ≤ s.otp.cooldown ∧ s.otp.cooldown ≤ 30 ∧
  s.pay.bankId ∈ bankOptions banks

/-- A state at step 2, with the cooldown of a send still running. -/
def coolingState : State :=
  { step := 2,
    register := { fullName := "A B", phone := "77123456", email := "", address := "X" },
    otp := { sent := true, digits := ["1", "2", "", "", "", ""], serverCode := "123456",
             sending := false, verifying := false, verified := false, cooldown := 20 },
    pay := initialPay, errors := [], localToast := none, loading := false }

/-- The double `0.5`, a possible value of `Math.random()`. -/
def halfDraw : JsNumber := .fin false (2 ^ 52) (-53)

/-- A step-3 state whose draft names a bank id that is not in `BANKS`. -/
def unknownBankState : State :=
  { step := 3,
    register := { fullName := "A B", phone := "77123456", email := "", address := "X" },
    otp := { sent := true, digits := ["1", "2", "3", "4", "5", "6"], serverCode := "123456",
             sending := false, verifying := false, verified := true, cooldown := 0 },
    pay := { bankId := "nope", accountNumber := "100200300", amount := "6000", months := "6",
             accepted := true },
    errors := [], localToast := none, loading := false }

/-- A step-3 state whose draft has the amount text `Infinity`. -/
def infiniteAmountState : State :=
  { unknownBankState with
    pay := { bankId := "exim", accountNumber := "100200300", amount := "Infinity",
             months := "6", accepted := true } }

/-- A step-2 state holding the digits `123456` after a send of that code. -/
def matchingState : State :=
  { coolingState with otp := { coolingState.otp with digits := ["1", "2", "3", "4", "5", "6"] } }

/-- The page after a list of events, applied in order. -/
def runEvents : List Event → Page → Page
  | [], pg => pg
  | ev :: rest, pg => runEvents rest (pageStep ev pg)

/-- Whether each event of a list can happen when its turn comes. -/
def allEnabled (banks : List Bank) : List Event → Page → Bool
  | [], _ => true
  | ev :: rest, pg => canHappen banks ev pg && allEnabled banks rest (pageStep ev pg)

/-- A profile that passes step 1. -/
def demoProfile : Register :=
  { fullName := "A B", phone := "77123456", email := "", address := "X" }

/-- The `otp` state after a send of the code `550000` and a paste of it. -/
def demoOtp : Otp :=
  { sent := true, digits := ["5", "5", "0", "0", "0", "0"], serverCode := "550000",
    sending := false, verifying := false, verified := false, cooldown := 30 }

/-- A complete run of the flow: profile, send, paste of the code, verify, and a
filled-in contribution draft. -/
def demoRun : List Event :=
  [ .submitRegister, .sendClick, .sendDone halfDraw "77123456", .otpPaste "550000",
    .verifySubmit, .verifyDone demoOtp,
    .editBankId "exim", .editAccountNumber "100200300", .editAmount "6000",
    .editMonths "6", .editAccepted true ]

/-- A run in which the cooldown of the first send is over when the code is
submitted, the send button is clicked again within the 550 ms of the
verification, the verification completes, then the second send; the draft is
then filled in and confirmed. -/
def overlapRun : List Event :=
  [ .submitRegister, .sendClick, .sendDone halfDraw "77123456", .otpPaste "550000" ] ++
  List.replicate 30 .timerTick ++
  [ .verifySubmit, .sendClick, .verifyDone { demoOtp with cooldown := 0 },
    .sendDone halfDraw "77123456",
    .editBankId "exim", .editAccountNumber "100200300", .editAmount "6000",
    .editMonths "6", .editAccepted true, .confirmClick ]

/-- `Number.isInteger(x)`. -/
def JsNumber.isInteger : JsNumber → Bool
  | .fin _ m e => decide (0 ≤ e) || m % 2 ^ (-e).toNat == 0
  | _ => false

/-- A step-3 state whose draft has the months text `1.5`. -/
def fractionalMonthsState : State :=
  { unknownBankState with
    pay := { bankId := "exim", accountNumber := "100200300", amount := "6000",
             months := "1.5", accepted := true } }

/-- A draft whose amount and months are finite but whose product overflows. -/
def overflowPay : Pay :=
  { bankId := "exim", accountNumber := "100200300", amount := "1e200", months := "1e200",
    accepted := true }

/-- The draft of the walkthrough: 6000 a month for 6 months at EXIM. -/
def demoPay : Pay :=
  { bankId := "exim", accountNumber := "100200300", amount := "6000", months := "6",
    accepted := true }

/-- A step-2 state holding six digits that differ from the code sent. -/
def mismatchState : State :=
  { coolingState with otp := { coolingState.otp with digits := ["6", "5", "4", "3", "2", "1"] } }

/-- A step-3 state whose draft is `overflowPay`. -/
def overflowState : State := { unknownBankState with pay := overflowPay }

/-- A step-3 state whose draft is the walkthrough draft. -/
def demoPayState : State := { unknownBankState with pay := demoPay }

/-- What `onConfirm` hands to `onDone` for the walkthrough draft. -/
def demoData : DoneData :=
  { profile := { fullName := "A B", phone := "77123456", email := "", address := "X" },
    cotisation :=
      { bankId := "exim", accountNumber := "100200300", amount := JsNumber.ofNat 6000,
        months := JsNumber.ofNat 6, total := JsNumber.ofNat 36000 },
    otpVerified := true }

/-! ## The application store (`App`) -/

/-- An entry of `users`. `address` is absent on some seeded users. -/
structure User where
  id : String
  role : String
  email : String
  password : String
  fullName : String
  phone : String
  address : Option String
  deriving DecidableEq, Repr

/-- The `session` object `{ userId, role }`; `userId` may be `null`. -/
structure Session where
  userId : Option String
  role : String
  deriving DecidableEq, Repr

/-- An entry of `cotisations`. -/
structure CotisationRecord where
  id : String
  userId : String
  bankId : String
  accountNumber : String
  amount : JsNumber
  months : JsNumber
  total : JsNumber
  status : String
  createdAt : String
  deriving DecidableEq, Repr

/-- The React state of `App`, with the `vip_session` entry of local storage. -/
structure AppState where
  route : String
  authRole : Option String
  session : Option Session
  toast : Option Toast
  users : List User
  cotisations : List CotisationRecord
  savedSession : Option Session
  deriving DecidableEq, Repr

/-- The `FAKE_USERS` constant. -/
def FAKE_USERS : List User :=
  [ { id := "u_admin", role := "ADMIN", email := "admin@vip.com", password := "admin123",
      fullName := "VIP Admin", phone := "77 00 00 00", address := none },
    { id := "u_client", role := "CLIENT", email := "client@vip.com", password := "client123",
      fullName := "Client VIP", phone := "77 12 34 56", address := some "Djibouti, Plateau" } ]

/-- The `FAKE_COTISATIONS` constant; `createdAt` is the time of module load. -/
def FAKE_COTISATIONS (loadedAt : String) : List CotisationRecord :=
  [ { id := "c_001", userId := "u_client", bankId := "exim", accountNumber := "100200300",
      amount := .ofNat 6000, months := .ofNat 6, total := .ofNat 36000,
      status := "CONFIRMED", createdAt := loadedAt } ]

/-- The state of `App` on mount. -/
def initialApp (loadedAt : String) : AppState :=
  { route := "HOME", authRole := none, session := none, toast := none,
    users := FAKE_USERS, cotisations := FAKE_COTISATIONS loadedAt, savedSession := none }

/-- What the environment supplies to one call of `onDone`: the texts of the two
`Math.random().toString(16)` calls, the value of `Date.now()` and the text of
`new Date().toISOString()`. -/
structure DoneEnv where
  userRandom : String
  now : JsNumber
  cotRandom : String
  isoNow : String
  deriving DecidableEq, Repr

/-- `s.slice(2)` on the text of `Math.random().toString(16)`, whose
characters are ASCII. -/
def slice2 (s : String) : String := ⟨s.data.drop 2⟩

/-- `session?.userId`: `none` for `undefined` and `null`. -/
def sessionUserId (a : AppState) : Option String := a.session.bind (·.userId)

/-- `showToast(message, type)` of `App`. -/
def appToast (a : AppState) (message : String) (type : String) : AppState :=
  { a with toast := some { message := message, type := type } }

/-- The user created by `onDone` when there is no owner id. -/
def newUser (env : DoneEnv) (data : DoneData) : User :=
  { id := "u_" ++ slice2 env.userRandom,
    role := "CLIENT",
    email := if truthy data.profile.email then data.profile.email
             else "client_" ++ env.now.toJsString ++ "@mail.com",
    password := "client123",
    fullName := data.profile.fullName,
    phone := data.profile.phone,
    address := some data.profile.address }

/-- The record `cot` built by `onDone`. -/
def newCotisation (env : DoneEnv) (userId : String) (data : DoneData) : CotisationRecord :=
  { id := "c_" ++ slice2 env.cotRandom,
    userId := userId,
    bankId := data.cotisation.bankId,
    accountNumber := data.cotisation.accountNumber,
    amount := data.cotisation.amount,
    months := data.cotisation.months,
    total := data.cotisation.total,
    status := "CONFIRMED",
    createdAt := env.isoNow }

/-- The `onDone` callback that `App` passes to `ClientOnboardingPage`. -/
def onDone (env : DoneEnv) (data : DoneData) (a : AppState) : AppState :=
  let (userId, a1) : String × AppState :=
    match (sessionUserId a).filter truthy with
    | none =>
      let u := newUser env data
      let s : Session := { userId := some u.id, role := "CLIENT" }
      (u.id, { a with users := u :: a.users, session := some s, savedSession := some s })
    | some userId =>
      (userId, { a with users := a.users.map fun u =>
        if u.id = userId then
          { u with fullName := data.profile.fullName, phone := data.profile.phone,
                   email := data.profile.email, address := some data.profile.address }
        else u })
  let cot := newCotisation env userId data
  appToast { a1 with cotisations := cot :: a1.cotisations } "Cotisation confirmée ✅" "success"

/-- A sample environment for `onDone`. -/
def demoEnv : DoneEnv :=
  { userRandom := "0.8a3f1c", now := .ofNat 1700000000000, cotRandom := "0.5b2e9d",
    isoNow := "2023-11-14T22:13:20.000Z" }

/-- The app after sign-up from the home page: a session without owner id. -/
def signupApp : AppState :=
  { initialApp "2023-11-14T22:00:00.000Z" with
    route := "CLIENT", authRole := some "CLIENT",
    session := some { userId := none, role := "CLIENT" } }

/-- The app with the seeded client logged in. -/
def clientApp : AppState :=
  { initialApp "2023-11-14T22:00:00.000Z" with
    route := "CLIENT", authRole := some "CLIENT",
    session := some { userId := some "u_client", role := "CLIENT" },
    savedSession := some { userId := some "u_client", role := "CLIENT" } }

/-- The `onLogin` callback that `App` passes to `LoginPage`: whether a user was
found, and the state after the handler. -/
def onLogin (role email password : String) (a : AppState) : Bool × AppState :=
  match a.users.find? (fun u => u.role == role && u.email == email && u.password == password) with
  | none => (false, appToast a "Identifiants incorrects." "error")
  | some found =>
    let s : Session := { userId := some found.id, role := found.role }
    let a1 := { a with session := some s, authRole := some found.role, savedSession := some s }
    let a2 := appToast a1 "Connexion réussie ✅" "success"
    (true, { a2 with route := if found.role = "ADMIN" then "ADMIN" else "CLIENT" })

/-- The `onSignup` callback of the home page. -/
def onSignup (a : AppState) : AppState :=
  { a with session := some { userId := none, role := "CLIENT" }, authRole := some "CLIENT",
           route := "CLIENT" }

/-- The mount effect that restores the session saved in local storage. -/
def restoreSession (a : AppState) : AppState :=
  match a.savedSession with
  | none => a
  | some s =>
    { a with session := some s, authRole := some s.role,
             route := if s.role = "ADMIN" then "ADMIN" else "CLIENT" }

/-- `logout()`. -/
def logout (a : AppState) : AppState :=
  appToast { a with savedSession := none, session := none, authRole := none, route := "HOME" }
    "Déconnecté ✅" "success"

/-- A page reload: the React state starts afresh, local storage is kept, and
the mount effect runs. -/
def reload (loadedAt : String) (a : AppState) : AppState :=
  restoreSession { initialApp loadedAt with savedSession := a.savedSession }

/-- A slot of the digit buffer holds nothing or one decimal digit. -/
def IsSlot (d : String) : Prop := d = "" ∨ ∃ c : Char, isDecimalDigit c = true ∧ d = ⟨[c]⟩

/-- The digit buffer has six slots, each empty or one decimal digit. -/
def DigitsOk (digits : List String) : Prop :=
  digits.length = 6 ∧ ∀ d ∈ digits, IsSlot d

/-- Facts about step, `verified`, `sent` and the digit buffer that hold in
every reachable state. -/
def FlowInv (s : State) : Prop :=
  (s.step = 1 ∨ s.step = 2 ∨ s.step = 3) ∧
  (s.otp.verified = true → s.otp.sent = true) ∧ DigitsOk s.otp.digits

/-- Facts about the pending calls that hold in every reachable page: a pending
`verifyOtp` captured an `otp` that passed `validateOtpStep`, and a code has
been sent; at most one `sendOtp` is pending, and while it is the send button
shows `sending` and the cooldown is over. -/
def PendingInv (pg : Page) : Prop :=
  (∀ c ∈ pg.verifies, c.sent = true ∧ jsLength (getOtpCode c) = 6) ∧
  (pg.verifies ≠ [] → pg.state.otp.sent = true) ∧
  pg.sends.length ≤ 1 ∧
  (pg.sends ≠ [] → pg.state.otp.sending = true ∧ pg.state.otp.cooldown = 0)

/-- A step-2 state with the right digits entered and the cooldown over. -/
def readyState : State :=
  { matchingState with otp := { matchingState.otp with cooldown := 0 } }

/-- The app after a sign-up completed onboarding and the page was reloaded:
the saved session names the user created before the reload. -/
def reloadedApp : AppState :=
  reload "2023-11-15T08:00:00.000Z" (onDone demoEnv demoData (onSignup (initialApp "")))

/-! # Theorems -/

/-! ## Lemmas on the error mapping -/

theorem Errors.get_assign (e : Errors) (k : String) (v : Option String) (k' : String) :
    (Errors.assign e k v).get k' = if k = k' then v else e.get k' := by
  induction e with
  | nil => simp [Errors.assign, Errors.get]
  | cons hd tl ih =>
    obtain ⟨a, b⟩ := hd
    by_cases h : a = k
    · subst h
      by_cases h' : a = k' <;> simp [Errors.assign, Errors.get, h']
    · by_cases h' : a = k'
      · subst h'
        have : ¬ k = a := fun h'' => h h''.symm
        simp [Errors.assign, Errors.get, h, this]
      · simp [Errors.assign, Errors.get, h, h', ih]

theorem Errors.get_assignIf (e : Errors) (c : Bool) (k msg k' : String) :
    (Errors.assignIf e c k msg).get k' = if c = true ∧ k = k' then some msg else e.get k' := by
  cases c <;> simp [Errors.assignIf, Errors.get_assign]

theorem Errors.noKeys_of_get_some {e : Errors} {k m : String} (h : e.get k = some m) :
    e.noKeys = false := by
  cases e with
  | nil => simp [Errors.get] at h
  | cons hd tl => simp [Errors.noKeys]

theorem truthy_eq_false_iff (s : String) : truthy s = false ↔ s = "" := by
  cases s with
  | mk d =>
    cases d with
    | nil => simp [truthy]
    | cons c cs =>
      simp only [truthy, List.isEmpty_cons, Bool.not_false, Bool.true_eq_false, false_iff]
      intro h
      have := congrArg String.data h
      simp at this

theorem truthy_iff (s : String) : truthy s = true ↔ s ≠ "" := by
  rw [← Bool.not_eq_false, truthy_eq_false_iff]


/-- C7: `validateOtpStep` passes exactly when `sent` is true and the joined
digits have length 6. When `sent` is false and the length is 6 the `otp`
message is the send-OTP-first one; whenever the length is not 6, also when
nothing was sent, the `otp` message is the invalid-OTP (6 digits) one, which
overwrites the not-sent message. -/
theorem validateOtpStep_spec (s : State) :
    ((validateOtpStep s).1 = true ↔
      (s.otp.sent = true ∧ jsLength (getOtpCode s.otp) = 6)) ∧
    (s.otp.sent = false → jsLength (getOtpCode s.otp) = 6 →
      (validateOtpStep s).2.errors.get "otp" = some "Clique sur “Envoyer OTP”.") ∧
    (jsLength (getOtpCode s.otp) ≠ 6 →
      (validateOtpStep s).2.errors.get "otp" = some "OTP invalide (6 chiffres).") := by
  have hempty : truthy (getOtpCode s.otp) = false → jsLength (getOtpCode s.otp) ≠ 6 := by
    intro h
    rw [truthy_eq_false_iff] at h
    rw [h]
    decide
  cases hs : s.otp.sent <;> by_cases hl : jsLength (getOtpCode s.otp) = 6 <;>
    cases ht : truthy (getOtpCode s.otp) <;>
    simp_all [validateOtpStep, otpStepErrors, Errors.assignIf, Errors.assign, Errors.get,
      Errors.noKeys]


theorem validateOtpStep_spec_witness :
    ((validateOtpStep matchingState).1 = true ↔
      (matchingState.otp.sent = true ∧ jsLength (getOtpCode matchingState.otp) = 6)) ∧
    (initialState demoProfile).otp.sent = false ∧
    jsLength (getOtpCode coolingState.otp) ≠ 6 ∧
    (validateOtpStep coolingState).2.errors.get "otp" = some "OTP invalide (6 chiffres)." ∧
    (validateOtpStep (initialState demoProfile)).2.errors.get "otp" =
      some "OTP invalide (6 chiffres)." :=
  ⟨(validateOtpStep_spec matchingState).1, by decide, by decide,
    (validateOtpStep_spec coolingState).2.2 (by decide),
    (validateOtpStep_spec (initialState demoProfile)).2.2 (by decide)⟩

theorem includesChars_singleton (c : Char) (cs : List Char) :
    includesChars [c] cs = true ↔ c ∈ cs := by
  induction cs with
  | nil => simp [includesChars]
  | cons hd tl ih =>
    simp only [includesChars, startsWithChars, Bool.and_true, Bool.or_eq_true, beq_iff_eq, ih,
      List.mem_cons]

/-- C6: `validateStep1` leaves an empty error mapping exactly when `fullName`,
`phone` and `address` are non-blank after trimming and `email` is blank or
contains `@`. In that case `onSubmitRegister` moves step 1 to step 2 with no
errors left; otherwise the step is unchanged, and in every case the mapping
holds exactly the messages of the failing fields. -/
theorem validateStep1_spec (s : State) :
    ((validateStep1 s).2.errors = [] ↔
      (jsTrim s.register.fullName ≠ "" ∧ jsTrim s.register.phone ≠ "" ∧
        jsTrim s.register.address ≠ "" ∧
        (jsTrim s.register.email = "" ∨ '@' ∈ s.register.email.data))) ∧
    ((validateStep1 s).2.errors = [] → s.step = 1 →
      (onSubmitRegister s).step = 2 ∧ (onSubmitRegister s).errors = []) ∧
    ((validateStep1 s).2.errors ≠ [] → (onSubmitRegister s).step = s.step) ∧
    (∀ k v, (k, v) ∈ (onSubmitRegister s).errors ↔
      ((k = "fullName" ∧ v = some "Nom requis." ∧ jsTrim s.register.fullName = "") ∨
       (k = "phone" ∧ v = some "Téléphone requis." ∧ jsTrim s.register.phone = "") ∨
       (k = "email" ∧ v = some "Email invalide." ∧
          jsTrim s.register.email ≠ "" ∧ '@' ∉ s.register.email.data) ∨
       (k = "address" ∧ v = some "Adresse requise." ∧ jsTrim s.register.address = ""))) := by
  have hinc : '@' ∈ s.register.email.data ↔ jsIncludes s.register.email "@" = true := by
    simpa [jsIncludes] using (includesChars_singleton '@' s.register.email.data).symm
  simp only [← truthy_eq_false_iff, ne_eq, hinc]
  simp only [validateStep1, onSubmitRegister, step1Errors, showToast]
  generalize truthy (jsTrim s.register.fullName) = b1
  generalize truthy (jsTrim s.register.phone) = b2
  generalize truthy (jsTrim s.register.email) = b3
  generalize truthy (jsTrim s.register.address) = b4
  generalize jsIncludes s.register.email "@" = b5
  cases b1 <;> cases b2 <;> cases b3 <;> cases b4 <;> cases b5 <;>
    simp [Errors.assignIf, Errors.assign, Errors.noKeys]


theorem validateStep1_spec_witness :
    (validateStep1 (initialState demoProfile)).2.errors = [] ∧
    (initialState demoProfile).step = 1 ∧
    (onSubmitRegister (initialState demoProfile)).step = 2 ∧
    (onSubmitRegister (initialState demoProfile)).errors = [] ∧
    (validateStep1 (initialState ⟨"", "", "", ""⟩)).2.errors ≠ [] ∧
    (onSubmitRegister (initialState ⟨"", "", "", ""⟩)).step = 1 :=
  ⟨by decide, by decide,
    ((validateStep1_spec (initialState demoProfile)).2.1 (by decide) (by decide)).1,
    ((validateStep1_spec (initialState demoProfile)).2.1 (by decide) (by decide)).2,
    by decide,
    (validateStep1_spec (initialState ⟨"", "", "", ""⟩)).2.2.1 (by decide)⟩

theorem step3Errors_get_accountNumber (p : Pay) :
    (step3Errors p).get "accountNumber" =
      if jsLength (jsTrim p.accountNumber) < 6 then some "Numéro de compte trop court."
      else if truthy (jsTrim p.accountNumber) = false then some "Numéro de compte requis."
      else none := by
  simp only [step3Errors, Errors.get_assignIf]
  by_cases h : jsLength (jsTrim p.accountNumber) < 6 <;>
    cases ht : truthy (jsTrim p.accountNumber) <;> simp [h, ht, Errors.get]

theorem step3Errors_get_bankId (p : Pay) :
    (step3Errors p).get "bankId" =
      if p.bankId = "" then some "Choisis une banque." else none := by
  simp only [step3Errors, Errors.get_assignIf]
  by_cases h : p.bankId = ""
  · have ht := (truthy_eq_false_iff p.bankId).2 h
    rw [ht, if_pos h]
    simp
  · have ht := (truthy_iff p.bankId).2 h
    rw [ht, if_neg h]
    simp [Errors.get]

/-- C8: `validateStep3` rejects every draft whose trimmed `accountNumber` has
length below 6 (length 5, or blank) with the too-short message on
`accountNumber`, and rejects every draft whose `bankId` is empty, whatever the
other fields are. -/
theorem validateStep3_account_bank (s : State) :
    (jsLength (jsTrim s.pay.accountNumber) < 6 →
      (validateStep3 s).1 = false ∧
      (validateStep3 s).2.errors.get "accountNumber" = some "Numéro de compte trop court.") ∧
    (s.pay.bankId = "" →
      (validateStep3 s).1 = false ∧
      (validateStep3 s).2.errors.get "bankId" = some "Choisis une banque.") := by
  refine ⟨fun h => ?_, fun h => ?_⟩
  · have hg : (step3Errors s.pay).get "accountNumber" = some "Numéro de compte trop court." := by
      rw [step3Errors_get_accountNumber, if_pos h]
    exact ⟨Errors.noKeys_of_get_some hg, hg⟩
  · have hg : (step3Errors s.pay).get "bankId" = some "Choisis une banque." := by
      rw [step3Errors_get_bankId, if_pos h]
    exact ⟨Errors.noKeys_of_get_some hg, hg⟩

theorem validateStep3_account_bank_witness :
    (jsLength (jsTrim (initialState demoProfile).pay.accountNumber) < 6 ∧
      (validateStep3 (initialState demoProfile)).1 = false ∧
      (validateStep3 (initialState demoProfile)).2.errors.get "accountNumber" =
        some "Numéro de compte trop court.") ∧
    ((initialState demoProfile).pay.bankId = "" ∧
      (validateStep3 (initialState demoProfile)).1 = false ∧
      (validateStep3 (initialState demoProfile)).2.errors.get "bankId" =
        some "Choisis une banque.") :=
  ⟨⟨by decide, (validateStep3_account_bank (initialState demoProfile)).1 (by decide)⟩,
    ⟨by decide, (validateStep3_account_bank (initialState demoProfile)).2 (by decide)⟩⟩

/-- C4: with a blank phone `sendOtp` ends on the phone-required path: the only
change is that `errors` becomes the phone message, so the whole `otp` state is
unchanged. With a non-blank phone it takes the sending path: `sent` becomes
true and no phone error is added. -/
theorem sendOtp_phone_check (r : JsNumber) (s : State) :
    (jsTrim s.register.phone = "" →
      (sendOtp r s).1 = SendOutcome.phoneRequired ∧
      (sendOtp r s).2 =
        { s with errors := [("phone", some "Téléphone requis pour envoyer OTP.")] } ∧
      (sendOtp r s).2.otp = s.otp) ∧
    (jsTrim s.register.phone ≠ "" →
      (sendOtp r s).1 = SendOutcome.sent ∧
      (sendOtp r s).2.otp.sent = true ∧
      (sendOtp r s).2.errors.get "phone" = s.errors.get "phone") := by
  refine ⟨fun h => ?_, fun h => ?_⟩
  · have ht := (truthy_eq_false_iff _).2 h
    simp [sendOtp, sendOtpBegin, ht]
  · have ht := (truthy_iff _).2 h
    simp [sendOtp, sendOtpBegin, sendOtpResume, showToast, ht, Errors.get_assign]

theorem sendOtp_phone_check_witness :
    (jsTrim (initialState ⟨"", "  ", "", ""⟩).register.phone = "" ∧
      (sendOtp halfDraw (initialState ⟨"", "  ", "", ""⟩)).1 = SendOutcome.phoneRequired ∧
      (sendOtp halfDraw (initialState ⟨"", "  ", "", ""⟩)).2 =
        { initialState ⟨"", "  ", "", ""⟩ with
          errors := [("phone", some "Téléphone requis pour envoyer OTP.")] } ∧
      (sendOtp halfDraw (initialState ⟨"", "  ", "", ""⟩)).2.otp =
        (initialState ⟨"", "  ", "", ""⟩).otp) ∧
    (jsTrim coolingState.register.phone ≠ "" ∧
      (sendOtp halfDraw coolingState).1 = SendOutcome.sent ∧
      (sendOtp halfDraw coolingState).2.otp.sent = true ∧
      (sendOtp halfDraw coolingState).2.errors.get "phone" = coolingState.errors.get "phone") :=
  ⟨⟨by decide, (sendOtp_phone_check halfDraw (initialState ⟨"", "  ", "", ""⟩)).1 (by decide)⟩,
    ⟨by decide, (sendOtp_phone_check halfDraw coolingState).2 (by decide)⟩⟩

theorem ticks_cooldown (n : Nat) (p : Otp) (h : 0 ≤ p.cooldown) :
    ticks n p = { p with cooldown := max 0 (p.cooldown - n) } := by
  induction n generalizing p with
  | zero => simp [ticks, h]
  | succ k ih =>
    have h0 : 0 ≤ (tick p).cooldown := by simp [tick]
    rw [ticks, ih (tick p) h0]
    simp only [tick]
    congr 1
    push_cast
    omega

/-- C5: a tick maps `cooldown` `c` to `max 0 (c - 1)` and changes no other
field of `otp`; for `c ≥ 0`, `n` ticks give `max 0 (c - n)`, never a negative
value: 30 ticks from 30 give 0, and a tick at 0 changes nothing. -/
theorem tick_spec (p : Otp) (n : Nat) (h : 0 ≤ p.cooldown) :
    tick p = { p with cooldown := max 0 (p.cooldown - 1) } ∧
    ticks n p = { p with cooldown := max 0 (p.cooldown - n) } ∧
    0 ≤ (ticks n p).cooldown ∧
    (p.cooldown = 30 → (ticks 30 p).cooldown = 0) ∧
    (p.cooldown = 0 → tick p = p) := by
  refine ⟨rfl, ticks_cooldown n p h, ?_, ?_, ?_⟩
  · rw [ticks_cooldown n p h]; simp
  · intro h30
    rw [ticks_cooldown 30 p h]
    simp [h30]
  · intro h0
    cases p
    simp_all [tick]

theorem tick_spec_witness :
    0 ≤ coolingState.otp.cooldown ∧
    tick coolingState.otp =
      { coolingState.otp with cooldown := max 0 (coolingState.otp.cooldown - 1) } ∧
    ticks 25 coolingState.otp =
      { coolingState.otp with cooldown := max 0 (coolingState.otp.cooldown - (25 : Nat)) } ∧
    0 ≤ (ticks 25 coolingState.otp).cooldown ∧
    (coolingState.otp.cooldown = 30 → (ticks 30 coolingState.otp).cooldown = 0) ∧
    (coolingState.otp.cooldown = 0 → tick coolingState.otp = coolingState.otp) :=
  ⟨by decide, tick_spec coolingState.otp 25 (by decide)⟩

theorem verifyOtp_eq (s : State) :
    verifyOtp s =
      if (otpStepErrors s.otp).noKeys = false then
        (.invalid, { s with errors := otpStepErrors s.otp })
      else if getOtpCode s.otp = s.otp.serverCode then
        (.verified, { s with
          step := 3
          errors := otpStepErrors s.otp
          otp := { s.otp with verifying := false, verified := true }
          localToast := some { message := "OTP vérifié ✅", type := "success" } })
      else
        (.incorrect, { s with
          errors := otpStepErrors s.otp
          otp := { s.otp with verifying := false }
          localToast := some { message := "OTP incorrect ❌", type := "error" } }) := by
  cases h : (otpStepErrors s.otp).noKeys <;>
    by_cases hc : getOtpCode s.otp = s.otp.serverCode <;>
    simp [verifyOtp, verifyOtpBegin, validateOtpStep, verifyOtpResume, showToast, h, hc]

theorem sendOtp_eq (r : JsNumber) (s : State) :
    sendOtp r s =
      if truthy (jsTrim s.register.phone) = false then
        (.phoneRequired,
          { s with errors := [("phone", some "Téléphone requis pour envoyer OTP.")] })
      else
        (.sent, { s with
          otp := { s.otp with
            sent := true, serverCode := generateCode r, sending := false, cooldown := 30,
            verified := false, digits := ["", "", "", "", "", ""] }
          localToast := some { message := "OTP envoyé au " ++ s.register.phone ++ " ✅",
                               type := "success" }
          errors := s.errors.assign "otp" none }) := by
  cases h : truthy (jsTrim s.register.phone) <;>
    simp [sendOtp, sendOtpBegin, sendOtpResume, showToast, h]

theorem onConfirm_snd (s : State) :
    (onConfirm s).2 =
      if (step3Errors s.pay).noKeys = false then { s with errors := step3Errors s.pay }
      else { s with
        errors := step3Errors s.pay
        loading := false
        localToast := some { message := "Cotisation confirmée ✅", type := "success" } } := by
  cases h : (step3Errors s.pay).noKeys <;>
    simp [onConfirm, validateStep3, showToast, h]

theorem onSubmitRegister_eq (s : State) :
    onSubmitRegister s =
      if (step1Errors s.register).noKeys = false then { s with errors := step1Errors s.register }
      else { s with
        step := 2
        errors := step1Errors s.register
        localToast := some { message := "Profil validé ✅", type := "success" } } := by
  cases h : (step1Errors s.register).noKeys <;>
    simp [onSubmitRegister, validateStep1, showToast, h]

theorem inv_init (banks : List Bank) (prefill : Register) : Inv banks (initialState prefill) := by
  simp [Inv, initialState, initialOtp, initialPay, bankOptions]

theorem sendOtpBegin_eq (s : State) :
    sendOtpBegin s =
      if truthy (jsTrim s.register.phone) = false then
        (.phoneRequired,
          { s with errors := [("phone", some "Téléphone requis pour envoyer OTP.")] })
      else (.sent, { s with otp := { s.otp with sending := true } }) := by
  cases h : truthy (jsTrim s.register.phone) <;> simp [sendOtpBegin, h]

theorem sendOtpResume_eq (r : JsNumber) (phone : String) (s : State) :
    sendOtpResume r phone s =
      { s with
        otp := { s.otp with
          sent := true, serverCode := generateCode r, sending := false, cooldown := 30,
          verified := false, digits := ["", "", "", "", "", ""] }
        localToast := some { message := "OTP envoyé au " ++ phone ++ " ✅", type := "success" }
        errors := s.errors.assign "otp" none } := by
  simp [sendOtpResume, showToast]

theorem verifyOtpBegin_eq (s : State) :
    verifyOtpBegin s =
      if (otpStepErrors s.otp).noKeys = false then
        (false, { s with errors := otpStepErrors s.otp })
      else
        (true, { s with
          errors := otpStepErrors s.otp
          otp := { s.otp with verifying := true } }) := by
  cases h : (otpStepErrors s.otp).noKeys <;> simp [verifyOtpBegin, validateOtpStep, h]

theorem verifyOtpResume_eq (captured : Otp) (s : State) :
    verifyOtpResume captured s =
      if getOtpCode captured = captured.serverCode then
        (.verified, { s with
          step := 3
          otp := { s.otp with verifying := false, verified := true }
          localToast := some { message := "OTP vérifié ✅", type := "success" } })
      else
        (.incorrect, { s with
          otp := { s.otp with verifying := false }
          localToast := some { message := "OTP incorrect ❌", type := "error" } }) := by
  by_cases hc : getOtpCode captured = captured.serverCode <;>
    simp [verifyOtpResume, showToast, hc]

theorem onConfirmBegin_snd (s : State) :
    (onConfirmBegin s).2 =
      if (step3Errors s.pay).noKeys = false then { s with errors := step3Errors s.pay }
      else { s with errors := step3Errors s.pay, loading := true } := by
  cases h : (step3Errors s.pay).noKeys <;> simp [onConfirmBegin, validateStep3, h]

theorem onConfirmResume_eq (s : State) :
    onConfirmResume s =
      { s with
        loading := false
        localToast := some { message := "Cotisation confirmée ✅", type := "success" } } := by
  simp [onConfirmResume, showToast]

/-- `onConfirm`, the handler run with no other event before it completes, is
its first half followed by its second half, and passes to `onDone` the value
the first half captured. -/
theorem onConfirm_eq_begin_resume (s : State) :
    onConfirm s =
      match onConfirmBegin s with
      | (none, s1) => (none, s1)
      | (some d, s1) => (some d, onConfirmResume s1) := by
  cases h : (step3Errors s.pay).noKeys <;>
    simp [onConfirm, onConfirmBegin, onConfirmResume, validateStep3, showToast, h]

theorem inv_step (banks : List Bank) (ev : Event) (s : State)
    (h : Inv banks s) (he : enabled banks ev s = true) : Inv banks (applyEvent ev s) := by
  obtain ⟨h1, h2, h3, h4⟩ := h
  cases ev <;>
    simp only [applyEvent, sendOtpBegin_eq, sendOtpResume_eq, verifyOtpBegin_eq,
      verifyOtpResume_eq, onConfirmBegin_snd, onConfirmResume_eq, onSubmitRegister_eq, Inv,
      onChange, onKeyDown, onPaste, setDigit, tick] <;>
    (try split) <;> (try split) <;> (try split) <;>
    simp_all [enabled]
  omega

theorem enabled_of_canHappen (banks : List Bank) (ev : Event) (pg : Page)
    (h : canHappen banks ev pg = true) : enabled banks ev pg.state = true := by
  cases ev <;> simp_all [canHappen, enabled]

theorem pageStep_state (ev : Event) (pg : Page) :
    (pageStep ev pg).state = applyEvent ev pg.state := by
  cases ev <;> rfl

theorem pageReachable_inv {banks : List Bank} {prefill : Register} {pg : Page}
    (h : PageReachable banks prefill pg) : Inv banks pg.state := by
  induction h with
  | init => exact inv_init banks prefill
  | step ev _ he ih =>
    rw [pageStep_state]
    exact inv_step banks ev _ ih (enabled_of_canHappen banks ev _ he)

theorem reachable_inv {banks : List Bank} {prefill : Register} {s : State}
    (h : Reachable banks prefill s) : Inv banks s := by
  obtain ⟨pg, hpg, rfl⟩ := h
  exact pageReachable_inv hpg

theorem reachable_run {banks : List Bank} {prefill : Register} (evs : List Event) {pg : Page}
    (hs : PageReachable banks prefill pg) (he : allEnabled banks evs pg = true) :
    PageReachable banks prefill (runEvents evs pg) := by
  induction evs generalizing pg with
  | nil => exact hs
  | cons ev rest ih =>
    simp only [allEnabled, Bool.and_eq_true] at he
    exact ih (PageReachable.step ev hs he.1) he.2

theorem reachable_state {banks : List Bank} {prefill : Register} {pg : Page}
    (h : PageReachable banks prefill pg) : Reachable banks prefill pg.state :=
  ⟨pg, h, rfl⟩

theorem jsLength_of_digits (cs : List Char) (h : cs.all isDecimalDigit = true) :
    jsLength ⟨cs⟩ = cs.length := by
  induction cs with
  | nil => rfl
  | cons c tl ih =>
    simp only [List.all_cons, Bool.and_eq_true] at h
    have hc : c.toNat < 65536 := by
      have := h.1
      simp only [isDecimalDigit, Bool.and_eq_true, decide_eq_true_eq] at this
      omega
    have := ih h.2
    simp only [jsLength] at this ⊢
    simp [hc, this]
    omega

theorem otpStepErrors_noKeys (o : Otp) :
    (otpStepErrors o).noKeys = true ↔ (o.sent = true ∧ jsLength (getOtpCode o) = 6) := by
  have hempty : truthy (getOtpCode o) = false → jsLength (getOtpCode o) ≠ 6 := by
    intro h
    rw [truthy_eq_false_iff] at h
    rw [h]
    decide
  cases hs : o.sent <;> by_cases hl : jsLength (getOtpCode o) = 6 <;>
    cases ht : truthy (getOtpCode o) <;>
    simp_all [otpStepErrors, Errors.assignIf, Errors.assign, Errors.noKeys]

theorem sent_step (ev : Event) (s : State) (h : s.otp.sent = true) :
    (applyEvent ev s).otp.sent = true := by
  cases ev with
  | sendClick =>
    simp only [applyEvent, sendOtpBegin_eq]
    split <;> exact h
  | sendDone r phone => simp [applyEvent, sendOtpResume_eq]
  | verifySubmit =>
    simp only [applyEvent, verifyOtpBegin_eq]
    split <;> exact h
  | verifyDone captured =>
    simp only [applyEvent, verifyOtpResume_eq]
    split <;> exact h
  | submitRegister =>
    simp only [applyEvent, onSubmitRegister_eq]
    split <;> exact h
  | confirmClick =>
    simp only [applyEvent, onConfirmBegin_snd]
    split <;> exact h
  | otpChange i v =>
    cases hl : (stripNonDigits v.data).getLast? <;>
      simp [applyEvent, onChange, hl, setDigit, h]
  | otpKeyDown i key =>
    simp only [applyEvent, onKeyDown, setDigit]
    split
    · split
      · exact h
      · split <;> exact h
    · exact h
  | otpPaste clip =>
    simp only [applyEvent, onPaste]
    split <;> exact h
  | timerTick => simp [applyEvent, tick, h]
  | _ => simp [applyEvent, onConfirmResume_eq, h]

theorem pending_send_step (banks : List Bank) (ev : Event) (s : State)
    (he : enabled banks ev s = true) (hs : s.otp.sending = true) (hc : s.otp.cooldown = 0)
    (hne : ∀ r phone, ev ≠ Event.sendDone r phone) :
    (applyEvent ev s).otp.sending = true ∧ (applyEvent ev s).otp.cooldown = 0 := by
  cases ev with
  | sendClick => simp [enabled, hs] at he
  | sendDone r phone => exact absurd rfl (hne r phone)
  | timerTick => simp [enabled, hc] at he
  | verifySubmit =>
    simp only [applyEvent, verifyOtpBegin_eq]
    split <;> exact ⟨hs, hc⟩
  | verifyDone captured =>
    simp only [applyEvent, verifyOtpResume_eq]
    split <;> exact ⟨hs, hc⟩
  | submitRegister =>
    simp only [applyEvent, onSubmitRegister_eq]
    split <;> exact ⟨hs, hc⟩
  | confirmClick =>
    simp only [applyEvent, onConfirmBegin_snd]
    split <;> exact ⟨hs, hc⟩
  | otpChange i v =>
    cases hl : (stripNonDigits v.data).getLast? <;>
      simp [applyEvent, onChange, hl, setDigit, hs, hc]
  | otpKeyDown i key =>
    simp only [applyEvent, onKeyDown, setDigit]
    split
    · split
      · exact ⟨hs, hc⟩
      · split <;> exact ⟨hs, hc⟩
    · exact ⟨hs, hc⟩
  | otpPaste clip =>
    simp only [applyEvent, onPaste]
    split <;> exact ⟨hs, hc⟩
  | _ => simp [applyEvent, onConfirmResume_eq, hs, hc]

theorem pendingInv_init (prefill : Register) : PendingInv (initialPage prefill) := by
  simp [PendingInv, initialPage]

theorem pendingInv_step (banks : List Bank) (ev : Event) (pg : Page)
    (hi : Inv banks pg.state) (h : PendingInv pg) (he : canHappen banks ev pg = true) :
    PendingInv (pageStep ev pg) := by
  obtain ⟨p1, p2, p3, p4⟩ := h
  have hen := enabled_of_canHappen banks ev pg he
  cases ev with
  | sendClick =>
    simp only [enabled, Bool.and_eq_true, beq_iff_eq, Bool.not_eq_true', Bool.or_eq_false_iff,
      decide_eq_false_iff_not] at hen
    have hnil : pg.sends = [] := by
      by_contra hne
      have := (p4 hne).1
      rw [hen.2.1] at this
      cases this
    have hc0 : pg.state.otp.cooldown = 0 := by
      have := hi.2.1
      omega
    refine ⟨p1, fun hv => sent_step _ _ (p2 hv), ?_, ?_⟩
    · cases ht : truthy (jsTrim pg.state.register.phone) <;>
        simp [pageStep, sendOtpBegin_eq, ht, hnil]
    · cases ht : truthy (jsTrim pg.state.register.phone) <;>
        simp [pageStep, applyEvent, sendOtpBegin_eq, ht, hnil, hc0]
  | sendDone r phone =>
    simp only [canHappen, Bool.and_eq_true, beq_iff_eq] at he
    have htl : pg.sends.tail = [] := by
      cases hs : pg.sends with
      | nil => rfl
      | cons a tl =>
        rw [hs] at p3
        simp only [List.length_cons] at p3
        have : tl.length = 0 := by omega
        simpa using this
    simp only [pageStep, applyEvent, sendOtpResume_eq, htl]
    exact ⟨p1, fun _ => rfl, by simp, fun hne => absurd rfl hne⟩
  | verifySubmit =>
    simp only [pageStep, applyEvent, verifyOtpBegin_eq]
    cases hk : (otpStepErrors pg.state.otp).noKeys
    · simpa using ⟨p1, p2, p3, p4⟩
    · have hv := (otpStepErrors_noKeys pg.state.otp).1 hk
      simp only [Bool.true_eq_false, if_false, if_true]
      refine ⟨fun c hc => ?_, fun _ => hv.1, p3, p4⟩
      rcases List.mem_append.1 hc with h1 | h1
      · exact p1 c h1
      · rw [List.mem_singleton.1 h1]
        exact hv
  | verifyDone captured =>
    have hne : pg.verifies ≠ [] := by
      simp only [canHappen, beq_iff_eq] at he
      intro h0
      rw [h0] at he
      cases he
    have hsent := p2 hne
    simp only [pageStep, applyEvent, verifyOtpResume_eq]
    refine ⟨fun c hc => p1 c (List.mem_of_mem_tail hc), fun _ => ?_, p3, ?_⟩
    · split <;> exact hsent
    · split <;> exact p4
  | _ =>
    exact ⟨p1, fun hv => sent_step _ _ (p2 hv), p3,
      fun hs => pending_send_step banks _ _ hen (p4 hs).1 (p4 hs).2 (by intro r phone h; cases h)⟩

theorem pageReachable_pending {banks : List Bank} {prefill : Register} {pg : Page}
    (h : PageReachable banks prefill pg) : PendingInv pg := by
  induction h with
  | init => exact pendingInv_init prefill
  | step ev hr he ih => exact pendingInv_step banks ev _ (pageReachable_inv hr) ih he

/-- C1: when the digit buffer holds a six-digit decimal string `d`, in any
state the page can reach and in any state in which a code has been sent,
`verifyOtp` ends in the VERIFIED outcome exactly when `d` equals `serverCode`
as a string; VERIFIED sets `verified` and moves to step 3, and any other
outcome leaves `verified` and the step as they were. -/
theorem verifyOtp_verified_iff (banks : List Bank) (prefill : Register) (s : State) (d : String)
    (hs : Reachable banks prefill s ∨ s.otp.sent = true)
    (hd : getOtpCode s.otp = d) (hlen : d.data.length = 6)
    (hdig : d.data.all isDecimalDigit = true) :
    ((verifyOtp s).1 = VerifyOutcome.verified ↔ d = s.otp.serverCode) ∧
    ((verifyOtp s).1 = VerifyOutcome.verified →
      (verifyOtp s).2.otp.verified = true ∧ (verifyOtp s).2.step = 3) ∧
    ((verifyOtp s).1 ≠ VerifyOutcome.verified →
      (verifyOtp s).2.otp.verified = s.otp.verified ∧ (verifyOtp s).2.step = s.step) := by
  have hl : jsLength (getOtpCode s.otp) = 6 := by
    rw [hd]
    cases d with
    | mk cs => exact (jsLength_of_digits cs hdig).trans hlen
  have hne : d ≠ "" := by
    intro h
    rw [h] at hlen
    simp at hlen
  have hinv : s.otp.sent = false → s.otp.serverCode = "" := by
    rcases hs with hr | hsent
    · exact (reachable_inv hr).1
    · intro h; rw [hsent] at h; cases h
  rw [verifyOtp_eq]
  cases hsent : s.otp.sent
  · have hk : (otpStepErrors s.otp).noKeys = false := by
      rw [← Bool.not_eq_true, otpStepErrors_noKeys]
      simp [hsent]
    have hsc := hinv hsent
    simp [hk, hsc, hne]
  · have hk : (otpStepErrors s.otp).noKeys = true := (otpStepErrors_noKeys _).2 ⟨hsent, hl⟩
    by_cases hc : getOtpCode s.otp = s.otp.serverCode
    · simp [hk, hc, ← hd]
    · simp [hk, hc, ← hd]

theorem verifyOtp_verified_iff_witness :
    getOtpCode matchingState.otp = "123456" ∧
    ((verifyOtp matchingState).1 = VerifyOutcome.verified ↔
        "123456" = matchingState.otp.serverCode) ∧
    ((verifyOtp matchingState).1 = VerifyOutcome.verified →
      (verifyOtp matchingState).2.otp.verified = true ∧ (verifyOtp matchingState).2.step = 3) ∧
    ((verifyOtp matchingState).1 ≠ VerifyOutcome.verified →
      (verifyOtp matchingState).2.otp.verified = matchingState.otp.verified ∧
      (verifyOtp matchingState).2.step = matchingState.step) :=
  ⟨by decide, verifyOtp_verified_iff BANKS ⟨"", "", "", ""⟩ matchingState "123456"
    (Or.inr (by decide)) (by decide) (by decide) (by decide)⟩

/-- C3: while `cooldown > 0` a send is rejected: the send button is disabled
(`disabled={otp.cooldown > 0}`), so a click on it leaves the whole state as it
was, `serverCode`, `digits`, `verified` and `cooldown` included, and no call of
`sendOtp` starts. A send takes effect only at `cooldown = 0`: in a reachable
state a click that changes the state happens at `cooldown = 0`, and in a
reachable page the completion of a pending `sendOtp`, which is what writes the
new code, happens at `cooldown = 0`. -/
theorem clickSend_gate (banks : List Bank) (prefill : Register) (r : JsNumber) (s : State) :
    (0 < s.otp.cooldown →
      clickSend r s = s ∧ enabled banks Event.sendClick s = false) ∧
    (Reachable banks prefill s → clickSend r s ≠ s → s.otp.cooldown = 0) ∧
    (∀ (pg : Page) (phone : String), PageReachable banks prefill pg →
      canHappen banks (Event.sendDone r phone) pg = true → pg.state.otp.cooldown = 0) := by
  refine ⟨fun h => ?_, fun hr hne => ?_, fun pg phone hr he => ?_⟩
  · simp [clickSend, enabled, h]
  · have h0 := (reachable_inv hr).2.1
    by_contra hc
    have hpos : 0 < s.otp.cooldown := by omega
    exact hne (by simp [clickSend, hpos])
  · have hne : pg.sends ≠ [] := by
      simp only [canHappen, Bool.and_eq_true, beq_iff_eq] at he
      intro h0
      rw [h0] at he
      cases he.2
    exact ((pageReachable_pending hr).2.2.2 hne).2

theorem clickSend_gate_witness :
    (0 < coolingState.otp.cooldown ∧
      clickSend halfDraw coolingState = coolingState ∧
      enabled BANKS Event.sendClick coolingState = false) ∧
    (Reachable BANKS demoProfile (runEvents [.submitRegister] (initialPage demoProfile)).state ∧
      clickSend halfDraw (runEvents [.submitRegister] (initialPage demoProfile)).state ≠
        (runEvents [.submitRegister] (initialPage demoProfile)).state ∧
      (runEvents [.submitRegister] (initialPage demoProfile)).state.otp.cooldown = 0) ∧
    (PageReachable BANKS demoProfile
        (runEvents [.submitRegister, .sendClick] (initialPage demoProfile)) ∧
      canHappen BANKS (Event.sendDone halfDraw "77123456")
        (runEvents [.submitRegister, .sendClick] (initialPage demoProfile)) = true ∧
      (runEvents [.submitRegister, .sendClick] (initialPage demoProfile)).state.otp.cooldown = 0) :=
  ⟨⟨by decide, (clickSend_gate BANKS demoProfile halfDraw coolingState).1 (by decide)⟩,
    ⟨reachable_state (reachable_run _ PageReachable.init (by decide)), by decide!,
      (clickSend_gate BANKS demoProfile halfDraw _).2.1
        (reachable_state (reachable_run _ PageReachable.init (by decide))) (by decide!)⟩,
    reachable_run _ PageReachable.init (by decide), by decide,
    (clickSend_gate BANKS demoProfile halfDraw
        (runEvents [.submitRegister, .sendClick] (initialPage demoProfile)).state).2.2
      _ "77123456" (reachable_run _ PageReachable.init (by decide)) (by decide)⟩

/-- C9: a draft the page can hold passes `validateStep3` only if its `bankId`
is the id of a bank of the banks collection, and a draft the page can hold
whose `bankId` is the id of no bank fails validation with the error on
`bankId`. The bank select offers the empty value and the ids of the banks and
nothing else, and `validateStep3` rejects the empty value. -/
theorem validateStep3_bankId (banks : List Bank) (prefill : Register) (s : State)
    (h : Reachable banks prefill s) :
    ((validateStep3 s).1 = true → ∃ b ∈ banks, b.id = s.pay.bankId) ∧
    ((∀ b ∈ banks, b.id ≠ s.pay.bankId) →
      (validateStep3 s).1 = false ∧
      (validateStep3 s).2.errors.get "bankId" = some "Choisis une banque.") := by
  have hopt := (reachable_inv h).2.2.2
  simp only [bankOptions, List.mem_cons, List.mem_map] at hopt
  have hfail : s.pay.bankId = "" →
      (validateStep3 s).1 = false ∧
      (validateStep3 s).2.errors.get "bankId" = some "Choisis une banque." := by
    intro h0
    have hg : (step3Errors s.pay).get "bankId" = some "Choisis une banque." := by
      rw [step3Errors_get_bankId, if_pos h0]
    have hk := Errors.noKeys_of_get_some hg
    exact ⟨by simpa [validateStep3] using hk, by simpa [validateStep3] using hg⟩
  refine ⟨fun hv => ?_, fun hno => ?_⟩
  · rcases hopt with h0 | ⟨b, hb, hbid⟩
    · rw [(hfail h0).1] at hv
      cases hv
    · exact ⟨b, hb, hbid⟩
  · rcases hopt with h0 | ⟨b, hb, hbid⟩
    · exact hfail h0
    · exact absurd hbid (hno b hb)

theorem validateStep3_bankId_witness :
    (Reachable BANKS demoProfile (runEvents demoRun (initialPage demoProfile)).state ∧
      (validateStep3 (runEvents demoRun (initialPage demoProfile)).state).1 = true ∧
      ∃ b ∈ BANKS, b.id = (runEvents demoRun (initialPage demoProfile)).state.pay.bankId) ∧
    (Reachable BANKS demoProfile (initialState demoProfile) ∧
      (∀ b ∈ BANKS, b.id ≠ (initialState demoProfile).pay.bankId) ∧
      (validateStep3 (initialState demoProfile)).1 = false ∧
      (validateStep3 (initialState demoProfile)).2.errors.get "bankId" =
        some "Choisis une banque.") :=
  ⟨⟨reachable_state (reachable_run _ PageReachable.init (by decide!)), by decide!,
      (validateStep3_bankId BANKS demoProfile _
        (reachable_state (reachable_run _ PageReachable.init (by decide!)))).1 (by decide!)⟩,
    reachable_state PageReachable.init, by decide,
    (validateStep3_bankId BANKS demoProfile _ (reachable_state PageReachable.init)).2
      (by decide)⟩

/-- C10 at the failing input: the amount text `Infinity` parses to `+Infinity`,
which is neither `NaN` nor `<= 0`, so `validateStep3` accepts the draft with no
error on `amount`; `onConfirm` then emits an infinite amount with total 0. -/
theorem validateStep3_infinite_amount :
    Number infiniteAmountState.pay.amount = JsNumber.inf false ∧
    (Number infiniteAmountState.pay.amount).isFinite = false ∧
    (validateStep3 infiniteAmountState).1 = true ∧
    (validateStep3 infiniteAmountState).2.errors.get "amount" = none ∧
    ((onConfirm infiniteAmountState).1.map fun d => (d.cotisation.amount, d.cotisation.total)) =
      some (JsNumber.inf false, JsNumber.ofNat 0) := by
  decide!

/-! ## Rounding to a double -/

theorem log2Aux_spec (fuel n : Nat) (hf : n ≤ fuel) (hn : 0 < n) :
    2 ^ log2Aux fuel n ≤ n ∧ n < 2 ^ (log2Aux fuel n + 1) := by
  induction fuel generalizing n with
  | zero => omega
  | succ f ih =>
    unfold log2Aux
    by_cases h2 : n < 2
    · have : n = 1 := by omega
      simp [this]
    · simp only [h2, if_false]
      have hh := ih (n / 2) (by omega) (by omega)
      have e1 : 2 ^ (log2Aux f (n / 2) + 1) = 2 * 2 ^ log2Aux f (n / 2) := by
        rw [pow_succ]; ring
      have e2 : 2 ^ (log2Aux f (n / 2) + 1 + 1) = 2 * 2 ^ (log2Aux f (n / 2) + 1) := by
        rw [pow_succ]; ring
      rw [e2]
      rw [e1] at hh ⊢
      omega

theorem ilog2_spec (n : Nat) (hn : 0 < n) : 2 ^ ilog2 n ≤ n ∧ n < 2 ^ (ilog2 n + 1) :=
  log2Aux_spec n n (le_refl n) hn

theorem ilog2_eq (n e : Nat) (h1 : 2 ^ e ≤ n) (h2 : n < 2 ^ (e + 1)) : ilog2 n = e := by
  have hn : 0 < n := lt_of_lt_of_le (by positivity) h1
  have hs := ilog2_spec n hn
  have a : ilog2 n < e + 1 := by
    by_contra hc
    have : 2 ^ (e + 1) ≤ 2 ^ ilog2 n := Nat.pow_le_pow_right (by norm_num) (by omega)
    omega
  have b : e < ilog2 n + 1 := by
    by_contra hc
    have : 2 ^ (ilog2 n + 1) ≤ 2 ^ e := Nat.pow_le_pow_right (by norm_num) (by omega)
    omega
  omega

theorem pow2_pos (e : Int) : 0 < pow2 e := zpow_pos (by norm_num) e

theorem pow2_add (a b : Int) : pow2 (a + b) = pow2 a * pow2 b :=
  zpow_add₀ (by norm_num) a b

theorem pow2_mono {a b : Int} (h : a ≤ b) : pow2 a ≤ pow2 b :=
  zpow_le_zpow_right₀ (by norm_num) h

theorem pow2_natCast (k : Nat) : pow2 (k : Int) = ((2 ^ k : Nat) : ℚ) := by
  simp [pow2, zpow_natCast]

theorem pow2_toNat {e : Int} (h : 0 ≤ e) : ((2 ^ e.toNat : Nat) : ℚ) = pow2 e := by
  rw [← pow2_natCast, Int.toNat_of_nonneg h]

theorem pow2_neg_toNat {e : Int} (h : e ≤ 0) : ((2 ^ (-e).toNat : Nat) : ℚ) * pow2 e = 1 := by
  rw [pow2_toNat (by omega), ← pow2_add]
  simp [pow2]

theorem binExp_spec (n d : Nat) (hn : 0 < n) (hd : 0 < d) :
    pow2 (binExp n d) * d ≤ n ∧ (n : ℚ) < pow2 (binExp n d + 1) * d := by
  obtain ⟨n1, n2⟩ := ilog2_spec n hn
  obtain ⟨d1, d2⟩ := ilog2_spec d hd
  have hn1 : pow2 (ilog2 n) ≤ n := by rw [pow2_natCast]; exact_mod_cast n1
  have hn2 : (n : ℚ) < pow2 (ilog2 n + 1) := by
    have := pow2_natCast (ilog2 n + 1)
    push_cast at this
    rw [this]; exact_mod_cast n2
  have hd1 : pow2 (ilog2 d) ≤ d := by rw [pow2_natCast]; exact_mod_cast d1
  have hd2 : (d : ℚ) < pow2 (ilog2 d + 1) := by
    have := pow2_natCast (ilog2 d + 1)
    push_cast at this
    rw [this]; exact_mod_cast d2
  have hup : (n : ℚ) < pow2 ((ilog2 n : Int) - (ilog2 d : Int) + 1) * d := by
    have e : ((ilog2 n : Int) + 1) = ((ilog2 n : Int) - (ilog2 d : Int) + 1) + (ilog2 d : Int) := by
      ring
    have h3 : pow2 ((ilog2 n : Int) + 1) =
        pow2 ((ilog2 n : Int) - (ilog2 d : Int) + 1) * pow2 (ilog2 d) := by
      rw [← pow2_add, ← e]
    have hp := pow2_pos ((ilog2 n : Int) - (ilog2 d : Int) + 1)
    calc (n : ℚ) < pow2 ((ilog2 n : Int) + 1) := hn2
      _ = pow2 ((ilog2 n : Int) - (ilog2 d : Int) + 1) * pow2 (ilog2 d) := h3
      _ ≤ pow2 ((ilog2 n : Int) - (ilog2 d : Int) + 1) * d :=
          mul_le_mul_of_nonneg_left hd1 hp.le
  have hlo : pow2 ((ilog2 n : Int) - (ilog2 d : Int) - 1) * d ≤ n := by
    have e : (ilog2 n : Int) = ((ilog2 n : Int) - (ilog2 d : Int) - 1) + ((ilog2 d : Int) + 1) := by
      ring
    have h3 : pow2 (ilog2 n : Int) =
        pow2 ((ilog2 n : Int) - (ilog2 d : Int) - 1) * pow2 ((ilog2 d : Int) + 1) := by
      rw [← pow2_add, ← e]
    have hp := pow2_pos ((ilog2 n : Int) - (ilog2 d : Int) - 1)
    calc pow2 ((ilog2 n : Int) - (ilog2 d : Int) - 1) * d
        ≤ pow2 ((ilog2 n : Int) - (ilog2 d : Int) - 1) * pow2 ((ilog2 d : Int) + 1) :=
          mul_le_mul_of_nonneg_left hd2.le hp.le
      _ = pow2 (ilog2 n : Int) := h3.symm
      _ ≤ n := hn1
  unfold binExp
  generalize (ilog2 n : Int) - (ilog2 d : Int) = e0 at hup hlo ⊢
  simp only
  by_cases h0 : 0 ≤ e0
  · simp only [h0, if_true]
    by_cases hge : d * 2 ^ e0.toNat ≤ n
    · simp only [hge, decide_True, if_true]
      refine ⟨?_, hup⟩
      have : ((d * 2 ^ e0.toNat : Nat) : ℚ) ≤ n := by exact_mod_cast hge
      rw [Nat.cast_mul, pow2_toNat h0] at this
      linarith
    · simp only [hge, decide_False, Bool.false_eq_true, if_false]
      refine ⟨hlo, ?_⟩
      have : (n : ℚ) < ((d * 2 ^ e0.toNat : Nat) : ℚ) := by exact_mod_cast Nat.lt_of_not_le hge
      rw [Nat.cast_mul, pow2_toNat h0] at this
      have e : e0 - 1 + 1 = e0 := by ring
      rw [e]
      linarith
  · simp only [h0, if_false]
    have hinv := pow2_neg_toNat (e := e0) (by omega)
    have hp := pow2_pos e0
    by_cases hge : d ≤ n * 2 ^ (-e0).toNat
    · simp only [hge, decide_True, if_true]
      refine ⟨?_, hup⟩
      have h5 : (d : ℚ) ≤ ((n * 2 ^ (-e0).toNat : Nat) : ℚ) := by exact_mod_cast hge
      rw [Nat.cast_mul] at h5
      calc pow2 e0 * d ≤ pow2 e0 * (n * ((2 ^ (-e0).toNat : Nat) : ℚ)) :=
            mul_le_mul_of_nonneg_left h5 hp.le
        _ = n * (((2 ^ (-e0).toNat : Nat) : ℚ) * pow2 e0) := by ring
        _ = n := by rw [hinv, mul_one]
    · simp only [hge, decide_False, Bool.false_eq_true, if_false]
      refine ⟨hlo, ?_⟩
      have h5 : ((n * 2 ^ (-e0).toNat : Nat) : ℚ) < d := by exact_mod_cast Nat.lt_of_not_le hge
      rw [Nat.cast_mul] at h5
      have e : e0 - 1 + 1 = e0 := by ring
      rw [e]
      calc (n : ℚ) = n * (((2 ^ (-e0).toNat : Nat) : ℚ) * pow2 e0) := by rw [hinv, mul_one]
        _ = pow2 e0 * (n * ((2 ^ (-e0).toNat : Nat) : ℚ)) := by ring
        _ < pow2 e0 * d := mul_lt_mul_of_pos_left h5 hp


theorem pow2_add_nat (q : Int) (j : Nat) : pow2 (q + j) = pow2 q * 2 ^ j := by
  rw [pow2_add, pow2_natCast]
  push_cast
  rfl

theorem roundHalfEven_le (a b K : Nat) (hb : 0 < b) (h : 2 * a < (2 * K + 1) * b) :
    roundHalfEven a b ≤ K := by
  have hdm := Nat.div_add_mod a b
  have hr := Nat.mod_lt a hb
  have hk : a / b ≤ K := by
    have : a / b < K + 1 := by
      rw [Nat.div_lt_iff_lt_mul hb]
      have e1 : (2 * K + 1) * b = 2 * (K * b) + b := by ring
      have e2 : (K + 1) * b = K * b + b := by ring
      omega
    omega
  unfold roundHalfEven
  simp only
  rcases Nat.lt_or_ge (a / b) K with hlt | hge
  · split_ifs <;> omega
  · have hkk : a / b = K := by omega
    have e1 : (2 * K + 1) * b = 2 * (b * K) + b := by ring
    rw [hkk] at hdm
    have : 2 * (a % b) < b := by omega
    simp [this, hkk]

theorem le_roundHalfEven (a b K : Nat) (hb : 0 < b) (h : K * b ≤ a) :
    K ≤ roundHalfEven a b := by
  have hk : K ≤ a / b := (Nat.le_div_iff_mul_le hb).2 h
  unfold roundHalfEven
  simp only
  split_ifs <;> omega

theorem roundScaled_le (n d : Nat) (q : Int) (K : Nat) (hd : 0 < d)
    (h : (n : ℚ) * 2 < (2 * K + 1) * pow2 q * d) : roundScaled n d q ≤ K := by
  unfold roundScaled
  by_cases hq : 0 ≤ q
  · simp only [hq, if_true]
    apply roundHalfEven_le _ _ _ (by positivity)
    rw [← pow2_toNat hq] at h
    have : ((2 * n : Nat) : ℚ) < (((2 * K + 1) * (d * 2 ^ q.toNat) : Nat) : ℚ) := by
      push_cast
      push_cast at h
      linarith
    exact_mod_cast this
  · simp only [hq, if_false]
    apply roundHalfEven_le _ _ _ hd
    have hinv := pow2_neg_toNat (e := q) (by omega)
    have hP : (0 : ℚ) < ((2 ^ (-q).toNat : Nat) : ℚ) := by positivity
    have : ((2 * (n * 2 ^ (-q).toNat) : Nat) : ℚ) < (((2 * K + 1) * d : Nat) : ℚ) := by
      rw [Nat.cast_mul, Nat.cast_mul]
      calc ((2 : Nat) : ℚ) * ((n : ℚ) * ((2 ^ (-q).toNat : Nat) : ℚ))
          = ((n : ℚ) * 2) * ((2 ^ (-q).toNat : Nat) : ℚ) := by push_cast; ring
        _ < ((2 * K + 1) * pow2 q * d) * ((2 ^ (-q).toNat : Nat) : ℚ) :=
            mul_lt_mul_of_pos_right h hP
        _ = (2 * K + 1) * d * (((2 ^ (-q).toNat : Nat) : ℚ) * pow2 q) := by ring
        _ = (((2 * K + 1) * d : Nat) : ℚ) := by rw [hinv]; push_cast; ring
    exact_mod_cast this

theorem le_roundScaled (n d : Nat) (q : Int) (K : Nat) (hd : 0 < d)
    (h : (K : ℚ) * pow2 q * d ≤ n) : K ≤ roundScaled n d q := by
  unfold roundScaled
  by_cases hq : 0 ≤ q
  · simp only [hq, if_true]
    apply le_roundHalfEven _ _ _ (by positivity)
    rw [← pow2_toNat hq] at h
    have : ((K * (d * 2 ^ q.toNat) : Nat) : ℚ) ≤ (n : ℚ) := by
      push_cast
      push_cast at h
      linarith
    exact_mod_cast this
  · simp only [hq, if_false]
    apply le_roundHalfEven _ _ _ hd
    have hinv := pow2_neg_toNat (e := q) (by omega)
    have hP : (0 : ℚ) < ((2 ^ (-q).toNat : Nat) : ℚ) := by positivity
    have : ((K * d : Nat) : ℚ) ≤ ((n * 2 ^ (-q).toNat : Nat) : ℚ) := by
      rw [Nat.cast_mul, Nat.cast_mul]
      calc (K : ℚ) * d = (K : ℚ) * d * (((2 ^ (-q).toNat : Nat) : ℚ) * pow2 q) := by
            rw [hinv, mul_one]
        _ = ((K : ℚ) * pow2 q * d) * ((2 ^ (-q).toNat : Nat) : ℚ) := by ring
        _ ≤ (n : ℚ) * ((2 ^ (-q).toNat : Nat) : ℚ) := mul_le_mul_of_nonneg_right h hP.le
    exact_mod_cast this


theorem roundFrac_pos (neg : Bool) (n d : Nat) (hn : 0 < n) :
    roundFrac neg n d =
      if roundScaled n d (max (binExp n d) (-1022) - 52) = 2 ^ 53 then
        (if 971 < max (binExp n d) (-1022) - 52 + 1 then JsNumber.inf neg
         else JsNumber.fin neg (2 ^ 52) (max (binExp n d) (-1022) - 52 + 1))
      else
        (if 971 < max (binExp n d) (-1022) - 52 then JsNumber.inf neg
         else JsNumber.fin neg (roundScaled n d (max (binExp n d) (-1022) - 52))
          (max (binExp n d) (-1022) - 52)) := by
  unfold roundFrac
  simp only [Nat.pos_iff_ne_zero.1 hn, if_false]
  split_ifs <;> simp_all

theorem roundFrac_spec (neg : Bool) (n d : Nat) (hn : 0 < n) (hd : 0 < d)
    (KU : Nat) (qU : Int) (hKU : KU < 2 ^ 53) (hqU1 : -1074 ≤ qU) (hqU2 : qU ≤ 971)
    (hrepU : qU = -1074 ∨ 2 ^ 52 ≤ KU)
    (hU : (n : ℚ) * 2 < (2 * KU + 1) * pow2 qU * d) :
    ∃ m q, roundFrac neg n d = JsNumber.fin neg m q ∧ IsDouble m q ∧
      (m : ℚ) * pow2 q ≤ KU * pow2 qU ∧
      ∀ (KL : Nat) (qL : Int), (qL = -1074 ∨ 2 ^ 52 ≤ KL) → KL < 2 ^ 53 → -1074 ≤ qL →
        (KL : ℚ) * pow2 qL * d ≤ n → (KL : ℚ) * pow2 qL ≤ m * pow2 q := by
  obtain ⟨he1, he2⟩ := binExp_spec n d hn hd
  rw [roundFrac_pos neg n d hn]
  generalize binExp n d = e at he1 he2 ⊢
  obtain ⟨q, hq⟩ : ∃ q : Int, q = max e (-1022) - 52 := ⟨_, rfl⟩
  rw [← hq]
  have hk_le := fun K => roundScaled_le n d q K hd
  have hk_ge := fun K => le_roundScaled n d q K hd
  generalize roundScaled n d q = k at hk_le hk_ge ⊢
  have hdq : (0 : ℚ) < d := by exact_mod_cast hd
  have hqe : e + 1 ≤ q + 53 := by omega
  have hq0 : -1074 ≤ q := by omega
  -- n < 2^53 * 2^q * d
  have hn_lt : (n : ℚ) < 2 ^ 53 * pow2 q * d := by
    have := pow2_mono hqe
    have e53 := pow2_add_nat q 53
    push_cast at e53
    calc (n : ℚ) < pow2 (e + 1) * d := he2
      _ ≤ pow2 (q + 53) * d := mul_le_mul_of_nonneg_right this hdq.le
      _ = 2 ^ 53 * pow2 q * d := by rw [e53]; ring
  have F1 : k ≤ 2 ^ 53 := by
    apply hk_le
    have hp := pow2_pos q
    have : (0 : ℚ) < pow2 q * d := mul_pos hp hdq
    push_cast
    nlinarith
  have F2 : -1022 ≤ e → 2 ^ 52 ≤ k := by
    intro h
    apply hk_ge
    have hqq : q + 52 = e := by omega
    have e52 := pow2_add_nat q 52
    push_cast at e52
    rw [hqq] at e52
    push_cast
    calc (2 : ℚ) ^ 52 * pow2 q * d = pow2 e * d := by rw [e52]; ring
      _ ≤ n := he1
  have F3 : e < -1022 → k ≤ 2 ^ 52 := by
    intro h
    apply hk_le
    have hqq : q = -1074 := by omega
    have hm : pow2 (e + 1) ≤ pow2 (q + 52) := pow2_mono (by omega)
    have e52 := pow2_add_nat q 52
    push_cast at e52
    have hp := pow2_pos q
    have hpd : (0 : ℚ) < pow2 q * d := mul_pos hp hdq
    have : (n : ℚ) < 2 ^ 52 * pow2 q * d := by
      calc (n : ℚ) < pow2 (e + 1) * d := he2
        _ ≤ pow2 (q + 52) * d := mul_le_mul_of_nonneg_right hm hdq.le
        _ = 2 ^ 52 * pow2 q * d := by rw [e52]; ring
    push_cast
    nlinarith
  -- the upper bound
  have hpU := pow2_pos qU
  have hpq := pow2_pos q
  have hqU : q ≤ qU := by
    by_contra hc
    have hlt : qU < q := by omega
    have hee : -1022 ≤ e := by omega
    have hqq : q + 52 = e := by omega
    have hm : pow2 (qU + 53) ≤ pow2 e := pow2_mono (by omega)
    have e53 := pow2_add_nat qU 53
    push_cast at e53
    have h1 : 2 ^ 53 * pow2 qU * d ≤ (n : ℚ) := by
      calc 2 ^ 53 * pow2 qU * d = pow2 (qU + 53) * d := by rw [e53]; ring
        _ ≤ pow2 e * d := mul_le_mul_of_nonneg_right hm hdq.le
        _ ≤ n := he1
    have hKq : (KU : ℚ) + 1 ≤ 2 ^ 53 := by exact_mod_cast hKU
    have hpd : (0 : ℚ) < pow2 qU * d := mul_pos hpU hdq
    nlinarith
  have hval_le : (k : ℚ) * pow2 q ≤ KU * pow2 qU := by
    rcases eq_or_lt_of_le hqU with heq | hlt
    · have : k ≤ KU := hk_le KU (by rw [heq]; exact hU)
      rw [heq]
      exact mul_le_mul_of_nonneg_right (by exact_mod_cast this) hpU.le
    · have hK52 : 2 ^ 52 ≤ KU := by
        rcases hrepU with h | h
        · omega
        · exact h
      have hm : pow2 (q + 53) ≤ pow2 (qU + 52) := pow2_mono (by omega)
      have e53 := pow2_add_nat q 53
      have e52 := pow2_add_nat qU 52
      push_cast at e53 e52
      have hk53 : (k : ℚ) ≤ 2 ^ 53 := by exact_mod_cast F1
      have hK : (2 : ℚ) ^ 52 ≤ KU := by exact_mod_cast hK52
      calc (k : ℚ) * pow2 q ≤ 2 ^ 53 * pow2 q := mul_le_mul_of_nonneg_right hk53 hpq.le
        _ = pow2 (q + 53) := by rw [e53]; ring
        _ ≤ pow2 (qU + 52) := hm
        _ = 2 ^ 52 * pow2 qU := by rw [e52]; ring
        _ ≤ KU * pow2 qU := mul_le_mul_of_nonneg_right hK hpU.le
  have hk_ne : k = 2 ^ 53 → q < qU := by
    intro hk
    rcases eq_or_lt_of_le hqU with heq | hlt
    · have : k ≤ KU := hk_le KU (by rw [heq]; exact hU)
      omega
    · exact hlt
  -- the lower bound
  have hval_ge : ∀ (KL : Nat) (qL : Int), (qL = -1074 ∨ 2 ^ 52 ≤ KL) → KL < 2 ^ 53 →
      -1074 ≤ qL → (KL : ℚ) * pow2 qL * d ≤ n → (KL : ℚ) * pow2 qL ≤ k * pow2 q := by
    intro KL qL hrep hKL hqL hL
    have hpL := pow2_pos qL
    rcases lt_trichotomy q qL with hlt | heq | hgt
    · exfalso
      have hK52 : 2 ^ 52 ≤ KL := by
        rcases hrep with h | h
        · omega
        · exact h
      have hK : (2 : ℚ) ^ 52 ≤ KL := by exact_mod_cast hK52
      have hm : pow2 (q + 53) ≤ pow2 (qL + 52) := pow2_mono (by omega)
      have e53 := pow2_add_nat q 53
      have e52 := pow2_add_nat qL 52
      push_cast at e53 e52
      have hpd : (0 : ℚ) < pow2 qL * d := mul_pos hpL hdq
      have : (n : ℚ) < KL * pow2 qL * d := by
        calc (n : ℚ) < 2 ^ 53 * pow2 q * d := hn_lt
          _ = pow2 (q + 53) * d := by rw [e53]; ring
          _ ≤ pow2 (qL + 52) * d := mul_le_mul_of_nonneg_right hm hdq.le
          _ = 2 ^ 52 * (pow2 qL * d) := by rw [e52]; ring
          _ ≤ KL * (pow2 qL * d) := mul_le_mul_of_nonneg_right hK hpd.le
          _ = KL * pow2 qL * d := by ring
      linarith
    · have : KL ≤ k := hk_ge KL (by rw [heq]; exact hL)
      rw [heq]
      exact mul_le_mul_of_nonneg_right (by exact_mod_cast this) hpL.le
    · have hee : -1022 ≤ e := by omega
      have hk52 : (2 : ℚ) ^ 52 ≤ k := by exact_mod_cast F2 hee
      have hKL : (KL : ℚ) ≤ 2 ^ 53 := by exact_mod_cast hKL.le
      have hm : pow2 (qL + 53) ≤ pow2 (q + 52) := pow2_mono (by omega)
      have e53 := pow2_add_nat qL 53
      have e52 := pow2_add_nat q 52
      push_cast at e53 e52
      calc (KL : ℚ) * pow2 qL ≤ 2 ^ 53 * pow2 qL := mul_le_mul_of_nonneg_right hKL hpL.le
        _ = pow2 (qL + 53) := by rw [e53]; ring
        _ ≤ pow2 (q + 52) := hm
        _ = 2 ^ 52 * pow2 q := by rw [e52]; ring
        _ ≤ k * pow2 q := mul_le_mul_of_nonneg_right hk52 hpq.le
  by_cases hk : k = 2 ^ 53
  · have hlt := hk_ne hk
    have hval : ((2 ^ 52 : Nat) : ℚ) * pow2 (q + 1) = (k : ℚ) * pow2 q := by
      rw [hk, pow2_add]
      have : pow2 1 = 2 := by norm_num [pow2]
      rw [this]
      push_cast
      ring
    refine ⟨2 ^ 52, q + 1, ?_, ?_, ?_, ?_⟩
    · rw [if_pos hk, if_neg (by omega)]
    · right
      exact ⟨le_refl _, by norm_num, by omega, by omega⟩
    · rw [hval]; exact hval_le
    · intro KL qL h1 h2 h3 h4
      rw [hval]
      exact hval_ge KL qL h1 h2 h3 h4
  · refine ⟨k, q, ?_, ?_, hval_le, hval_ge⟩
    · rw [if_neg hk, if_neg (by omega)]
    · by_cases hee : -1022 ≤ e
      · right
        exact ⟨F2 hee, by omega, hq0, by omega⟩
      · have := F3 (by omega)
        rcases Nat.lt_or_ge k (2 ^ 52) with h | h
        · left; exact ⟨by omega, h⟩
        · right; exact ⟨h, by omega, hq0, by omega⟩

/-! ## The generated code -/

theorem isDecimalDigit_digitChar (n : Nat) (h : n < 10) :
    isDecimalDigit (Nat.digitChar n) = true := by
  interval_cases n <;> decide

theorem toDigits_six (N : Nat) (h1 : 100000 ≤ N) (h2 : N ≤ 999999) :
    Nat.toDigits 10 N =
      [Nat.digitChar (N / 100000 % 10), Nat.digitChar (N / 10000 % 10),
       Nat.digitChar (N / 1000 % 10), Nat.digitChar (N / 100 % 10),
       Nat.digitChar (N / 10 % 10), Nat.digitChar (N % 10)] := by
  obtain ⟨j, rfl⟩ : ∃ j, N = j + 100000 := ⟨N - 100000, by omega⟩
  have a1 : (j + 100000) / 10 ≠ 0 := by omega
  have a2 : (j + 100000) / 10 / 10 ≠ 0 := by omega
  have a3 : (j + 100000) / 10 / 10 / 10 ≠ 0 := by omega
  have a4 : (j + 100000) / 10 / 10 / 10 / 10 ≠ 0 := by omega
  have a5 : (j + 100000) / 10 / 10 / 10 / 10 / 10 ≠ 0 := by omega
  have a6 : (j + 100000) / 10 / 10 / 10 / 10 / 10 / 10 = 0 := by omega
  have b2 : (j + 100000) / 10 / 10 = (j + 100000) / 100 := by omega
  have b3 : (j + 100000) / 10 / 10 / 10 = (j + 100000) / 1000 := by omega
  have b4 : (j + 100000) / 10 / 10 / 10 / 10 = (j + 100000) / 10000 := by omega
  have b5 : (j + 100000) / 10 / 10 / 10 / 10 / 10 = (j + 100000) / 100000 := by omega
  have hf : j + 100000 + 1 = (j + 99995) + 1 + 1 + 1 + 1 + 1 + 1 := by omega
  rw [Nat.toDigits, hf]
  generalize j + 99995 = f
  simp only [Nat.toDigitsCore, a1, a2, a3, a4, a5, a6, if_true, if_false]
  rw [b5, b4, b3, b2]

theorem roundHalfEven_one (a : Nat) : roundHalfEven a 1 = a := by
  simp [roundHalfEven, Nat.mod_one]

theorem binExp_one (N : Nat) (hN : 0 < N) : binExp N 1 = (ilog2 N : Int) := by
  have h1 : ilog2 1 = 0 := by decide
  have := (ilog2_spec N hN).1
  simp [binExp, h1, this]

theorem ofNat_eq (N : Nat) (hN : 0 < N) (h52 : N < 2 ^ 52) :
    JsNumber.ofNat N =
      JsNumber.fin false (N * 2 ^ (52 - ilog2 N)) ((ilog2 N : Int) - 52) ∧ ilog2 N < 52 := by
  obtain ⟨s1, s2⟩ := ilog2_spec N hN
  have ha : ilog2 N < 52 := by
    by_contra hc
    have : 2 ^ 52 ≤ 2 ^ ilog2 N := Nat.pow_le_pow_right (by norm_num) (by omega)
    omega
  refine ⟨?_, ha⟩
  have hq : max (ilog2 N : Int) (-1022) - 52 = (ilog2 N : Int) - 52 := by omega
  have hneg : ¬ (0 : Int) ≤ (ilog2 N : Int) - 52 := by omega
  have hto : (-((ilog2 N : Int) - 52)).toNat = 52 - ilog2 N := by omega
  have hk : roundScaled N 1 ((ilog2 N : Int) - 52) = N * 2 ^ (52 - ilog2 N) := by
    simp only [roundScaled, hneg, if_false, roundHalfEven_one, hto]
  have hlt : N * 2 ^ (52 - ilog2 N) < 2 ^ 53 := by
    have e : 2 ^ 53 = 2 ^ (ilog2 N + 1) * 2 ^ (52 - ilog2 N) := by
      rw [← pow_add]; congr 1; omega
    rw [e]
    exact Nat.mul_lt_mul_of_pos_right s2 (by positivity)
  rw [JsNumber.ofNat, roundFrac_pos false N 1 hN, binExp_one N hN, hq, hk]
  rw [if_neg (by omega), if_neg (by omega)]

theorem ofNat_toJsString (N : Nat) (hN : 0 < N) (h52 : N < 2 ^ 52) :
    (JsNumber.ofNat N).toJsString = Nat.repr N := by
  obtain ⟨h, ha⟩ := ofNat_eq N hN h52
  have hpos : 0 < 2 ^ (52 - ilog2 N) := by positivity
  have hm : N * 2 ^ (52 - ilog2 N) ≠ 0 := by positivity
  have hto : (-((ilog2 N : Int) - 52)).toNat = 52 - ilog2 N := by omega
  have hlt : (ilog2 N : Int) - 52 < 0 := by omega
  rw [h]
  simp only [JsNumber.toJsString, hm, if_false, positiveToString, hto, hlt, true_and,
    Nat.mul_mod_left, if_true, Nat.mul_div_cancel _ hpos, decimalChars]
  rfl


theorem ofNat_900000 : JsNumber.ofNat 900000 = JsNumber.fin false 7730941132800000 (-33) := by
  decide

theorem ofNat_100000 : JsNumber.ofNat 100000 = JsNumber.fin false 6871947673600000 (-36) := by
  decide

theorem pow2_neg_33 : pow2 (-33) = 1 / 2 ^ 33 := by
  norm_num [pow2, zpow_neg]

theorem pow2_neg_36 : pow2 (-36) = 1 / 2 ^ 36 := by
  norm_num [pow2, zpow_neg]

theorem pow2_neg_53 : pow2 (-53) = 1 / 2 ^ 53 := by
  norm_num [pow2, zpow_neg]

theorem isDouble_zero : IsDouble 0 (-1074) := Or.inl ⟨rfl, by norm_num⟩

theorem mul_900000_bound (m : Nat) (e : Int) (hm : m < 2 ^ 53) (he : e ≤ -53) :
    ∃ m1 q1, (JsNumber.fin false m e).mul (JsNumber.ofNat 900000) = JsNumber.fin false m1 q1 ∧
      IsDouble m1 q1 ∧ (m1 : ℚ) * pow2 q1 ≤ 7730941132799999 * pow2 (-33) := by
  have hne : ¬ (0 : Int) ≤ e + -33 := by omega
  have hmul : (JsNumber.fin false m e).mul (JsNumber.ofNat 900000) =
      roundFrac false (m * 7730941132800000) (2 ^ (-(e + -33)).toNat) := by
    rw [ofNat_900000]
    simp only [JsNumber.mul, roundDyadic, hne, if_false, Bool.xor_false]
  rw [hmul]
  rcases Nat.eq_zero_or_pos m with h0 | hpos
  · subst h0
    refine ⟨0, -1074, ?_, isDouble_zero, ?_⟩
    · simp [roundFrac]
    · have := pow2_pos (-33)
      simp only [Nat.cast_zero, zero_mul]
      positivity
  · have hD := pow2_neg_toNat (e := e + -33) (by omega)
    have hDpos : (0 : ℚ) < ((2 ^ (-(e + -33)).toNat : Nat) : ℚ) := by positivity
    generalize ((2 ^ (-(e + -33)).toNat : Nat)) = D at hD hDpos ⊢
    have hDn : 0 < D := by exact_mod_cast hDpos
    -- m * 2^e ≤ 1 - 2^-53
    have hpe := pow2_pos e
    have hrho : (m : ℚ) * pow2 e ≤ (2 ^ 53 - 1) * pow2 (-53) := by
      have h1 : (m : ℚ) ≤ 2 ^ 53 - 1 := by
        have : m + 1 ≤ 2 ^ 53 := hm
        have : ((m + 1 : Nat) : ℚ) ≤ ((2 ^ 53 : Nat) : ℚ) := by exact_mod_cast this
        push_cast at this
        linarith
      have h2 : pow2 e ≤ pow2 (-53) := pow2_mono he
      calc (m : ℚ) * pow2 e ≤ (2 ^ 53 - 1) * pow2 e := mul_le_mul_of_nonneg_right h1 hpe.le
        _ ≤ (2 ^ 53 - 1) * pow2 (-53) := mul_le_mul_of_nonneg_left h2 (by norm_num)
    rw [pow2_neg_53] at hrho
    have hsplit : pow2 (e + -33) = pow2 e * pow2 (-33) := pow2_add e (-33)
    rw [hsplit, pow2_neg_33] at hD
    have hU : ((m * 7730941132800000 : Nat) : ℚ) * 2 <
        (2 * (7730941132799999 : Nat) + 1) * pow2 (-33) * D := by
      rw [pow2_neg_33]
      push_cast
      -- D = 2^33 / 2^e
      have hDe : (D : ℚ) * pow2 e = 2 ^ 33 := by
        field_simp at hD
        linarith
      have key : (m : ℚ) * pow2 e * (7730941132800000 * 2) <
          (2 * 7730941132799999 + 1) * (1 / 2 ^ 33) * 2 ^ 33 := by
        norm_num
        norm_num at hrho
        linarith
      have : (m : ℚ) * 7730941132800000 * 2 * pow2 e <
          (2 * 7730941132799999 + 1) * (1 / 2 ^ 33) * D * pow2 e := by
        calc (m : ℚ) * 7730941132800000 * 2 * pow2 e
            = (m : ℚ) * pow2 e * (7730941132800000 * 2) := by ring
          _ < (2 * 7730941132799999 + 1) * (1 / 2 ^ 33) * 2 ^ 33 := key
          _ = (2 * 7730941132799999 + 1) * (1 / 2 ^ 33) * D * pow2 e := by
              rw [← hDe]; ring
      exact lt_of_mul_lt_mul_right this hpe.le
    obtain ⟨m1, q1, h1, h2, h3, -⟩ :=
      roundFrac_spec false (m * 7730941132800000) D (by positivity) hDn
        7730941132799999 (-33) (by norm_num) (by norm_num) (by norm_num)
        (Or.inr (by norm_num)) hU
    exact ⟨m1, q1, h1, h2, by exact_mod_cast h3⟩


theorem scaledInt_false (m : Nat) (e e0 : Int) :
    scaledInt false m e e0 = ((m * 2 ^ (e - e0).toNat : Nat) : Int) := by
  simp [scaledInt]

theorem add_100000_bound (m1 : Nat) (q1 : Int)
    (hle : (m1 : ℚ) * pow2 q1 ≤ 7730941132799999 * pow2 (-33)) :
    ∃ m2 q2, (JsNumber.ofNat 100000).add (JsNumber.fin false m1 q1) = JsNumber.fin false m2 q2 ∧
      IsDouble m2 q2 ∧ (100000 : ℚ) ≤ (m2 : ℚ) * pow2 q2 ∧
      (m2 : ℚ) * pow2 q2 ≤ 8589934591999999 * pow2 (-33) := by
  obtain ⟨e, he⟩ : ∃ e : Int, e = min (-36) q1 := ⟨_, rfl⟩
  have he1 : e ≤ -36 := by omega
  have he2 : e ≤ q1 := by omega
  obtain ⟨S, hS⟩ : ∃ S : Nat,
      S = 6871947673600000 * 2 ^ (-36 - e).toNat + m1 * 2 ^ (q1 - e).toNat := ⟨_, rfl⟩
  have hSpos : 0 < S := by
    rw [hS]
    have : 0 < 6871947673600000 * 2 ^ (-36 - e).toNat := by positivity
    omega
  have hne : ¬ (0 : Int) ≤ e := by omega
  have hadd : (JsNumber.ofNat 100000).add (JsNumber.fin false m1 q1) =
      roundFrac false S (2 ^ (-e).toNat) := by
    rw [ofNat_100000]
    simp only [JsNumber.add, ← he, scaledInt_false]
    rw [← Nat.cast_add, ← hS]
    have h0 : ¬ ((S : Int) = 0) := by omega
    have h1 : ¬ ((S : Int) < 0) := by omega
    simp only [h0, if_false, h1, decide_False, Int.natAbs_ofNat, roundDyadic, hne]
  rw [hadd]
  have hD := pow2_neg_toNat (e := e) (by omega)
  have hDpos : (0 : ℚ) < ((2 ^ (-e).toNat : Nat) : ℚ) := by positivity
  generalize ((2 ^ (-e).toNat : Nat)) = D at hD hDpos ⊢
  have hDn : 0 < D := by exact_mod_cast hDpos
  have hpe := pow2_pos e
  -- the exact sum
  have hval : (S : ℚ) * pow2 e = 6871947673600000 * pow2 (-36) + m1 * pow2 q1 := by
    have ha : ((2 ^ (-36 - e).toNat : Nat) : ℚ) * pow2 e = pow2 (-36) := by
      rw [pow2_toNat (by omega), ← pow2_add]
      congr 1
      ring
    have hb : ((2 ^ (q1 - e).toNat : Nat) : ℚ) * pow2 e = pow2 q1 := by
      rw [pow2_toNat (by omega), ← pow2_add]
      congr 1
      ring
    rw [hS]
    push_cast
    push_cast at ha hb
    calc (6871947673600000 * 2 ^ (-36 - e).toNat + (m1 : ℚ) * 2 ^ (q1 - e).toNat) * pow2 e
        = 6871947673600000 * (2 ^ (-36 - e).toNat * pow2 e)
            + m1 * (2 ^ (q1 - e).toNat * pow2 e) := by ring
      _ = 6871947673600000 * pow2 (-36) + m1 * pow2 q1 := by rw [ha, hb]
  have hm1 : (0 : ℚ) ≤ (m1 : ℚ) * pow2 q1 := by
    have := pow2_pos q1
    positivity
  have hSD : (S : ℚ) = (S : ℚ) * pow2 e * D := by
    calc (S : ℚ) = S * ((D : ℚ) * pow2 e) := by rw [hD, mul_one]
      _ = (S : ℚ) * pow2 e * D := by ring
  have hU : (S : ℚ) * 2 < (2 * (8589934591999999 : Nat) + 1) * pow2 (-33) * D := by
    have h1 : (S : ℚ) * pow2 e * 2 < (2 * (8589934591999999 : Nat) + 1) * pow2 (-33) := by
      rw [hval]
      rw [pow2_neg_33] at hle ⊢
      rw [pow2_neg_36]
      push_cast
      norm_num at hle ⊢
      linarith
    calc (S : ℚ) * 2 = (S : ℚ) * pow2 e * D * 2 := by rw [← hSD]
      _ = (S : ℚ) * pow2 e * 2 * D := by ring
      _ < (2 * (8589934591999999 : Nat) + 1) * pow2 (-33) * D :=
          mul_lt_mul_of_pos_right h1 hDpos
  obtain ⟨m2, q2, h1, h2, h3, h4⟩ :=
    roundFrac_spec false S D hSpos hDn 8589934591999999 (-33) (by norm_num) (by norm_num)
      (by norm_num) (Or.inr (by norm_num)) hU
  refine ⟨m2, q2, h1, h2, ?_, by exact_mod_cast h3⟩
  have hL : ((6871947673600000 : Nat) : ℚ) * pow2 (-36) * D ≤ S := by
    have h5 : ((6871947673600000 : Nat) : ℚ) * pow2 (-36) ≤ (S : ℚ) * pow2 e := by
      rw [hval]
      push_cast
      linarith
    calc ((6871947673600000 : Nat) : ℚ) * pow2 (-36) * D ≤ (S : ℚ) * pow2 e * D :=
          mul_le_mul_of_nonneg_right h5 hDpos.le
      _ = S := hSD.symm
  have := h4 6871947673600000 (-36) (Or.inr (by norm_num)) (by norm_num) (by norm_num) hL
  rw [pow2_neg_36] at this
  push_cast at this
  norm_num at this
  linarith


theorem floor_bound (m2 : Nat) (q2 : Int) (hd : IsDouble m2 q2)
    (h1 : (100000 : ℚ) ≤ (m2 : ℚ) * pow2 q2)
    (h2 : (m2 : ℚ) * pow2 q2 ≤ 8589934591999999 * pow2 (-33)) :
    ∃ N, 100000 ≤ N ∧ N ≤ 999999 ∧ (JsNumber.fin false m2 q2).floor = JsNumber.ofNat N := by
  rw [pow2_neg_33] at h2
  have hq : q2 < 0 := by
    by_contra hc
    rcases hd with ⟨h, -⟩ | ⟨h52, -, -, -⟩
    · omega
    · have hp : pow2 0 ≤ pow2 q2 := pow2_mono (by omega)
      have hp0 : pow2 0 = 1 := by norm_num [pow2]
      rw [hp0] at hp
      have hm : ((2 ^ 52 : Nat) : ℚ) ≤ m2 := by exact_mod_cast h52
      push_cast at hm
      have : (2 : ℚ) ^ 52 ≤ (m2 : ℚ) * pow2 q2 := by nlinarith
      norm_num at this h2
      linarith
  have hP := pow2_neg_toNat (e := q2) hq.le
  have hPpos : (0 : ℚ) < ((2 ^ (-q2).toNat : Nat) : ℚ) := by positivity
  have hfl : (JsNumber.fin false m2 q2).floor = JsNumber.ofNat (m2 / 2 ^ (-q2).toNat) := by
    have : ¬ (0 : Int) ≤ q2 := by omega
    simp [JsNumber.floor, this, JsNumber.ofNat]
  rw [hfl]
  generalize ((2 ^ (-q2).toNat : Nat)) = P at hP hPpos ⊢
  have hPn : 0 < P := by exact_mod_cast hPpos
  have hm : (m2 : ℚ) = (m2 : ℚ) * pow2 q2 * P := by
    calc (m2 : ℚ) = m2 * ((P : ℚ) * pow2 q2) := by rw [hP, mul_one]
      _ = (m2 : ℚ) * pow2 q2 * P := by ring
  refine ⟨m2 / P, ?_, ?_, rfl⟩
  · rw [Nat.le_div_iff_mul_le hPn]
    have : ((100000 * P : Nat) : ℚ) ≤ m2 := by
      rw [hm]
      push_cast
      exact mul_le_mul_of_nonneg_right h1 hPpos.le
    exact_mod_cast this
  · have : m2 / P < 1000000 := by
      rw [Nat.div_lt_iff_lt_mul hPn]
      have : (m2 : ℚ) < ((1000000 * P : Nat) : ℚ) := by
        rw [hm]
        push_cast
        apply mul_lt_mul_of_pos_right _ hPpos
        norm_num at h2 ⊢
        linarith
      exact_mod_cast this
    omega

theorem generateCode_spec (r : JsNumber) (hr : isRandomDraw r = true) :
    ∃ N, 100000 ≤ N ∧ N ≤ 999999 ∧
      ((JsNumber.ofNat 100000).add (r.mul (JsNumber.ofNat 900000))).floor = JsNumber.ofNat N ∧
      generateCode r = Nat.repr N := by
  cases r with
  | nan => simp [isRandomDraw] at hr
  | inf neg => simp [isRandomDraw] at hr
  | fin neg m e =>
    simp only [isRandomDraw, Bool.and_eq_true, Bool.not_eq_true', Bool.or_eq_true, beq_iff_eq,
      decide_eq_true_eq] at hr
    obtain ⟨hneg, hme⟩ := hr
    subst hneg
    have hm : m < 2 ^ 53 := by
      rcases hme with ⟨-, h⟩ | ⟨⟨⟨-, h⟩, -⟩, -⟩
      · omega
      · exact h
    have he : e ≤ -53 := by
      rcases hme with ⟨h, -⟩ | ⟨-, h⟩
      · omega
      · exact h
    obtain ⟨m1, q1, hmul, -, hb1⟩ := mul_900000_bound m e hm he
    obtain ⟨m2, q2, hadd, hd2, hlo, hhi⟩ := add_100000_bound m1 q1 hb1
    obtain ⟨N, hN1, hN2, hfl⟩ := floor_bound m2 q2 hd2 hlo hhi
    refine ⟨N, hN1, hN2, ?_, ?_⟩
    · rw [hmul, hadd, hfl]
    · rw [generateCode, hmul, hadd, hfl]
      exact ofNat_toJsString N (by omega) (by norm_num; omega)

theorem repr_six_digits (N : Nat) (h1 : 100000 ≤ N) (h2 : N ≤ 999999) :
    jsLength (Nat.repr N) = 6 ∧ (Nat.repr N).data.all isDecimalDigit = true := by
  have hr : Nat.repr N = ⟨Nat.toDigits 10 N⟩ := rfl
  have hall : (Nat.toDigits 10 N).all isDecimalDigit = true := by
    rw [toDigits_six N h1 h2]
    simp only [List.all_cons, List.all_nil, Bool.and_true, Bool.and_eq_true]
    refine ⟨?_, ?_, ?_, ?_, ?_, ?_⟩ <;>
      exact isDecimalDigit_digitChar _ (Nat.mod_lt _ (by norm_num))
  rw [hr]
  refine ⟨?_, hall⟩
  rw [jsLength_of_digits _ hall, toDigits_six N h1 h2]
  rfl

/-- C2: for every value `r` of `Math.random()` (a double with `0 ≤ r < 1`) and
every state with a non-blank phone, `sendOtp` stores as `serverCode` the
decimal rendering of `N = Math.floor(100000 + r * 900000)`, computed in double
arithmetic, with `100000 ≤ N ≤ 999999`, so the code has exactly 6 digits; the
resulting state has `sent = true`, six empty digit slots, `verified = false`,
`sending = false` and `cooldown = 30`. -/
theorem sendOtp_generates (r : JsNumber) (s : State) (hr : isRandomDraw r = true)
    (hp : jsTrim s.register.phone ≠ "") :
    ∃ N : Nat, 100000 ≤ N ∧ N ≤ 999999 ∧
      ((JsNumber.ofNat 100000).add (r.mul (JsNumber.ofNat 900000))).floor = JsNumber.ofNat N ∧
      (sendOtp r s).2.otp.serverCode = Nat.repr N ∧
      jsLength (sendOtp r s).2.otp.serverCode = 6 ∧
      (sendOtp r s).2.otp.serverCode.data.all isDecimalDigit = true ∧
      (sendOtp r s).2.otp.sent = true ∧
      (sendOtp r s).2.otp.digits = ["", "", "", "", "", ""] ∧
      (sendOtp r s).2.otp.verified = false ∧
      (sendOtp r s).2.otp.sending = false ∧
      (sendOtp r s).2.otp.cooldown = 30 := by
  obtain ⟨N, h1, h2, hfl, hcode⟩ := generateCode_spec r hr
  obtain ⟨hlen, hdig⟩ := repr_six_digits N h1 h2
  have ht := (truthy_iff _).2 hp
  refine ⟨N, h1, h2, hfl, ?_⟩
  rw [sendOtp_eq]
  simp only [ht, Bool.true_eq_false, if_false, hcode]
  exact ⟨trivial, hlen, hdig, trivial, trivial, trivial, trivial, trivial⟩

theorem sendOtp_generates_witness :
    isRandomDraw halfDraw = true ∧ jsTrim coolingState.register.phone ≠ "" ∧
    ∃ N : Nat, 100000 ≤ N ∧ N ≤ 999999 ∧
      ((JsNumber.ofNat 100000).add (halfDraw.mul (JsNumber.ofNat 900000))).floor =
        JsNumber.ofNat N ∧
      (sendOtp halfDraw coolingState).2.otp.serverCode = Nat.repr N ∧
      jsLength (sendOtp halfDraw coolingState).2.otp.serverCode = 6 ∧
      (sendOtp halfDraw coolingState).2.otp.serverCode.data.all isDecimalDigit = true ∧
      (sendOtp halfDraw coolingState).2.otp.sent = true ∧
      (sendOtp halfDraw coolingState).2.otp.digits = ["", "", "", "", "", ""] ∧
      (sendOtp halfDraw coolingState).2.otp.verified = false ∧
      (sendOtp halfDraw coolingState).2.otp.sending = false ∧
      (sendOtp halfDraw coolingState).2.otp.cooldown = 30 :=
  ⟨by decide, by decide, sendOtp_generates halfDraw coolingState (by decide) (by decide)⟩

theorem Errors.eq_nil_of_noKeys {e : Errors} (h : e.noKeys = true) : e = [] := by
  cases e with
  | nil => rfl
  | cons hd tl => simp [Errors.noKeys] at h

theorem ofNat_zero : JsNumber.ofNat 0 = JsNumber.fin false 0 (-1074) := by
  simp [JsNumber.ofNat, roundFrac]

theorem le_zero_fin (neg : Bool) (m : Nat) (e : Int) :
    (JsNumber.fin neg m e).le (JsNumber.ofNat 0) = (neg || decide (m = 0)) := by
  rw [ofNat_zero]
  simp only [JsNumber.le, scaledInt]
  have hp : 0 < 2 ^ (e - min e (-1074)).toNat := by positivity
  cases neg
  · simp only [Bool.false_eq_true, if_false, one_mul, Nat.zero_mul, Nat.cast_zero, mul_zero,
      Bool.false_or]
    by_cases hm : m = 0
    · simp [hm]
    · have : 0 < m * 2 ^ (e - min e (-1074)).toNat := Nat.mul_pos (Nat.pos_of_ne_zero hm) hp
      simp only [hm, decide_False, decide_eq_false_iff_not, not_le]
      exact_mod_cast this
  · simp only [if_true, Nat.zero_mul, Nat.cast_zero, mul_zero, Bool.true_or, decide_eq_true_eq]
    have : (0 : Int) ≤ ((m * 2 ^ (e - min e (-1074)).toNat : Nat) : Int) := Int.natCast_nonneg _
    omega

theorem step3Errors_get_months (p : Pay) :
    (step3Errors p).get "months" =
      if (truthy p.months = false ∨ (Number p.months).isNaN = true ∨
          (Number p.months).le (JsNumber.ofNat 0) = true)
      then some "Mois invalide." else none := by
  simp only [step3Errors, Errors.get_assignIf]
  cases h1 : truthy p.months <;> cases h2 : (Number p.months).isNaN <;>
    cases h3 : (Number p.months).le (JsNumber.ofNat 0) <;> simp [Errors.get]

theorem step3Errors_get_amount (p : Pay) :
    (step3Errors p).get "amount" =
      if (truthy p.amount = false ∨ (Number p.amount).isNaN = true ∨
          (Number p.amount).le (JsNumber.ofNat 0) = true)
      then some "Montant invalide." else none := by
  simp only [step3Errors, Errors.get_assignIf]
  cases h1 : truthy p.amount <;> cases h2 : (Number p.amount).isNaN <;>
    cases h3 : (Number p.amount).le (JsNumber.ofNat 0) <;> simp [Errors.get]

/-- C11, as stated, fails: the months text `1.5` parses to a positive number
that is not an integer, and `validateStep3` accepts the draft with no error on
`months`. -/
theorem validateStep3_fractional_months :
    Number fractionalMonthsState.pay.months = JsNumber.fin false 6755399441055744 (-52) ∧
    (Number fractionalMonthsState.pay.months).isInteger = false ∧
    (validateStep3 fractionalMonthsState).1 = true ∧
    (validateStep3 fractionalMonthsState).2.errors.get "months" = none := by
  decide!

/-- C11, amended: `validateStep3` puts the months error exactly when `months` is
empty, parses to `NaN` or parses to a number `<= 0`; it has no integer test.
Every draft that passes has a non-empty `months` that parses to a number
greater than 0 (when finite, a positive double). -/
theorem validateStep3_months (s : State) :
    ((validateStep3 s).2.errors.get "months" =
      if (s.pay.months = "" ∨ (Number s.pay.months).isNaN = true ∨
          (Number s.pay.months).le (JsNumber.ofNat 0) = true)
      then some "Mois invalide." else none) ∧
    ((validateStep3 s).1 = true →
      s.pay.months ≠ "" ∧ (Number s.pay.months).isNaN = false ∧
      (Number s.pay.months).le (JsNumber.ofNat 0) = false ∧
      ((Number s.pay.months).isFinite = true →
        ∃ m e, 0 < m ∧ Number s.pay.months = JsNumber.fin false m e)) := by
  have hget := step3Errors_get_months s.pay
  simp only [truthy_eq_false_iff] at hget
  refine ⟨hget, fun hv => ?_⟩
  have hnil : step3Errors s.pay = [] := Errors.eq_nil_of_noKeys hv
  rw [hnil] at hget
  simp only [Errors.get] at hget
  by_cases hc : s.pay.months = "" ∨ (Number s.pay.months).isNaN = true ∨
      (Number s.pay.months).le (JsNumber.ofNat 0) = true
  · rw [if_pos hc] at hget
    cases hget
  · simp only [not_or, Bool.not_eq_true] at hc
    obtain ⟨h1, h2, h3⟩ := hc
    refine ⟨h1, h2, h3, fun hf => ?_⟩
    cases hx : Number s.pay.months with
    | nan => rw [hx] at hf; simp [JsNumber.isFinite] at hf
    | inf neg => rw [hx] at hf; simp [JsNumber.isFinite] at hf
    | fin neg m e =>
      rw [hx, le_zero_fin] at h3
      simp only [Bool.or_eq_false_iff, decide_eq_false_iff_not] at h3
      obtain ⟨hn, hm⟩ := h3
      subst hn
      exact ⟨m, e, Nat.pos_of_ne_zero hm, rfl⟩

theorem validateStep3_months_witness :
    (validateStep3 fractionalMonthsState).1 = true ∧
    fractionalMonthsState.pay.months ≠ "" ∧
    (Number fractionalMonthsState.pay.months).isNaN = false ∧
    (Number fractionalMonthsState.pay.months).le (JsNumber.ofNat 0) = false ∧
    ((Number fractionalMonthsState.pay.months).isFinite = true →
      ∃ m e, 0 < m ∧ Number fractionalMonthsState.pay.months = JsNumber.fin false m e) :=
  ⟨by decide!, (validateStep3_months fractionalMonthsState).2 (by decide!)⟩

theorem Number_empty : Number "" = JsNumber.ofNat 0 := by
  rw [ofNat_zero]
  rfl

theorem total_eq (p : Pay) :
    total p =
      if ((Number p.amount).mul (Number p.months)).isFinite = true
      then (Number p.amount).mul (Number p.months) else JsNumber.ofNat 0 := by
  have ha : (if truthy p.amount = true then Number p.amount else JsNumber.ofNat 0)
      = Number p.amount := by
    cases h : truthy p.amount
    · rw [truthy_eq_false_iff] at h
      simp [h, Number_empty]
    · simp
  have hm : (if truthy p.months = true then Number p.months else JsNumber.ofNat 0)
      = Number p.months := by
    cases h : truthy p.months
    · rw [truthy_eq_false_iff] at h
      simp [h, Number_empty]
    · simp
  simp only [total, ha, hm]

theorem roundDyadic_zero (neg : Bool) (e : Int) :
    roundDyadic neg 0 e = JsNumber.fin neg 0 (-1074) := by
  simp [roundDyadic, roundFrac]

theorem mul_zero_left (x : JsNumber) :
    (JsNumber.fin false 0 (-1074)).mul x = JsNumber.nan ∨
    ∃ neg, (JsNumber.fin false 0 (-1074)).mul x = JsNumber.fin neg 0 (-1074) := by
  cases x with
  | nan => left; rfl
  | inf n => left; simp [JsNumber.mul]
  | fin n m e => right; exact ⟨xor false n, by simp [JsNumber.mul, roundDyadic_zero]⟩

theorem mul_zero_right (x : JsNumber) :
    x.mul (JsNumber.fin false 0 (-1074)) = JsNumber.nan ∨
    ∃ neg, x.mul (JsNumber.fin false 0 (-1074)) = JsNumber.fin neg 0 (-1074) := by
  cases x with
  | nan => left; rfl
  | inf n => left; simp [JsNumber.mul]
  | fin n m e => right; exact ⟨xor n false, by simp [JsNumber.mul, roundDyadic_zero]⟩

theorem mul_nan_right (x : JsNumber) : x.mul JsNumber.nan = JsNumber.nan := by
  cases x <;> rfl

theorem mul_nan_left (x : JsNumber) : JsNumber.nan.mul x = JsNumber.nan := by
  cases x <;> rfl

theorem isNaN_iff (x : JsNumber) : x.isNaN = true ↔ x = JsNumber.nan := by
  cases x <;> simp [JsNumber.isNaN]

theorem ofNat_eq_of_lt (N : Nat) (hN : 0 < N) (h53 : N < 2 ^ 53) :
    JsNumber.ofNat N =
      JsNumber.fin false (N * 2 ^ (52 - ilog2 N)) ((ilog2 N : Int) - 52) ∧ ilog2 N ≤ 52 ∧
      IsDouble (N * 2 ^ (52 - ilog2 N)) ((ilog2 N : Int) - 52) := by
  obtain ⟨s1, s2⟩ := ilog2_spec N hN
  have ha : ilog2 N ≤ 52 := by
    by_contra hc
    have : 2 ^ 53 ≤ 2 ^ ilog2 N := Nat.pow_le_pow_right (by norm_num) (by omega)
    omega
  have hlt : N * 2 ^ (52 - ilog2 N) < 2 ^ 53 := by
    have e : 2 ^ 53 = 2 ^ (ilog2 N + 1) * 2 ^ (52 - ilog2 N) := by
      rw [← pow_add]; congr 1; omega
    rw [e]
    exact Nat.mul_lt_mul_of_pos_right s2 (by positivity)
  have hge : 2 ^ 52 ≤ N * 2 ^ (52 - ilog2 N) := by
    have e : 2 ^ 52 = 2 ^ ilog2 N * 2 ^ (52 - ilog2 N) := by
      rw [← pow_add]; congr 1; omega
    rw [e]
    exact Nat.mul_le_mul_right _ s1
  refine ⟨?_, ha, Or.inr ⟨hge, hlt, by omega, by omega⟩⟩
  have hq : max (ilog2 N : Int) (-1022) - 52 = (ilog2 N : Int) - 52 := by omega
  have hk : roundScaled N 1 ((ilog2 N : Int) - 52) = N * 2 ^ (52 - ilog2 N) := by
    rcases Nat.lt_or_ge (ilog2 N) 52 with h | h
    · have hneg : ¬ (0 : Int) ≤ (ilog2 N : Int) - 52 := by omega
      have hto : (-((ilog2 N : Int) - 52)).toNat = 52 - ilog2 N := by omega
      simp only [roundScaled, hneg, if_false, roundHalfEven_one, hto]
    · have h52 : ilog2 N = 52 := by omega
      simp [roundScaled, h52, roundHalfEven_one]
  rw [JsNumber.ofNat, roundFrac_pos false N 1 hN, binExp_one N hN, hq, hk]
  rw [if_neg (by omega), if_neg (by omega)]

theorem isDouble_unique (m m' : Nat) (q q' : Int) (h : IsDouble m q) (h' : IsDouble m' q')
    (hv : (m : ℚ) * pow2 q = m' * pow2 q') (hq : q ≤ q') :
    m = m' ∧ q = q' := by
  have hm53 : m < 2 ^ 53 := by
    rcases h with ⟨-, h1⟩ | ⟨-, h1, -, -⟩
    · omega
    · exact h1
  rcases eq_or_lt_of_le hq with heq | hlt
  · subst heq
    have hp := pow2_pos q
    have : (m : ℚ) = m' := by
      have := mul_right_cancel₀ hp.ne' hv
      exact this
    exact ⟨by exact_mod_cast this, rfl⟩
  · exfalso
    -- q < q', so m' is normal: m' ≥ 2^52, value ≥ 2^(52+q') ≥ 2^(53+q) > m 2^q
    have hm' : 2 ^ 52 ≤ m' := by
      rcases h' with ⟨h1, -⟩ | ⟨h1, -, -, -⟩
      · rcases h with ⟨h2, -⟩ | ⟨-, -, h2, -⟩ <;> omega
      · exact h1
    have hp := pow2_pos q
    have hp' := pow2_pos q'
    have hmono : pow2 (q + 53) ≤ pow2 (q' + 52) := pow2_mono (by omega)
    have e1 := pow2_add_nat q 53
    have e2 := pow2_add_nat q' 52
    push_cast at e1 e2
    have h1 : (m : ℚ) < 2 ^ 53 := by exact_mod_cast hm53
    have h2 : (2 : ℚ) ^ 52 ≤ m' := by exact_mod_cast hm'
    have : (m : ℚ) * pow2 q < m' * pow2 q' := by
      calc (m : ℚ) * pow2 q < 2 ^ 53 * pow2 q := mul_lt_mul_of_pos_right h1 hp
        _ = pow2 (q + 53) := by rw [e1]; ring
        _ ≤ pow2 (q' + 52) := hmono
        _ = 2 ^ 52 * pow2 q' := by rw [e2]; ring
        _ ≤ m' * pow2 q' := mul_le_mul_of_nonneg_right h2 hp'.le
    linarith


theorem ofNat_value (N : Nat) (hN : 0 < N) (h53 : N < 2 ^ 53) :
    ((N * 2 ^ (52 - ilog2 N) : Nat) : ℚ) * pow2 ((ilog2 N : Int) - 52) = N := by
  have ha := (ofNat_eq_of_lt N hN h53).2.1
  have hP := pow2_neg_toNat (e := (ilog2 N : Int) - 52) (by omega)
  have hto : (-((ilog2 N : Int) - 52)).toNat = 52 - ilog2 N := by omega
  rw [hto] at hP
  rw [Nat.cast_mul, mul_assoc, hP, mul_one]

theorem ofNat_cases (N : Nat) (h53 : N < 2 ^ 53) :
    ∃ m e, JsNumber.ofNat N = JsNumber.fin false m e ∧ IsDouble m e ∧
      (m : ℚ) * pow2 e = N ∧ (0 < N → e ≤ 0 ∧ -52 ≤ e) := by
  rcases Nat.eq_zero_or_pos N with h0 | hpos
  · subst h0
    exact ⟨0, -1074, ofNat_zero, isDouble_zero, by simp, fun h => absurd h (lt_irrefl 0)⟩
  · obtain ⟨h1, h2, h3⟩ := ofNat_eq_of_lt N hpos h53
    exact ⟨_, _, h1, h3, ofNat_value N hpos h53, fun _ => ⟨by omega, by omega⟩⟩

theorem mul_ofNat (A M : Nat) (hA : A < 2 ^ 53) (hM : M < 2 ^ 53) (h : A * M < 2 ^ 53) :
    (JsNumber.ofNat A).mul (JsNumber.ofNat M) = JsNumber.ofNat (A * M) := by
  obtain ⟨mA, eA, hAeq, hAd, hAv, hAe⟩ := ofNat_cases A hA
  obtain ⟨mM, eM, hMeq, hMd, hMv, hMe⟩ := ofNat_cases M hM
  obtain ⟨mP, eP, hPeq, hPd, hPv, hPe⟩ := ofNat_cases (A * M) h
  rw [hAeq, hMeq, hPeq]
  simp only [JsNumber.mul, Bool.xor_false]
  rcases Nat.eq_zero_or_pos (A * M) with h0 | hpos
  · -- one factor is zero, so its mantissa is zero
    have hmm : mA * mM = 0 := by
      have hz : ((mA * mM : Nat) : ℚ) * (pow2 eA * pow2 eM) = 0 := by
        have : ((mA * mM : Nat) : ℚ) * (pow2 eA * pow2 eM)
            = ((mA : ℚ) * pow2 eA) * ((mM : ℚ) * pow2 eM) := by push_cast; ring
        rw [this, hAv, hMv]
        exact_mod_cast h0
      have hp : (0 : ℚ) < pow2 eA * pow2 eM := mul_pos (pow2_pos _) (pow2_pos _)
      rcases mul_eq_zero.1 hz with h1 | h1
      · exact_mod_cast h1
      · exact absurd h1 hp.ne'
    have hmP : mP = 0 := by
      rw [h0, Nat.cast_zero] at hPv
      have hp := pow2_pos eP
      rcases mul_eq_zero.1 hPv with h1 | h1
      · exact_mod_cast h1
      · exact absurd h1 hp.ne'
    have heP : eP = -1074 := by
      rcases hPd with ⟨h1, -⟩ | ⟨h1, -, -, -⟩
      · exact h1
      · omega
    rw [hmm, roundDyadic_zero, hmP, heP]
  · have hApos : 0 < A := Nat.pos_of_ne_zero (fun h' => by simp [h'] at hpos)
    have hMpos : 0 < M := Nat.pos_of_ne_zero (fun h' => by simp [h'] at hpos)
    obtain ⟨hA1, hA2⟩ := hAe hApos
    obtain ⟨hM1, hM2⟩ := hMe hMpos
    have hmA : 2 ^ 52 ≤ mA := by
      rcases hAd with ⟨h1, -⟩ | ⟨h1, -, -, -⟩
      · omega
      · exact h1
    have hmM : 2 ^ 52 ≤ mM := by
      rcases hMd with ⟨h1, -⟩ | ⟨h1, -, -, -⟩
      · omega
      · exact h1
    have hmP : 2 ^ 52 ≤ mP := by
      rcases hPd with ⟨h1, -⟩ | ⟨h1, -, -, -⟩
      · have := (hPe hpos).2; omega
      · exact h1
    have hmP53 : mP < 2 ^ 53 := by
      rcases hPd with ⟨-, h1⟩ | ⟨-, h1, -, -⟩
      · omega
      · exact h1
    have hePb := hPe hpos
    -- the exponent of the exact product is negative
    have hneg : eA + eM < 0 := by
      by_contra hc
      have he0 : eA = 0 ∧ eM = 0 := by omega
      rw [he0.1] at hAv
      rw [he0.2] at hMv
      have hp0 : pow2 0 = 1 := by norm_num [pow2]
      rw [hp0, mul_one] at hAv hMv
      have h1 : mA = A := by exact_mod_cast hAv
      have h2 : mM = M := by exact_mod_cast hMv
      have : 2 ^ 52 * 2 ^ 52 ≤ A * M := by
        rw [← h1, ← h2]
        exact Nat.mul_le_mul hmA hmM
      omega
    have hnn : ¬ (0 : Int) ≤ eA + eM := by omega
    simp only [roundDyadic, hnn, if_false]
    have hD := pow2_neg_toNat (e := eA + eM) (by omega)
    have hDpos : (0 : ℚ) < ((2 ^ (-(eA + eM)).toNat : Nat) : ℚ) := by positivity
    generalize ((2 ^ (-(eA + eM)).toNat : Nat)) = D at hD hDpos ⊢
    have hDn : 0 < D := by exact_mod_cast hDpos
    have hn : 0 < mA * mM := Nat.mul_pos (by omega) (by omega)
    -- n / D = A * M = mP * 2^eP
    have hval : ((mA * mM : Nat) : ℚ) = (mP : ℚ) * pow2 eP * D := by
      have h1 : ((mA * mM : Nat) : ℚ) * pow2 (eA + eM) = (mP : ℚ) * pow2 eP := by
        rw [pow2_add, hPv]
        push_cast
        calc (mA : ℚ) * mM * (pow2 eA * pow2 eM)
            = ((mA : ℚ) * pow2 eA) * ((mM : ℚ) * pow2 eM) := by ring
          _ = (A : ℚ) * M := by rw [hAv, hMv]
      calc ((mA * mM : Nat) : ℚ)
          = ((mA * mM : Nat) : ℚ) * ((D : ℚ) * pow2 (eA + eM)) := by rw [hD, mul_one]
        _ = ((mA * mM : Nat) : ℚ) * pow2 (eA + eM) * D := by ring
        _ = (mP : ℚ) * pow2 eP * D := by rw [h1]
    have hpP := pow2_pos eP
    have hU : ((mA * mM : Nat) : ℚ) * 2 < (2 * (mP : ℚ) + 1) * pow2 eP * D := by
      rw [hval]
      have : (0 : ℚ) < pow2 eP * D := mul_pos hpP hDpos
      nlinarith
    obtain ⟨m, q, hr, hd, hle, hge⟩ :=
      roundFrac_spec false (mA * mM) D hn hDn mP eP hmP53 (by omega) (by omega)
        (Or.inr hmP) hU
    have hge' := hge mP eP (Or.inr hmP) hmP53 (by omega) (le_of_eq hval.symm)
    have hveq : (m : ℚ) * pow2 q = mP * pow2 eP := le_antisymm hle hge'
    rw [hr]
    rcases le_total q eP with hq | hq
    · obtain ⟨e1, e2⟩ := isDouble_unique m mP q eP hd hPd hveq hq
      rw [e1, e2]
    · obtain ⟨e1, e2⟩ := isDouble_unique mP m eP q hPd hd hveq.symm hq
      rw [e1, e2]

theorem isFinite_ofNat (N : Nat) (h53 : N < 2 ^ 53) : (JsNumber.ofNat N).isFinite = true := by
  obtain ⟨m, e, h, -⟩ := ofNat_cases N h53
  rw [h]
  rfl

theorem total_of_naturals (p : Pay) (A M : Nat) (hA : A < 2 ^ 53) (hM : M < 2 ^ 53)
    (h : A * M < 2 ^ 53) (ha : Number p.amount = JsNumber.ofNat A)
    (hm : Number p.months = JsNumber.ofNat M) : total p = JsNumber.ofNat (A * M) := by
  rw [total_eq, ha, hm, mul_ofNat A M hA hM h, if_pos (isFinite_ofNat _ h)]

/-- C12, as stated, fails: `1e200` and `1e200` parse to finite non-negative
numbers, their product is `+Infinity`, and the total is 0, not the product. -/
theorem total_overflow :
    (Number overflowPay.amount).isFinite = true ∧
    (JsNumber.ofNat 0).le (Number overflowPay.amount) = true ∧
    (Number overflowPay.months).isFinite = true ∧
    (JsNumber.ofNat 0).le (Number overflowPay.months) = true ∧
    (Number overflowPay.amount).mul (Number overflowPay.months) = JsNumber.inf false ∧
    total overflowPay = JsNumber.ofNat 0 ∧
    total overflowPay ≠ (Number overflowPay.amount).mul (Number overflowPay.months) := by
  decide!

/-- C12, amended: the total is the double product
`Number(amount) * Number(months)` whenever that product is finite and 0
whenever it is not (the `Number.isFinite` guard); if either field is blank or
parses to `NaN` the total is zero (`0` or `-0`). When the fields parse to
natural numbers `A` and `M` with `A * M < 2^53`, the total is exactly
`A * M`. -/
theorem total_spec (p : Pay) :
    (((Number p.amount).mul (Number p.months)).isFinite = true →
      total p = (Number p.amount).mul (Number p.months)) ∧
    (((Number p.amount).mul (Number p.months)).isFinite = false →
      total p = JsNumber.ofNat 0) ∧
    ((p.amount = "" ∨ p.months = "" ∨ (Number p.amount).isNaN = true ∨
        (Number p.months).isNaN = true) →
      ∃ neg, total p = JsNumber.fin neg 0 (-1074)) ∧
    (∀ A M : Nat, A < 2 ^ 53 → M < 2 ^ 53 → A * M < 2 ^ 53 →
      Number p.amount = JsNumber.ofNat A → Number p.months = JsNumber.ofNat M →
      total p = JsNumber.ofNat (A * M)) := by
  refine ⟨fun h => ?_, fun h => ?_, fun h => ?_, fun A M hA hM h ha hm =>
    total_of_naturals p A M hA hM h ha hm⟩
  · rw [total_eq, if_pos h]
  · rw [total_eq, if_neg (by simp [h])]
  · have key : (Number p.amount).mul (Number p.months) = JsNumber.nan ∨
        ∃ neg, (Number p.amount).mul (Number p.months) = JsNumber.fin neg 0 (-1074) := by
      rcases h with h | h | h | h
      · rw [h, Number_empty, ofNat_zero]
        exact mul_zero_left _
      · rw [h, Number_empty, ofNat_zero]
        exact mul_zero_right _
      · rw [isNaN_iff] at h
        rw [h]
        left; exact mul_nan_left _
      · rw [isNaN_iff] at h
        rw [h]
        left; exact mul_nan_right _
    rw [total_eq]
    rcases key with hk | ⟨neg, hk⟩
    · rw [hk]
      exact ⟨false, by simp [JsNumber.isFinite, ofNat_zero]⟩
    · rw [hk]
      exact ⟨neg, by simp [JsNumber.isFinite]⟩

theorem total_spec_witness :
    (((Number demoPay.amount).mul (Number demoPay.months)).isFinite = true ∧
      total demoPay = (Number demoPay.amount).mul (Number demoPay.months) ∧
      total demoPay = JsNumber.ofNat 36000) ∧
    (((Number overflowPay.amount).mul (Number overflowPay.months)).isFinite = false ∧
      total overflowPay = JsNumber.ofNat 0) ∧
    (initialPay.amount = "" ∧ ∃ neg, total initialPay = JsNumber.fin neg 0 (-1074)) ∧
    (Number demoPay.amount = JsNumber.ofNat 6000 ∧ Number demoPay.months = JsNumber.ofNat 6 ∧
      total demoPay = JsNumber.ofNat (6000 * 6)) :=
  ⟨⟨by decide!, (total_spec demoPay).1 (by decide!), by decide!⟩,
    ⟨by decide!, (total_spec overflowPay).2.1 (by decide!)⟩,
    ⟨by decide, (total_spec initialPay).2.2.1 (Or.inl (by decide))⟩,
    ⟨by decide!, by decide!,
      (total_spec demoPay).2.2.2 6000 6 (by norm_num) (by norm_num) (by norm_num)
        (by decide!) (by decide!)⟩⟩

theorem onPaste_of_digits (clip : String) (p : Otp) (h : stripNonDigits clip.data ≠ []) :
    onPaste clip p =
      { p with digits := (List.range 6).map fun i =>
          (((stripNonDigits clip.data).take 6).map fun c => (⟨[c]⟩ : String)).getD i "" } := by
  have : ((stripNonDigits clip.data).take 6).isEmpty = false := by
    cases hs : stripNonDigits clip.data with
    | nil => exact absurd hs h
    | cons a l => rfl
  simp only [onPaste, this, Bool.false_eq_true, if_false]

theorem onPaste_no_digits (clip : String) (p : Otp) (h : stripNonDigits clip.data = []) :
    onPaste clip p = p := by
  simp [onPaste, h]

/-- C13, as stated, fails for a paste without digits: pasting `abc` over the
buffer `1 2 3 4 5 6` leaves the six digits in place instead of emptying the
slots. -/
theorem onPaste_without_digit_keeps_buffer :
    (stripNonDigits "abc".data).take 6 = [] ∧
    (onPaste "abc" matchingState.otp).digits = ["1", "2", "3", "4", "5", "6"] ∧
    (onPaste "abc" matchingState.otp).digits[0]? ≠ some "" := by
  decide

/-- C13, amended: for every pasted string that contains at least one decimal
digit and every prior buffer, `onPaste` makes the buffer six slots, slot `k`
holding the `k`-th character of the pasted text with its non-digits deleted
and cut to 6 characters, and the empty string when that text is shorter; the
prior digits are overwritten and no other field of `otp` changes. -/
theorem onPaste_slots (clip : String) (p : Otp) (h : stripNonDigits clip.data ≠ []) :
    (onPaste clip p).digits.length = 6 ∧
    (∀ k, k < 6 →
      (onPaste clip p).digits[k]? =
        some (match ((stripNonDigits clip.data).take 6)[k]? with
              | some c => ⟨[c]⟩
              | none => "")) ∧
    onPaste clip p = { p with digits := (onPaste clip p).digits } := by
  rw [onPaste_of_digits clip p h]
  refine ⟨by simp, fun k hk => ?_, rfl⟩
  generalize (stripNonDigits clip.data).take 6 = text
  simp only [List.getElem?_map, List.getD_eq_getElem?_getD]
  have hr : (List.range 6)[k]? = some k := by
    rw [List.getElem?_range hk]
  rw [hr]
  cases ht : text[k]? <;> simp [ht]

theorem onPaste_slots_witness :
    stripNonDigits "12".data ≠ [] ∧
    (onPaste "12" initialOtp).digits = ["1", "2", "", "", "", ""] ∧
    (onPaste "12" initialOtp).digits.length = 6 ∧
    (∀ k, k < 6 →
      (onPaste "12" initialOtp).digits[k]? =
        some (match ((stripNonDigits "12".data).take 6)[k]? with
              | some c => ⟨[c]⟩
              | none => "")) ∧
    onPaste "12" initialOtp = { initialOtp with digits := (onPaste "12" initialOtp).digits } :=
  ⟨by decide, by decide, onPaste_slots "12" initialOtp (by decide)⟩

theorem truthy_getD_false (l : List String) (i : Nat) (h : l[i]? = some "") :
    truthy (l.getD i "") = false := by
  rw [List.getD_eq_getElem?_getD, h]
  rfl

theorem truthy_getD_true (l : List String) (i : Nat) (v : String) (h : l[i]? = some v)
    (hv : v ≠ "") : truthy (l.getD i "") = true := by
  rw [List.getD_eq_getElem?_getD, h]
  exact (truthy_iff v).2 hv

/-- C14: in a six-slot buffer, Backspace at an empty slot `i` with `0 < i ≤ 5`
clears slot `i - 1` and leaves slot `i` and every other slot as it was;
Backspace at a non-empty slot `i` clears slot `i` only; Backspace at the empty
slot 0 changes nothing. No other field of `otp` changes. -/
theorem onKeyDown_backspace (i : Nat) (p : Otp) :
    (p.digits[i]? = some "" → 0 < i → i ≤ 5 → p.digits.length = 6 →
      (onKeyDown i "Backspace" p).digits[i - 1]? = some "" ∧
      (∀ k, k ≠ i - 1 → (onKeyDown i "Backspace" p).digits[k]? = p.digits[k]?) ∧
      onKeyDown i "Backspace" p = { p with digits := (onKeyDown i "Backspace" p).digits }) ∧
    (∀ v, p.digits[i]? = some v → v ≠ "" →
      (onKeyDown i "Backspace" p).digits[i]? = some "" ∧
      (∀ k, k ≠ i → (onKeyDown i "Backspace" p).digits[k]? = p.digits[k]?) ∧
      onKeyDown i "Backspace" p = { p with digits := (onKeyDown i "Backspace" p).digits }) ∧
    (p.digits[i]? = some "" → i = 0 → onKeyDown i "Backspace" p = p) := by
  refine ⟨fun h hi hi5 hlen => ?_, fun v h hv => ?_, fun h hi => ?_⟩
  · have ht := truthy_getD_false p.digits i h
    have hd : onKeyDown i "Backspace" p = setDigit (i - 1) "" p := by
      simp only [onKeyDown, if_true, ht, Bool.false_eq_true, if_false, hi]
    rw [hd]
    refine ⟨?_, fun k hk => ?_, rfl⟩
    · simp only [setDigit]
      rw [List.getElem?_set_self (by omega)]
    · simp only [setDigit]
      rw [List.getElem?_set_ne (fun h' => hk h'.symm)]
  · have ht := truthy_getD_true p.digits i v h hv
    have hd : onKeyDown i "Backspace" p = setDigit i "" p := by
      simp only [onKeyDown, if_true, ht]
    have hlt : i < p.digits.length := by
      by_contra hc
      rw [List.getElem?_eq_none (by omega)] at h
      cases h
    rw [hd]
    refine ⟨?_, fun k hk => ?_, rfl⟩
    · simp only [setDigit]
      rw [List.getElem?_set_self hlt]
    · simp only [setDigit]
      rw [List.getElem?_set_ne (fun h' => hk h'.symm)]
  · subst hi
    have ht := truthy_getD_false p.digits 0 h
    simp only [onKeyDown, if_true, ht, Bool.false_eq_true, if_false, Nat.lt_irrefl]

theorem onKeyDown_backspace_witness :
    (coolingState.otp.digits[3]? = some "" ∧
      (onKeyDown 3 "Backspace" coolingState.otp).digits = ["1", "2", "", "", "", ""] ∧
      (onKeyDown 2 "Backspace" coolingState.otp).digits = ["1", "", "", "", "", ""] ∧
      (onKeyDown 3 "Backspace" coolingState.otp).digits[3 - 1]? = some "" ∧
      (∀ k, k ≠ 3 - 1 →
        (onKeyDown 3 "Backspace" coolingState.otp).digits[k]? = coolingState.otp.digits[k]?) ∧
      onKeyDown 3 "Backspace" coolingState.otp =
        { coolingState.otp with digits := (onKeyDown 3 "Backspace" coolingState.otp).digits }) ∧
    (coolingState.otp.digits[1]? = some "2" ∧
      (onKeyDown 1 "Backspace" coolingState.otp).digits[1]? = some "" ∧
      (∀ k, k ≠ 1 →
        (onKeyDown 1 "Backspace" coolingState.otp).digits[k]? = coolingState.otp.digits[k]?) ∧
      onKeyDown 1 "Backspace" coolingState.otp =
        { coolingState.otp with digits := (onKeyDown 1 "Backspace" coolingState.otp).digits }) ∧
    (initialOtp.digits[0]? = some "" ∧ onKeyDown 0 "Backspace" initialOtp = initialOtp) :=
  ⟨⟨by decide, by decide, by decide,
      (onKeyDown_backspace 3 coolingState.otp).1 (by decide) (by decide) (by decide)
        (by decide)⟩,
    ⟨by decide, (onKeyDown_backspace 1 coolingState.otp).2.1 "2" (by decide) (by decide)⟩,
    ⟨by decide, (onKeyDown_backspace 0 initialOtp).2.2 (by decide) rfl⟩⟩

/-- C15: the effect of `verifyOtp` by outcome. INVALID (exactly when
`validateOtpStep` fails): no field of `otp`, in particular not `verifying`, and
not the step is changed. INCORRECT: `verifying` is raised and ends false, all
other fields of `otp` (digits, `serverCode`, `verified`) and the step are
unchanged. VERIFIED: `verified` becomes true, `verifying` ends false, the other
fields of `otp` are unchanged and the step becomes 3. -/
theorem verifyOtp_effect (s : State) :
    ((verifyOtp s).1 = VerifyOutcome.invalid ↔ (validateOtpStep s).1 = false) ∧
    ((verifyOtp s).1 = VerifyOutcome.invalid →
      (verifyOtp s).2.otp = s.otp ∧ (verifyOtp s).2.step = s.step) ∧
    ((verifyOtp s).1 = VerifyOutcome.incorrect →
      (verifyOtp s).2.otp = { s.otp with verifying := false } ∧
      (verifyOtp s).2.step = s.step ∧
      (verifyOtpBegin s).2.otp.verifying = true) ∧
    ((verifyOtp s).1 = VerifyOutcome.verified →
      (verifyOtp s).2.otp = { s.otp with verifying := false, verified := true } ∧
      (verifyOtp s).2.step = 3 ∧
      (verifyOtpBegin s).2.otp.verifying = true) := by
  rw [verifyOtp_eq]
  cases hk : (otpStepErrors s.otp).noKeys <;>
    by_cases hc : getOtpCode s.otp = s.otp.serverCode <;>
    simp [hk, hc, validateOtpStep, verifyOtpBegin]

theorem verifyOtp_effect_witness :
    ((verifyOtp coolingState).1 = VerifyOutcome.invalid ∧
      (verifyOtp coolingState).2.otp = coolingState.otp ∧
      (verifyOtp coolingState).2.step = coolingState.step) ∧
    ((verifyOtp mismatchState).1 = VerifyOutcome.incorrect ∧
      (verifyOtp mismatchState).2.otp = { mismatchState.otp with verifying := false } ∧
      (verifyOtp mismatchState).2.step = mismatchState.step ∧
      (verifyOtpBegin mismatchState).2.otp.verifying = true) ∧
    ((verifyOtp matchingState).1 = VerifyOutcome.verified ∧
      (verifyOtp matchingState).2.otp =
        { matchingState.otp with verifying := false, verified := true } ∧
      (verifyOtp matchingState).2.step = 3 ∧
      (verifyOtpBegin matchingState).2.otp.verifying = true) :=
  ⟨⟨by decide, (verifyOtp_effect coolingState).2.1 (by decide)⟩,
    ⟨by decide, (verifyOtp_effect mismatchState).2.2.1 (by decide)⟩,
    ⟨by decide, (verifyOtp_effect matchingState).2.2.2 (by decide)⟩⟩

/-- C16: at step 3 the back button is enabled whatever the rest of the state is
and sets the step to 2; at step 2 the change-number button is enabled whatever
the rest of the state is and sets the step to 1. Nothing else changes: profile,
draft and every field of `otp` are kept, in particular `otp.verified`. -/
theorem back_transitions (banks : List Bank) (s : State) :
    (s.step = 3 →
      enabled banks Event.backToOtp s = true ∧
      applyEvent Event.backToOtp s = { s with step := 2 }) ∧
    (s.step = 2 →
      enabled banks Event.changeNumber s = true ∧
      applyEvent Event.changeNumber s = { s with step := 1 } ∧
      (applyEvent Event.changeNumber s).otp.verified = s.otp.verified) := by
  refine ⟨fun h => ?_, fun h => ?_⟩
  · simp [enabled, applyEvent, h]
  · simp [enabled, applyEvent, h]

theorem back_transitions_witness :
    (unknownBankState.step = 3 ∧
      enabled BANKS Event.backToOtp unknownBankState = true ∧
      applyEvent Event.backToOtp unknownBankState = { unknownBankState with step := 2 }) ∧
    ((applyEvent Event.backToOtp unknownBankState).step = 2 ∧
      enabled BANKS Event.changeNumber (applyEvent Event.backToOtp unknownBankState) = true ∧
      applyEvent Event.changeNumber (applyEvent Event.backToOtp unknownBankState) =
        { applyEvent Event.backToOtp unknownBankState with step := 1 } ∧
      (applyEvent Event.changeNumber (applyEvent Event.backToOtp unknownBankState)).otp.verified =
        (applyEvent Event.backToOtp unknownBankState).otp.verified) :=
  ⟨⟨by decide, (back_transitions BANKS unknownBankState).1 (by decide)⟩,
    ⟨by decide,
      (back_transitions BANKS (applyEvent Event.backToOtp unknownBankState)).2 (by decide)⟩⟩

/-- C17, as stated, fails: the draft with amount `1e200` and months `1e200`
passes `validateStep3`, both parse to finite numbers, their product is
`+Infinity`, and the emitted total is 0. -/
theorem onConfirm_overflow :
    (validateStep3 overflowState).1 = true ∧
    (onConfirm overflowState).1.map (fun d => d.cotisation.total) = some (JsNumber.ofNat 0) ∧
    (onConfirm overflowState).1.map (fun d => d.cotisation.amount.mul d.cotisation.months) =
      some (JsNumber.inf false) ∧
    (onConfirm overflowState).1.map (fun d => d.cotisation.amount.isFinite) = some true ∧
    (onConfirm overflowState).1.map (fun d => d.cotisation.months.isFinite) = some true := by
  decide!

/-- C17, amended: `onConfirm` calls `onDone` exactly when `validateStep3`
passes. The object it passes has the profile, `otp.verified`, the `bankId`, the
trimmed `accountNumber`, and `amount` and `months` equal to the parsed fields;
its total is the product of amount and months whenever that product is finite
(exactly `A * M` for natural numbers `A`, `M` with `A * M < 2^53`), and 0 when
finite amount and months have a product that overflows. -/
theorem onConfirm_spec (s : State) :
    ((onConfirm s).1.isSome = true ↔ (validateStep3 s).1 = true) ∧
    (∀ d, (onConfirm s).1 = some d →
      d.profile = s.register ∧ d.otpVerified = s.otp.verified ∧
      d.cotisation.bankId = s.pay.bankId ∧
      d.cotisation.accountNumber = jsTrim s.pay.accountNumber ∧
      d.cotisation.amount = Number s.pay.amount ∧
      d.cotisation.months = Number s.pay.months ∧
      ((d.cotisation.amount.mul d.cotisation.months).isFinite = true →
        d.cotisation.total = d.cotisation.amount.mul d.cotisation.months) ∧
      (d.cotisation.amount.isFinite = true → d.cotisation.months.isFinite = true →
        (d.cotisation.amount.mul d.cotisation.months).isFinite = false →
        d.cotisation.total = JsNumber.ofNat 0) ∧
      (∀ A M : Nat, A < 2 ^ 53 → M < 2 ^ 53 → A * M < 2 ^ 53 →
        d.cotisation.amount = JsNumber.ofNat A → d.cotisation.months = JsNumber.ofNat M →
        d.cotisation.total = JsNumber.ofNat (A * M))) := by
  cases hk : (step3Errors s.pay).noKeys
  · simp [onConfirm, validateStep3, hk]
  · simp only [onConfirm, validateStep3, hk, Bool.not_true, Bool.false_eq_true, if_false,
      Option.isSome_some, true_and, Option.some.injEq]
    intro d hd
    subst hd
    refine ⟨rfl, rfl, rfl, rfl, rfl, rfl, fun h => ?_, fun _ _ h => ?_,
      fun A M hA hM h ha hm => total_of_naturals s.pay A M hA hM h ha hm⟩
    · show total s.pay = _
      rw [total_eq, if_pos h]
    · show total s.pay = _
      rw [total_eq, if_neg (by simpa using h)]

theorem onConfirm_spec_witness :
    (validateStep3 demoPayState).1 = true ∧
    (onConfirm demoPayState).1 = some demoData ∧
    ((onConfirm demoPayState).1.isSome = true ↔ (validateStep3 demoPayState).1 = true) ∧
    (demoData.profile = demoPayState.register ∧
      demoData.otpVerified = demoPayState.otp.verified ∧
      demoData.cotisation.bankId = demoPayState.pay.bankId ∧
      demoData.cotisation.accountNumber = jsTrim demoPayState.pay.accountNumber ∧
      demoData.cotisation.amount = Number demoPayState.pay.amount ∧
      demoData.cotisation.months = Number demoPayState.pay.months ∧
      ((demoData.cotisation.amount.mul demoData.cotisation.months).isFinite = true →
        demoData.cotisation.total = demoData.cotisation.amount.mul demoData.cotisation.months) ∧
      (demoData.cotisation.amount.isFinite = true → demoData.cotisation.months.isFinite = true →
        (demoData.cotisation.amount.mul demoData.cotisation.months).isFinite = false →
        demoData.cotisation.total = JsNumber.ofNat 0) ∧
      (∀ A M : Nat, A < 2 ^ 53 → M < 2 ^ 53 → A * M < 2 ^ 53 →
        demoData.cotisation.amount = JsNumber.ofNat A →
        demoData.cotisation.months = JsNumber.ofNat M →
        demoData.cotisation.total = JsNumber.ofNat (A * M))) :=
  ⟨by decide!, by decide!, (onConfirm_spec demoPayState).1,
    (onConfirm_spec demoPayState).2 demoData (by decide!)⟩

theorem onDone_new (env : DoneEnv) (data : DoneData) (a : AppState)
    (h : sessionUserId a = none ∨ sessionUserId a = some "") :
    onDone env data a =
      { a with
        users := newUser env data :: a.users
        session := some { userId := some (newUser env data).id, role := "CLIENT" }
        savedSession := some { userId := some (newUser env data).id, role := "CLIENT" }
        cotisations := newCotisation env (newUser env data).id data :: a.cotisations
        toast := some { message := "Cotisation confirmée ✅", type := "success" } } := by
  have hf : (sessionUserId a).filter truthy = none := by
    rcases h with h | h
    · rw [h]; rfl
    · rw [h]; rfl
  simp only [onDone, hf, appToast]

theorem onDone_existing (env : DoneEnv) (data : DoneData) (a : AppState) (uid : String)
    (h : sessionUserId a = some uid) (hne : uid ≠ "") :
    onDone env data a =
      { a with
        users := a.users.map fun u =>
          if u.id = uid then
            { u with fullName := data.profile.fullName, phone := data.profile.phone,
                     email := data.profile.email, address := some data.profile.address }
          else u
        cotisations := newCotisation env uid data :: a.cotisations
        toast := some { message := "Cotisation confirmée ✅", type := "success" } } := by
  have hf : (sessionUserId a).filter truthy = some uid := by
    rw [h]
    simp [Option.filter, (truthy_iff uid).2 hne]
  simp only [onDone, hf, appToast]


theorem fallback_email_ne (x : String) : "client_" ++ x ++ "@mail.com" ≠ "" := by
  intro h
  have := congrArg String.data h
  simp at this

/-- C18: when `onDone` runs with no owner id in the session (`session?.userId`
is `null`, undefined or empty), `users` becomes one new user followed by the
previous users, unchanged and in the same order. The new user has role
`CLIENT`, the password `client123`, the submitted `fullName`, `phone` and
`address`, and as email the submitted email when that is non-empty, otherwise
the generated `client_<Date.now()>@mail.com`, which is non-empty. -/
theorem onDone_creates_user (env : DoneEnv) (data : DoneData) (a : AppState)
    (h : sessionUserId a = none ∨ sessionUserId a = some "") :
    ∃ u : User, (onDone env data a).users = u :: a.users ∧
      u.role = "CLIENT" ∧ u.password = "client123" ∧
      u.fullName = data.profile.fullName ∧ u.phone = data.profile.phone ∧
      u.address = some data.profile.address ∧
      (data.profile.email ≠ "" → u.email = data.profile.email) ∧
      (data.profile.email = "" →
        u.email = "client_" ++ env.now.toJsString ++ "@mail.com" ∧ u.email ≠ "") := by
  refine ⟨newUser env data, ?_, rfl, rfl, rfl, rfl, rfl, fun hne => ?_, fun he => ?_⟩
  · rw [onDone_new env data a h]
  · simp [newUser, (truthy_iff _).2 hne]
  · have ht := (truthy_eq_false_iff _).2 he
    have hu : (newUser env data).email = "client_" ++ env.now.toJsString ++ "@mail.com" := by
      simp [newUser, ht]
    exact ⟨hu, by rw [hu]; exact fallback_email_ne _⟩

theorem onDone_creates_user_witness :
    (sessionUserId signupApp = none ∨ sessionUserId signupApp = some "") ∧
    (onDone demoEnv demoData signupApp).users =
      { id := "u_8a3f1c", role := "CLIENT", email := "client_1700000000000@mail.com",
        password := "client123", fullName := "A B", phone := "77123456",
        address := some "X" } :: FAKE_USERS ∧
    ∃ u : User, (onDone demoEnv demoData signupApp).users = u :: signupApp.users ∧
      u.role = "CLIENT" ∧ u.password = "client123" ∧
      u.fullName = demoData.profile.fullName ∧ u.phone = demoData.profile.phone ∧
      u.address = some demoData.profile.address ∧
      (demoData.profile.email ≠ "" → u.email = demoData.profile.email) ∧
      (demoData.profile.email = "" →
        u.email = "client_" ++ demoEnv.now.toJsString ++ "@mail.com" ∧ u.email ≠ "") :=
  ⟨Or.inl (by decide), by decide!,
    onDone_creates_user demoEnv demoData signupApp (Or.inl (by decide))⟩

/-- C19: when `onDone` runs with an owner id in the session, `users` keeps its
length and order: position by position, a user with another id is unchanged,
and a user with that id has `fullName`, `phone`, `email` and `address`
replaced by the submitted profile while `id`, `role` and `password` are kept. -/
theorem onDone_updates_user (env : DoneEnv) (data : DoneData) (a : AppState) (uid : String)
    (h : sessionUserId a = some uid) (hne : uid ≠ "") :
    (onDone env data a).users.length = a.users.length ∧
    ∀ (i : Nat) (u : User), a.users[i]? = some u →
      ∃ u', (onDone env data a).users[i]? = some u' ∧
        (u.id ≠ uid → u' = u) ∧
        (u.id = uid →
          u'.fullName = data.profile.fullName ∧ u'.phone = data.profile.phone ∧
          u'.email = data.profile.email ∧ u'.address = some data.profile.address ∧
          u'.id = u.id ∧ u'.role = u.role ∧ u'.password = u.password) := by
  rw [onDone_existing env data a uid h hne]
  refine ⟨by simp, fun i u hu => ?_⟩
  simp only [List.getElem?_map, hu, Option.map_some']
  by_cases hid : u.id = uid
  · exact ⟨_, rfl, fun hc => absurd hid hc, fun _ => by simp [hid]⟩
  · exact ⟨_, rfl, fun _ => by simp [hid], fun hc => absurd hc hid⟩

theorem onDone_updates_user_witness :
    sessionUserId clientApp = some "u_client" ∧
    (onDone demoEnv demoData clientApp).users =
      [ { id := "u_admin", role := "ADMIN", email := "admin@vip.com", password := "admin123",
          fullName := "VIP Admin", phone := "77 00 00 00", address := none },
        { id := "u_client", role := "CLIENT", email := "", password := "client123",
          fullName := "A B", phone := "77123456", address := some "X" } ] ∧
    (onDone demoEnv demoData clientApp).users.length = clientApp.users.length ∧
    ∀ (i : Nat) (u : User), clientApp.users[i]? = some u →
      ∃ u', (onDone demoEnv demoData clientApp).users[i]? = some u' ∧
        (u.id ≠ "u_client" → u' = u) ∧
        (u.id = "u_client" →
          u'.fullName = demoData.profile.fullName ∧ u'.phone = demoData.profile.phone ∧
          u'.email = demoData.profile.email ∧ u'.address = some demoData.profile.address ∧
          u'.id = u.id ∧ u'.role = u.role ∧ u'.password = u.password) :=
  ⟨by decide, by decide!,
    onDone_updates_user demoEnv demoData clientApp "u_client" (by decide) (by decide)⟩

/-- C20: in both branches of `onDone`, `cotisations` becomes one new record
followed by the previous records, unchanged and in the same order. The new
record has status `CONFIRMED` and the submitted `bankId`, `accountNumber`,
`amount`, `months` and `total`; its `userId` is the id of the user just created
when the session had no owner id, and the session's owner id otherwise. -/
theorem onDone_adds_cotisation (env : DoneEnv) (data : DoneData) (a : AppState) :
    ∃ c : CotisationRecord, (onDone env data a).cotisations = c :: a.cotisations ∧
      c.status = "CONFIRMED" ∧
      c.bankId = data.cotisation.bankId ∧ c.accountNumber = data.cotisation.accountNumber ∧
      c.amount = data.cotisation.amount ∧ c.months = data.cotisation.months ∧
      c.total = data.cotisation.total ∧
      ((sessionUserId a = none ∨ sessionUserId a = some "") →
        ∃ u, (onDone env data a).users = u :: a.users ∧ c.userId = u.id ∧
          (onDone env data a).session = some { userId := some u.id, role := "CLIENT" }) ∧
      (∀ uid, sessionUserId a = some uid → uid ≠ "" → c.userId = uid) := by
  rcases hs : sessionUserId a with _ | uid
  · have h := onDone_new env data a (Or.inl hs)
    refine ⟨newCotisation env (newUser env data).id data, by rw [h], rfl, rfl, rfl, rfl, rfl,
      rfl, fun _ => ⟨newUser env data, by rw [h], rfl, by rw [h]⟩, fun uid hu => by cases hu⟩
  · by_cases he : uid = ""
    · subst he
      have h := onDone_new env data a (Or.inr hs)
      refine ⟨newCotisation env (newUser env data).id data, by rw [h], rfl, rfl, rfl, rfl, rfl,
        rfl, fun _ => ⟨newUser env data, by rw [h], rfl, by rw [h]⟩, fun uid hu hne => ?_⟩
      simp only [Option.some.injEq] at hu
      exact absurd hu.symm hne
    · have h := onDone_existing env data a uid hs he
      refine ⟨newCotisation env uid data, by rw [h], rfl, rfl, rfl, rfl, rfl, rfl,
        fun hc => ?_, fun uid' hu _ => ?_⟩
      · rcases hc with hc | hc
        · cases hc
        · simp only [Option.some.injEq] at hc
          exact absurd hc he
      · simp only [Option.some.injEq] at hu
        rw [← hu]
        rfl

theorem onDone_adds_cotisation_witness :
    (sessionUserId signupApp = none ∨ sessionUserId signupApp = some "") ∧
    (onDone demoEnv demoData signupApp).cotisations =
      { id := "c_5b2e9d", userId := "u_8a3f1c", bankId := "exim", accountNumber := "100200300",
        amount := JsNumber.ofNat 6000, months := JsNumber.ofNat 6,
        total := JsNumber.ofNat 36000, status := "CONFIRMED",
        createdAt := "2023-11-14T22:13:20.000Z" } :: signupApp.cotisations ∧
    (onDone demoEnv demoData clientApp).cotisations =
      { id := "c_5b2e9d", userId := "u_client", bankId := "exim", accountNumber := "100200300",
        amount := JsNumber.ofNat 6000, months := JsNumber.ofNat 6,
        total := JsNumber.ofNat 36000, status := "CONFIRMED",
        createdAt := "2023-11-14T22:13:20.000Z" } :: clientApp.cotisations ∧
    ∃ c : CotisationRecord,
      (onDone demoEnv demoData signupApp).cotisations = c :: signupApp.cotisations ∧
      c.status = "CONFIRMED" ∧
      c.bankId = demoData.cotisation.bankId ∧
      c.accountNumber = demoData.cotisation.accountNumber ∧
      c.amount = demoData.cotisation.amount ∧ c.months = demoData.cotisation.months ∧
      c.total = demoData.cotisation.total ∧
      ((sessionUserId signupApp = none ∨ sessionUserId signupApp = some "") →
        ∃ u, (onDone demoEnv demoData signupApp).users = u :: signupApp.users ∧
          c.userId = u.id ∧
          (onDone demoEnv demoData signupApp).session =
            some { userId := some u.id, role := "CLIENT" }) ∧
      (∀ uid, sessionUserId signupApp = some uid → uid ≠ "" → c.userId = uid) :=
  ⟨Or.inl (by decide), by decide!, by decide!,
    onDone_adds_cotisation demoEnv demoData signupApp⟩

/-- C21: a login attempt `(role, email, password)` succeeds exactly when some
user has that role, email and password (string equality, case-sensitive). On
success the session (and its saved copy) becomes the id and role of such a
user, the first one in `users`; on failure the session is unchanged. With the
seeded users, `(CLIENT, client@vip.com, wrongpass)` fails and leaves no
session. -/
theorem onLogin_spec (role email password : String) (a : AppState) :
    ((onLogin role email password a).1 = true ↔
      ∃ u ∈ a.users, u.role = role ∧ u.email = email ∧ u.password = password) ∧
    ((onLogin role email password a).1 = true →
      ∃ u ∈ a.users, u.role = role ∧ u.email = email ∧ u.password = password ∧
        a.users.find? (fun v => v.role == role && v.email == email && v.password == password)
          = some u ∧
        (onLogin role email password a).2.session = some { userId := some u.id, role := u.role } ∧
        (onLogin role email password a).2.savedSession =
          some { userId := some u.id, role := u.role }) ∧
    ((onLogin role email password a).1 = false →
      (onLogin role email password a).2.session = a.session ∧
      (onLogin role email password a).2.savedSession = a.savedSession) ∧
    ((onLogin "CLIENT" "client@vip.com" "wrongpass" (initialApp "")).1 = false ∧
      (onLogin "CLIENT" "client@vip.com" "wrongpass" (initialApp "")).2.session = none) := by
  refine ⟨?_, ?_, ?_, by decide⟩
  · cases hf : a.users.find?
        (fun u => u.role == role && u.email == email && u.password == password) with
    | none =>
      simp only [onLogin, hf, Bool.false_eq_true, false_iff, not_exists, not_and]
      intro u hu h1 h2 h3
      have := List.find?_eq_none.1 hf u hu
      simp [h1, h2, h3] at this
    | some found =>
      simp only [onLogin, hf, true_iff]
      have hm := List.mem_of_find?_eq_some hf
      have hp := List.find?_some hf
      simp only [Bool.and_eq_true, beq_iff_eq] at hp
      exact ⟨found, hm, hp.1.1, hp.1.2, hp.2⟩
  · cases hf : a.users.find?
        (fun u => u.role == role && u.email == email && u.password == password) with
    | none => simp [onLogin, hf]
    | some found =>
      intro _
      have hm := List.mem_of_find?_eq_some hf
      have hp := List.find?_some hf
      simp only [Bool.and_eq_true, beq_iff_eq] at hp
      exact ⟨found, hm, hp.1.1, hp.1.2, hp.2, rfl, by simp [onLogin, hf, appToast],
        by simp [onLogin, hf, appToast]⟩
  · cases hf : a.users.find?
        (fun u => u.role == role && u.email == email && u.password == password) with
    | none => simp [onLogin, hf, appToast]
    | some found => simp [onLogin, hf]

theorem onLogin_spec_witness :
    (onLogin "CLIENT" "client@vip.com" "client123" (initialApp "")).1 = true ∧
    (onLogin "CLIENT" "client@vip.com" "client123" (initialApp "")).2.session =
      some { userId := some "u_client", role := "CLIENT" } ∧
    (∃ u ∈ (initialApp "").users, u.role = "CLIENT" ∧ u.email = "client@vip.com" ∧
        u.password = "client123" ∧
        (initialApp "").users.find?
          (fun v => v.role == "CLIENT" && v.email == "client@vip.com" &&
            v.password == "client123") = some u ∧
        (onLogin "CLIENT" "client@vip.com" "client123" (initialApp "")).2.session =
          some { userId := some u.id, role := u.role } ∧
        (onLogin "CLIENT" "client@vip.com" "client123" (initialApp "")).2.savedSession =
          some { userId := some u.id, role := u.role }) ∧
    ((onLogin "CLIENT" "Client@vip.com" "client123" (initialApp "")).1 = false ∧
      (onLogin "CLIENT" "Client@vip.com" "client123" (initialApp "")).2.session =
        (initialApp "").session ∧
      (onLogin "CLIENT" "Client@vip.com" "client123" (initialApp "")).2.savedSession =
        (initialApp "").savedSession) :=
  ⟨by decide, by decide,
    (onLogin_spec "CLIENT" "client@vip.com" "client123" (initialApp "")).2.1 (by decide),
    by decide,
    (onLogin_spec "CLIENT" "Client@vip.com" "client123" (initialApp "")).2.2.1 (by decide)⟩

theorem isSlot_empty : IsSlot "" := Or.inl rfl

theorem digitsOk_set (digits : List String) (i : Nat) (v : String) (h : DigitsOk digits)
    (hv : IsSlot v) : DigitsOk (digits.set i v) := by
  refine ⟨by simp [h.1], fun d hd => ?_⟩
  rcases List.mem_or_eq_of_mem_set hd with h1 | h1
  · exact h.2 d h1
  · rw [h1]; exact hv

theorem digitsOk_initial : DigitsOk initialOtp.digits := by
  refine ⟨rfl, fun d hd => ?_⟩
  simp only [initialOtp, List.mem_cons, List.mem_singleton, List.not_mem_nil, or_false,
    or_self] at hd
  exact Or.inl hd

theorem digitsOk_empty : DigitsOk ["", "", "", "", "", ""] := digitsOk_initial

theorem getLast?_stripNonDigits (cs : List Char) (c : Char)
    (h : (stripNonDigits cs).getLast? = some c) : isDecimalDigit c = true := by
  have hm : c ∈ stripNonDigits cs := List.mem_of_getLast?_eq_some h
  simp only [stripNonDigits, List.mem_filter] at hm
  exact hm.2

theorem digitsOk_onChange (i : Nat) (v : String) (p : Otp) (h : DigitsOk p.digits) :
    DigitsOk (onChange i v p).digits := by
  cases hl : (stripNonDigits v.data).getLast? with
  | none =>
    simp only [onChange, hl, setDigit]
    exact digitsOk_set _ _ _ h isSlot_empty
  | some c =>
    simp only [onChange, hl, setDigit]
    exact digitsOk_set _ _ _ h (Or.inr ⟨c, getLast?_stripNonDigits _ _ hl, rfl⟩)

theorem digitsOk_onKeyDown (i : Nat) (key : String) (p : Otp) (h : DigitsOk p.digits) :
    DigitsOk (onKeyDown i key p).digits := by
  unfold onKeyDown
  split
  · split
    · exact digitsOk_set _ _ _ h isSlot_empty
    · split
      · exact digitsOk_set _ _ _ h isSlot_empty
      · exact h
  · exact h

theorem digitsOk_onPaste (clip : String) (p : Otp) (h : DigitsOk p.digits) :
    DigitsOk (onPaste clip p).digits := by
  by_cases hs : stripNonDigits clip.data = []
  · rw [onPaste_no_digits clip p hs]; exact h
  · rw [onPaste_of_digits clip p hs]
    refine ⟨by simp, fun d hd => ?_⟩
    simp only [List.mem_map, List.mem_range] at hd
    obtain ⟨k, -, hk⟩ := hd
    rw [← hk, List.getD_eq_getElem?_getD, List.getElem?_map]
    cases hc : ((stripNonDigits clip.data).take 6)[k]? with
    | none => exact Or.inl rfl
    | some c =>
      right
      refine ⟨c, ?_, rfl⟩
      have hm : c ∈ (stripNonDigits clip.data).take 6 := List.mem_iff_getElem?.2 ⟨k, hc⟩
      have hm2 := List.mem_of_mem_take hm
      simp only [stripNonDigits, List.mem_filter] at hm2
      exact hm2.2

theorem digitsOk_sendOtp (r : JsNumber) (s : State) (h : DigitsOk s.otp.digits) :
    DigitsOk (sendOtp r s).2.otp.digits := by
  rw [sendOtp_eq]
  split
  · exact h
  · exact digitsOk_empty

theorem verifyOtp_frame (s : State) :
    (verifyOtp s).2.otp.digits = s.otp.digits ∧ (verifyOtp s).2.otp.sent = s.otp.sent ∧
    (verifyOtp s).2.otp.serverCode = s.otp.serverCode ∧
    (verifyOtp s).2.otp.cooldown = s.otp.cooldown ∧
    (verifyOtp s).2.register = s.register ∧ (verifyOtp s).2.pay = s.pay := by
  rw [verifyOtp_eq]
  split
  · exact ⟨rfl, rfl, rfl, rfl, rfl, rfl⟩
  · split <;> exact ⟨rfl, rfl, rfl, rfl, rfl, rfl⟩

theorem digitsOk_step (ev : Event) (s : State) (h : DigitsOk s.otp.digits) :
    DigitsOk (applyEvent ev s).otp.digits := by
  cases ev with
  | sendClick =>
    simp only [applyEvent, sendOtpBegin_eq]
    split <;> exact h
  | sendDone r phone =>
    simp only [applyEvent, sendOtpResume_eq]
    exact digitsOk_empty
  | otpChange i v => exact digitsOk_onChange i v s.otp h
  | otpKeyDown i key => exact digitsOk_onKeyDown i key s.otp h
  | otpPaste clip => exact digitsOk_onPaste clip s.otp h
  | verifySubmit =>
    simp only [applyEvent, verifyOtpBegin_eq]
    split <;> exact h
  | verifyDone captured =>
    simp only [applyEvent, verifyOtpResume_eq]
    split <;> exact h
  | submitRegister =>
    simp only [applyEvent, onSubmitRegister_eq]
    split <;> exact h
  | confirmClick =>
    simp only [applyEvent, onConfirmBegin_snd]
    split <;> exact h
  | _ => exact h

theorem verified_step (ev : Event) (s : State) (h0 : s.otp.verified = false)
    (h1 : (applyEvent ev s).otp.verified = true) :
    ∃ captured : Otp, ev = Event.verifyDone captured ∧
      getOtpCode captured = captured.serverCode := by
  cases ev with
  | verifyDone captured =>
    simp only [applyEvent, verifyOtpResume_eq] at h1
    by_cases hc : getOtpCode captured = captured.serverCode
    · exact ⟨captured, rfl, hc⟩
    · simp [hc, h0] at h1
  | verifySubmit =>
    simp only [applyEvent, verifyOtpBegin_eq] at h1
    split at h1 <;> simp [h0] at h1
  | sendClick =>
    simp only [applyEvent, sendOtpBegin_eq] at h1
    split at h1 <;> simp [h0] at h1
  | sendDone r phone => simp [applyEvent, sendOtpResume_eq] at h1
  | submitRegister =>
    simp only [applyEvent, onSubmitRegister_eq] at h1
    split at h1 <;> simp [h0] at h1
  | confirmClick =>
    simp only [applyEvent, onConfirmBegin_snd] at h1
    split at h1 <;> simp [h0] at h1
  | otpChange i v =>
    cases hl : (stripNonDigits v.data).getLast? <;>
      simp [applyEvent, onChange, hl, setDigit, h0] at h1
  | otpKeyDown i key =>
    simp only [applyEvent, onKeyDown, setDigit] at h1
    split at h1
    · split at h1
      · simp [h0] at h1
      · split at h1 <;> simp [h0] at h1
    · simp [h0] at h1
  | otpPaste clip =>
    simp only [applyEvent, onPaste] at h1
    split at h1 <;> simp [h0] at h1
  | timerTick => simp [applyEvent, tick, h0] at h1
  | _ => simp [applyEvent, onConfirmResume_eq, h0] at h1

theorem verifyOtp_raises (s : State) (h0 : s.otp.verified = false)
    (h1 : (verifyOtp s).2.otp.verified = true) :
    s.otp.sent = true ∧ jsLength (getOtpCode s.otp) = 6 ∧
      getOtpCode s.otp = s.otp.serverCode := by
  rw [verifyOtp_eq] at h1
  cases hk : (otpStepErrors s.otp).noKeys
  · simp [hk, h0] at h1
  · have hv := (otpStepErrors_noKeys s.otp).1 hk
    by_cases hc : getOtpCode s.otp = s.otp.serverCode
    · exact ⟨hv.1, hv.2, hc⟩
    · simp [hk, hc, h0] at h1

theorem step_range_step (ev : Event) (s : State)
    (hs : s.step = 1 ∨ s.step = 2 ∨ s.step = 3) :
    (applyEvent ev s).step = 1 ∨ (applyEvent ev s).step = 2 ∨ (applyEvent ev s).step = 3 := by
  cases ev with
  | verifyDone captured =>
    simp only [applyEvent, verifyOtpResume_eq]
    split
    · exact Or.inr (Or.inr rfl)
    · exact hs
  | verifySubmit =>
    simp only [applyEvent, verifyOtpBegin_eq]
    split <;> exact hs
  | sendClick =>
    simp only [applyEvent, sendOtpBegin_eq]
    split <;> exact hs
  | submitRegister =>
    simp only [applyEvent, onSubmitRegister_eq]
    split
    · exact hs
    · exact Or.inr (Or.inl rfl)
  | confirmClick =>
    simp only [applyEvent, onConfirmBegin_snd]
    split <;> exact hs
  | changeNumber => exact Or.inl rfl
  | backToOtp => exact Or.inr (Or.inl rfl)
  | _ => exact hs

theorem flowInv_init (prefill : Register) : FlowInv (initialState prefill) := by
  refine ⟨Or.inl rfl, fun h => ?_, digitsOk_initial⟩
  simp [initialState, initialOtp] at h

theorem flowInv_step (banks : List Bank) (ev : Event) (pg : Page) (h : FlowInv pg.state)
    (hp : PendingInv pg) (he : canHappen banks ev pg = true) :
    FlowInv (pageStep ev pg).state := by
  obtain ⟨h1, h2, h3⟩ := h
  rw [pageStep_state]
  refine ⟨step_range_step ev _ h1, fun hv => ?_, digitsOk_step ev _ h3⟩
  cases hv0 : pg.state.otp.verified
  · obtain ⟨captured, hev, -⟩ := verified_step ev _ hv0 hv
    subst hev
    have hne : pg.verifies ≠ [] := by
      simp only [canHappen, beq_iff_eq] at he
      intro h0
      rw [h0] at he
      cases he
    exact sent_step _ _ (hp.2.1 hne)
  · exact sent_step ev _ (h2 hv0)

theorem pageReachable_flowInv {banks : List Bank} {prefill : Register} {pg : Page}
    (h : PageReachable banks prefill pg) : FlowInv pg.state := by
  induction h with
  | init => exact flowInv_init prefill
  | step ev hr he ih => exact flowInv_step banks ev _ ih (pageReachable_pending hr) he

theorem reachable_flowInv {banks : List Bank} {prefill : Register} {s : State}
    (h : Reachable banks prefill s) : FlowInv s := by
  obtain ⟨pg, hpg, rfl⟩ := h
  exact pageReachable_flowInv hpg

theorem onChange_eq (i : Nat) (v : String) (p : Otp) :
    onChange i v p =
      setDigit i (match (stripNonDigits v.data).getLast? with
                  | none => ""
                  | some c => ⟨[c]⟩) p := by
  cases hl : (stripNonDigits v.data).getLast? <;> simp [onChange, hl]

/-- C22: in every reachable state the digit buffer has exactly 6 slots, each
the empty string or one decimal digit. The shape is kept by every digit edit
(`onChange` with any input text at an index in 0..5), key press, paste and
send, from any buffer of that shape. An `onChange` at a rendered index `i` changes slot `i` only: to the
empty string when the input text has no digit, to its last digit otherwise. -/
theorem digit_buffer_invariant :
    (∀ (banks : List Bank) (prefill : Register) (s : State), Reachable banks prefill s →
      s.otp.digits.length = 6 ∧
      ∀ d ∈ s.otp.digits, d = "" ∨ ∃ c : Char, isDecimalDigit c = true ∧ d = ⟨[c]⟩) ∧
    (∀ (p : Otp), DigitsOk p.digits →
      (∀ i v, i ≤ 5 → DigitsOk (onChange i v p).digits) ∧
      (∀ i key, i ≤ 5 → DigitsOk (onKeyDown i key p).digits) ∧
      (∀ clip, DigitsOk (onPaste clip p).digits)) ∧
    (∀ (r : JsNumber) (s : State), DigitsOk s.otp.digits → DigitsOk (sendOtp r s).2.otp.digits) ∧
    (∀ (i : Nat) (v : String) (p : Otp), i < p.digits.length →
      (onChange i v p).digits[i]? =
        some (match (stripNonDigits v.data).getLast? with
              | none => ""
              | some c => ⟨[c]⟩) ∧
      (∀ k, k ≠ i → (onChange i v p).digits[k]? = p.digits[k]?) ∧
      onChange i v p = { p with digits := (onChange i v p).digits }) := by
  refine ⟨fun banks prefill s h => (reachable_flowInv h).2.2, fun p h =>
    ⟨fun i v _ => digitsOk_onChange i v p h, fun i key _ => digitsOk_onKeyDown i key p h,
      fun clip => digitsOk_onPaste clip p h⟩,
    fun r s h => digitsOk_sendOtp r s h, fun i v p hi => ?_⟩
  rw [onChange_eq]
  refine ⟨?_, fun k hk => ?_, rfl⟩
  · simp only [setDigit]
    rw [List.getElem?_set_self hi]
  · simp only [setDigit]
    rw [List.getElem?_set_ne (fun h' => hk h'.symm)]

theorem digit_buffer_invariant_witness :
    Reachable BANKS demoProfile
      (runEvents
        [.submitRegister, .sendClick, .sendDone halfDraw "77123456", .otpChange 2 "x45",
          .otpKeyDown 3 "Backspace"]
        (initialPage demoProfile)).state ∧
    ((runEvents
        [.submitRegister, .sendClick, .sendDone halfDraw "77123456", .otpChange 2 "x45",
          .otpKeyDown 3 "Backspace"]
        (initialPage demoProfile)).state.otp.digits.length = 6 ∧
      ∀ d ∈ (runEvents
          [.submitRegister, .sendClick, .sendDone halfDraw "77123456", .otpChange 2 "x45",
            .otpKeyDown 3 "Backspace"]
          (initialPage demoProfile)).state.otp.digits,
        d = "" ∨ ∃ c : Char, isDecimalDigit c = true ∧ d = ⟨[c]⟩) ∧
    (onChange 2 "x45" initialOtp).digits = ["", "", "5", "", "", ""] ∧
    (onChange 2 "x" coolingState.otp).digits = ["1", "2", "", "", "", ""] ∧
    ((2 : Nat) < initialOtp.digits.length ∧
      (onChange 2 "x45" initialOtp).digits[2]? =
        some (match (stripNonDigits "x45".data).getLast? with
              | none => ""
              | some c => ⟨[c]⟩) ∧
      (∀ k, k ≠ 2 → (onChange 2 "x45" initialOtp).digits[k]? = initialOtp.digits[k]?) ∧
      onChange 2 "x45" initialOtp =
        { initialOtp with digits := (onChange 2 "x45" initialOtp).digits }) :=
  ⟨reachable_state (reachable_run _ PageReachable.init (by decide!)),
    digit_buffer_invariant.1 BANKS demoProfile _
      (reachable_state (reachable_run _ PageReachable.init (by decide!))),
    by decide, by decide,
    by decide, digit_buffer_invariant.2.2.2 2 "x45" initialOtp (by decide)⟩

/-- C23: `verified` goes from false to true only when a `verifyOtp` completes
whose captured digits, joined, equal its captured `serverCode`; that call was
taken with `sent = true` and six joined digits, and `sent` still holds when it
completes. No digit edit, paste, tick, send or navigation raises `verified`.
Run with no other event in between, `verifyOtp` raises `verified` only from a
state with `sent = true` and six joined digits equal to `serverCode`. Hence
every reachable state with `verified = true` has `sent = true`. -/
theorem verified_only_by_match (banks : List Bank) (prefill : Register) :
    (∀ (ev : Event) (s : State), s.otp.verified = false →
      (applyEvent ev s).otp.verified = true →
      ∃ captured : Otp, ev = Event.verifyDone captured ∧
        getOtpCode captured = captured.serverCode) ∧
    (∀ (pg : Page) (captured : Otp), PageReachable banks prefill pg →
      canHappen banks (Event.verifyDone captured) pg = true →
      captured.sent = true ∧ jsLength (getOtpCode captured) = 6 ∧
        pg.state.otp.sent = true) ∧
    (∀ s : State, s.otp.verified = false → (verifyOtp s).2.otp.verified = true →
      s.otp.sent = true ∧ jsLength (getOtpCode s.otp) = 6 ∧
        getOtpCode s.otp = s.otp.serverCode) ∧
    (∀ s : State, Reachable banks prefill s → s.otp.verified = true → s.otp.sent = true) := by
  refine ⟨fun ev s h0 h1 => verified_step ev s h0 h1, fun pg captured hr he => ?_,
    fun s h0 h1 => verifyOtp_raises s h0 h1, fun _ h hv => (reachable_flowInv h).2.1 hv⟩
  have hp := pageReachable_pending hr
  simp only [canHappen, beq_iff_eq] at he
  have hm : captured ∈ pg.verifies := List.mem_of_mem_head? he
  exact ⟨(hp.1 captured hm).1, (hp.1 captured hm).2, hp.2.1 (List.ne_nil_of_mem hm)⟩

theorem verified_only_by_match_witness :
    (readyState.otp.verified = false ∧
      (applyEvent (Event.verifyDone readyState.otp) readyState).otp.verified = true ∧
      ∃ captured : Otp, Event.verifyDone readyState.otp = Event.verifyDone captured ∧
        getOtpCode captured = captured.serverCode) ∧
    (PageReachable BANKS demoProfile
        (runEvents (demoRun.take 5) (initialPage demoProfile)) ∧
      canHappen BANKS (Event.verifyDone demoOtp)
        (runEvents (demoRun.take 5) (initialPage demoProfile)) = true ∧
      demoOtp.sent = true ∧ jsLength (getOtpCode demoOtp) = 6 ∧
      (runEvents (demoRun.take 5) (initialPage demoProfile)).state.otp.sent = true) ∧
    (readyState.otp.verified = false ∧ (verifyOtp readyState).2.otp.verified = true ∧
      readyState.otp.sent = true ∧ jsLength (getOtpCode readyState.otp) = 6 ∧
      getOtpCode readyState.otp = readyState.otp.serverCode) ∧
    (Reachable BANKS demoProfile (runEvents demoRun (initialPage demoProfile)).state ∧
      (runEvents demoRun (initialPage demoProfile)).state.otp.verified = true ∧
      (runEvents demoRun (initialPage demoProfile)).state.otp.sent = true) :=
  ⟨⟨by decide, by decide,
      (verified_only_by_match BANKS demoProfile).1 (Event.verifyDone readyState.otp) readyState
        (by decide) (by decide)⟩,
    ⟨reachable_run _ PageReachable.init (by decide!), by decide!,
      (verified_only_by_match BANKS demoProfile).2.1 _ demoOtp
        (reachable_run _ PageReachable.init (by decide!)) (by decide!)⟩,
    ⟨by decide, by decide,
      (verified_only_by_match BANKS demoProfile).2.2.1 readyState (by decide) (by decide)⟩,
    reachable_state (reachable_run _ PageReachable.init (by decide!)), by decide!,
    (verified_only_by_match BANKS demoProfile).2.2.2 _
      (reachable_state (reachable_run _ PageReachable.init (by decide!))) (by decide!)⟩

/-- C24 at the failing input: the code is sent, pasted and submitted once the
cooldown is over, and the send button, which stays enabled during the 550 ms
of `verifyOtp`, is clicked before the verification completes. The verification
completes first and moves to step 3 with `verified = true`; the send completes
after it and sets `verified` back to false without touching the step. The page
is then at step 3 with `verified = false`, the draft can be filled in and
confirmed, and the pending `onConfirm` will pass `otpVerified = false` to
`onDone`. -/
theorem step_three_unverified :
    PageReachable BANKS demoProfile (runEvents overlapRun (initialPage demoProfile)) ∧
    Reachable BANKS demoProfile (runEvents overlapRun (initialPage demoProfile)).state ∧
    (runEvents overlapRun (initialPage demoProfile)).state.step = 3 ∧
    (runEvents overlapRun (initialPage demoProfile)).state.otp.verified = false ∧
    (runEvents overlapRun (initialPage demoProfile)).confirms.map (·.otpVerified) = [false] ∧
    canHappen BANKS Event.confirmDone (runEvents overlapRun (initialPage demoProfile)) = true :=
  ⟨reachable_run _ PageReachable.init (by decide!),
    reachable_state (reachable_run _ PageReachable.init (by decide!)),
    by decide!, by decide!, by decide!, by decide!⟩

/-- C25 at the failing input: after a sign-up has completed onboarding and the
page was reloaded, the restored session names a user that `users` no longer
holds; completing onboarding again prepends a record whose `userId` is the id
of no user. -/
theorem onDone_dangling_owner :
    sessionUserId reloadedApp = some "u_8a3f1c" ∧
    reloadedApp.users = FAKE_USERS ∧
    (onDone demoEnv demoData reloadedApp).users.map (·.id) = ["u_admin", "u_client"] ∧
    (onDone demoEnv demoData reloadedApp).cotisations.head?.map (·.userId) = some "u_8a3f1c" ∧
    ∀ u ∈ (onDone demoEnv demoData reloadedApp).users, u.id ≠ "u_8a3f1c" := by
  decide!

/-- C26: a paste whose text contains no decimal digit changes nothing: for
every prior `otp` state, `onPaste` returns it as it was, all six slots
included. -/
theorem onPaste_no_digit_noop (clip : String) (p : Otp)
    (h : ∀ c ∈ clip.data, isDecimalDigit c = false) :
    onPaste clip p = p ∧ (onPaste clip p).digits = p.digits := by
  have hs : stripNonDigits clip.data = [] := by
    simp only [stripNonDigits, List.filter_eq_nil_iff]
    intro c hc
    simp [h c hc]
  rw [onPaste_no_digits clip p hs]
  exact ⟨rfl, rfl⟩

theorem onPaste_no_digit_noop_witness :
    (∀ c ∈ "a-b c".data, isDecimalDigit c = false) ∧
    onPaste "a-b c" matchingState.otp = matchingState.otp ∧
    (onPaste "a-b c" matchingState.otp).digits = matchingState.otp.digits :=
  ⟨by decide, onPaste_no_digit_noop "a-b c" matchingState.otp (by decide)⟩

end Cotisation
